import Mathlib

/-!
Server map-spawn core of the Polyhedron engine (`src/server/init.cpp`).

A shallow embedding of `SV_ClientReset`, `SV_ParseMapCmd`, `override_entity_string`,
`SV_SpawnServer` and `SV_InitGame`, with the process-wide records (`sv`, the client list, the cvars)
passed explicitly and every call into a collaborator outside the file recorded in a trace.

Character arrays are lists of characters, a `char *` into an array is an offset, and a
C string is the run of characters from an offset up to the first NUL.
-/

namespace Polyhedron

/-! ## C strings -/

/-- The string terminator. -/
def NUL : Char := Char.ofNat 0

/-- The double quote, as printed by the `\"` escape of a C format. -/
def DQUOTE : Char := Char.ofNat 34

/-- The line feed that ends a console line. -/
def LF : Char := Char.ofNat 10

/-- The C string that starts at offset `p` of the character array `mem`. -/
def cstr (mem : List Char) (p : Nat) : List Char :=
  (mem.drop p).takeWhile (fun c => c != NUL)

/-- The libc `strlen` of the C string at offset `p`. -/
def strlen (mem : List Char) (p : Nat) : Nat :=
  (cstr mem p).length

/-- The libc `strchr(s, c)` for a character `c` other than NUL: the offset of the first
`c` of the C string at `p`, or `none` (the null pointer) when it has none. -/
def strchr (mem : List Char) (p : Nat) (c : Char) : Option Nat :=
  if c ∈ cstr mem p then some (p + (cstr mem p).indexOf c) else none

/-- The read `*p` of a character array; past the array it reads NUL. -/
def peek (mem : List Char) (p : Nat) : Char :=
  mem.getD p NUL

/-- The write `*p = c` into a character array. -/
def poke (mem : List Char) (p : Nat) (c : Char) : List Char :=
  mem.set p c

/-- The length `Q_concat(dest, size, s1, ..., NULL)` returns: the summed length of the
pieces, whether or not it fits `size`. -/
def Q_concat (pieces : List (List Char)) : Nat :=
  (pieces.map List.length).sum

/-- The text `Q_concat` leaves in `dest` when the returned length is below `size`. -/
def Q_concat_text (pieces : List (List Char)) : List Char :=
  pieces.flatten

/-- The 32-bit mix `(r1 | (r2 << 16)) ^ ms` masked with `0x7FFFFFFF` (init.cpp:155-156),
for the two values of `rand()` and the value of `Sys_Milliseconds()`. -/
def spawncountMix (r1 r2 ms : Nat) : Nat :=
  (((r1 ||| (r2 <<< 16)) ^^^ ms) % 2 ^ 32) &&& 0x7FFFFFFF

/-- The text `Q_strlcpy(dst, src, size)` leaves in `dst`: at most `size - 1` characters. -/
def Q_strlcpy (src : List Char) (size : Nat) : List Char :=
  src.take (size - 1)

/-- The text `sprintf(dst, "%d", n)` writes: the decimal digits of `n`, with a sign when
`n` is negative. -/
def sprintf_d (n : Int) : List Char :=
  match n with
  | Int.ofNat 0 => ['0']
  | Int.ofNat (k + 1) => ((Nat.digits 10 (k + 1)).reverse.map Nat.digitChar)
  | Int.negSucc k => '-' :: ((Nat.digits 10 (k + 1)).reverse.map Nat.digitChar)

/-- The value of the cast `(int)x` of a 32-bit unsigned `x`. -/
def toInt32 (x : Nat) : Int :=
  if x % 2 ^ 32 < 2 ^ 31 then ((x % 2 ^ 32 : Nat) : Int) else ((x % 2 ^ 32 : Nat) : Int) - 2 ^ 32

/-! ## Data model -/

/-- Modelled from the spec: the connection-state enumeration is declared in `server.h`,
which is not among the sources; the spec lists Disconnected, Connected and Spawned/Active,
in increasing order. -/
inductive ConnectionState where
  | Disconnected
  | Connected
  | Spawned
  deriving DecidableEq, Repr

/-- The integer value of a connection state, which `<` compares. -/
def ConnectionState.rank : ConnectionState → Nat
  | .Disconnected => 0
  | .Connected => 1
  | .Spawned => 2

/-- Modelled from the spec: the level lifecycle enumeration `ServerState` is declared in a
header that is not among the sources; zeroed memory is `Dead`. -/
inductive ServerState where
  | Dead
  | Loading
  | Game
  | Pic
  | Cinematic
  deriving DecidableEq, Repr

/-- Modelled from the spec: the configstring slots `init.cpp` writes, keyed by the fixed
enumeration `ConfigStrings` (declared outside the sources); `Models k` is the slot
`ConfigStrings::Models + k`. -/
inductive ConfigStrings where
  | Name
  | AirAcceleration
  | MaxClients
  | MapCheckSum
  | Models (k : Nat)
  deriving DecidableEq, Repr

/-- The fields of `client_t` that `init.cpp` reads or writes, with the session's edict
binding and slot number. `lastClientUserCommand` is kept as its raw bytes and
`lastFrame` is a signed frame number. -/
structure client_t where
  connectionState : ConnectionState
  frameNumber : Int
  lastFrame : Int
  framesNoDelta : Int
  sendDelta : Int
  suppressCount : Int
  lastClientUserCommand : List Nat
  spawncount : Int
  edict : Nat
  number : Nat
  deriving DecidableEq, Repr

/-- The part of the cached BSP (`sv.cm.cache`) that `init.cpp` reads. -/
structure bsp_t where
  checksum : Nat
  nummodels : Int
  entityString : List Char
  deriving DecidableEq, Repr

/-- The collision model handle; `cache` is a pointer, null when nothing is loaded. -/
structure cm_t where
  cache : Option bsp_t
  deriving DecidableEq, Repr

/-- The map command record; `server` and `spawnpoint` are pointers into `buffer`. -/
structure MapCommand where
  buffer : List Char
  server : Option Nat
  spawnpoint : Option Nat
  endofunit : Bool
  serverState : ServerState
  cm : cm_t
  deriving DecidableEq, Repr

/-- The per-level record `sv`. -/
structure server_t where
  serverState : ServerState
  spawncount : Int
  frameNumber : Int
  name : List Char
  mapcmd : List Char
  configstrings : ConfigStrings → List Char
  cm : cm_t
  entityString : Option (List Char)

/-- The `sv` that `memset(&sv, 0, sizeof(sv))` leaves. -/
def server_t.zero : server_t :=
  { serverState := ServerState.Dead, spawncount := 0, frameNumber := 0, name := [],
    mapcmd := [], configstrings := fun _ => [], cm := { cache := none },
    entityString := none }

/-- The console variables `init.cpp` reads or sets. -/
structure Cvars where
  nextserver : List Char
  deathmatch : Int
  coop : Int
  maxclients : Int
  sv_airaccelerate : Int
  map_override_path : List Char
  dedicated : Int
  sv_running : ServerState
  sv_paused : List Char
  timedemo : List Char
  sv_reserved_slots : Int := 0
  deriving DecidableEq, Repr

/-- A call that leaves `init.cpp`, with the arguments that matter. -/
inductive Event where
  | SCR_BeginLoadingPlaque
  | Com_Printf (text : List Char)
  | Com_EPrintf (text : List Char)
  | Cvar_Set (name : List Char) (value : List Char)
  | FS_LoadFile (path : List Char)
  | CM_LoadMap (path : List Char)
  | SV_LoadFile (path : List Char)
  | SV_FreeFile
  | CM_FreeMap
  | SV_BroadcastCommand (text : List Char)
  | SV_SendClientMessages
  | SV_SendAsyncPackets
  | memset_sv
  | resolve_masters
  | SV_ClearWorld
  | SpawnEntities (mapname : List Char) (entities : List Char)
      (spawnpoint : Option (List Char))
  | RunFrame
  | SV_CheckForSavegame
  | SV_InfoSet (key : List Char)
  | EXEC_TRIGGER
  | SV_Shutdown
  | CL_Disconnect
  | Cvar_GetLatchedVars
  | Cvar_Reset (name : List Char)
  | NET_Config
  | deflateInit2
  | Com_Error (text : List Char)
  | SV_InitGameProgs
  deriving DecidableEq, Repr

/-- What one outside call sees: the call, and the client list and the level record as they
stand when the call is made. -/
structure Observation where
  call : Event
  clients : List client_t
  sv : server_t

/-- The process-wide state: the level record, the client list `FOR_EACH_CLIENT` walks,
`svs.next_entity`, the cvars and the trace of outside calls, oldest first; then the fields
of `svs` that `SV_InitGame` writes, and the log of what each outside call saw. -/
structure World where
  sv : server_t
  clients : List client_t
  next_entity : Nat
  warning_printed : Bool
  cvars : Cvars
  trace : List Event
  initialized : Bool := false
  client_pool : List client_t := []
  num_entities : Int := 0
  last_heartbeat : Int := 0
  log : List Observation := []

/-- The collaborators and constants that are declared outside the sources. The loaders
return what the C functions return: a length or a negative error code. -/
structure Services where
  MAX_QPATH : Nat
  MAX_MAP_ENTSTRING : Nat
  Q_ERR_SUCCESS : Int
  Q_ERR_NAMETOOLONG : Int
  Q_ERR_NOENT : Int
  Q_ERR_FBIG : Int
  SIZEOF_SV_NAME : Nat
  SIZEOF_SV_MAPCMD : Nat
  COM_CompareExtension : List Char → List Char → Int
  FS_LoadFile : List Char → Int
  CM_LoadMap : cm_t → List Char → Int × cm_t
  SV_LoadFile : List Char → Int × Option (List Char)
  SV_NoSaveGames : Cvars → Bool
  Q_concat_overflow : Nat → List (List Char) → List Char

/-- Makes one outside call: the call is appended to the trace, and to the log together
with the client list and the level record it sees. -/
def World.emit (w : World) (e : Event) : World :=
  { w with trace := w.trace ++ [e],
           log := w.log ++ [{ call := e, clients := w.clients, sv := w.sv }] }

/-! ## `SV_ClientReset` -/

/-- The function `SV_ClientReset` (init.cpp:24-38). -/
def SV_ClientReset (client : client_t) : client_t :=
  if client.connectionState.rank < ConnectionState.Connected.rank then
    client
  else
    { client with
      connectionState := ConnectionState.Connected
      frameNumber := 1
      lastFrame := -1
      framesNoDelta := 0
      sendDelta := 0
      suppressCount := 0
      lastClientUserCommand := List.replicate client.lastClientUserCommand.length 0 }

/-! ## `SV_ParseMapCmd` -/

/-- The text `va("gamemap \"%s\"", rest)`. -/
def va_gamemap (rest : List Char) : List Char :=
  "gamemap ".toList ++ [DQUOTE] ++ rest ++ [DQUOTE]

/-- The outcome of the load step of `SV_ParseMapCmd` (init.cpp:289-312): the error code
`ret`, the text in `expanded` (when it was built), the command and the world. -/
structure LoadResult where
  ret : Int
  expanded : Option (List Char)
  cmd : MapCommand
  world : World

/-- The load step of `SV_ParseMapCmd` (init.cpp:289-312), for the server name `s`. -/
def SV_ParseMapCmd_load (sys : Services) (w : World) (cmd : MapCommand) (s : List Char) :
    LoadResult :=
  if sys.COM_CompareExtension s ".pcx".toList = 0 then
    let len := Q_concat ["pics/".toList, s]
    if len ≥ sys.MAX_QPATH then
      { ret := sys.Q_ERR_NAMETOOLONG, expanded := none,
        cmd := { cmd with serverState := ServerState.Pic }, world := w }
    else
      let expanded := Q_concat_text ["pics/".toList, s]
      { ret := sys.FS_LoadFile expanded, expanded := some expanded,
        cmd := { cmd with serverState := ServerState.Pic },
        world := w.emit (Event.FS_LoadFile expanded) }
  else if sys.COM_CompareExtension s ".cin".toList = 0 then
    { ret := sys.Q_ERR_SUCCESS, expanded := none,
      cmd := { cmd with serverState := ServerState.Cinematic }, world := w }
  else
    let len := Q_concat ["maps/".toList, s, ".bsp".toList]
    if len ≥ sys.MAX_QPATH then
      { ret := sys.Q_ERR_NAMETOOLONG, expanded := none,
        cmd := { cmd with serverState := ServerState.Game }, world := w }
    else
      let expanded := Q_concat_text ["maps/".toList, s, ".bsp".toList]
      let r := sys.CM_LoadMap cmd.cm expanded
      { ret := r.1, expanded := some expanded,
        cmd := { cmd with cm := r.2, serverState := ServerState.Game },
        world := w.emit (Event.CM_LoadMap expanded) }

/-- The `+` split of `SV_ParseMapCmd` (init.cpp:268-276), for the token start `s`: the
buffer after the write `*ch = 0` and the value handed to `Cvar_Set("nextserver", ...)`. -/
def SV_ParseMapCmd_next (buffer : List Char) (s : Nat) : List Char × List Char :=
  match strchr buffer s '+' with
  | some ch => (poke buffer ch NUL, va_gamemap (cstr (poke buffer ch NUL) (ch + 1)))
  | none => (buffer, [])

/-- The `$` split of `SV_ParseMapCmd` (init.cpp:280-287), for the token start `s`: the
buffer after the write `*ch = 0` and the pointer stored in `cmd->spawnpoint`. -/
def SV_ParseMapCmd_spawnpoint (buffer : List Char) (s : Nat) : List Char × Nat :=
  match strchr buffer s '$' with
  | some ch => (poke buffer ch NUL, ch + 1)
  | none => (buffer, 0 + strlen buffer 0)

/-- The split step of `SV_ParseMapCmd` (init.cpp:260-287): the end-of-unit flag, the `+`
split with the `nextserver` setting, and the `$` split. Returns the command and the world. -/
def SV_ParseMapCmd_split (w : World) (cmd : MapCommand) : MapCommand × World :=
  let star := peek cmd.buffer 0 == '*'
  let s := if star then 1 else 0
  let endofunit := if star then true else cmd.endofunit
  let nx := SV_ParseMapCmd_next cmd.buffer s
  let w1 := { w with cvars := { w.cvars with nextserver := nx.2 } }
  let w2 := w1.emit (Event.Cvar_Set "nextserver".toList nx.2)
  let sp := SV_ParseMapCmd_spawnpoint nx.1 s
  ({ cmd with buffer := sp.1, server := some s, spawnpoint := some sp.2,
              endofunit := endofunit }, w2)

/-- The function `SV_ParseMapCmd` (init.cpp:254-320): the returned `qboolean`, the command
as left behind, and the world. -/
def SV_ParseMapCmd (sys : Services) (w : World) (cmd : MapCommand) :
    Bool × MapCommand × World :=
  let sp := SV_ParseMapCmd_split w cmd
  let s := cstr sp.1.buffer (sp.1.server.getD 0)
  let r := SV_ParseMapCmd_load sys sp.2 sp.1 s
  if r.ret < 0 then
    (false, r.cmd, r.world.emit (Event.Com_Printf ("Couldn't load ".toList ++ r.expanded.getD [])))
  else
    (true, r.cmd, r.world)

/-- The calls `SV_ParseMapCmd` adds to the trace. -/
def parseEvents (sys : Services) (w : World) (cmd : MapCommand) : List Event :=
  (SV_ParseMapCmd sys w cmd).2.2.trace.drop w.trace.length

/-- The server token of a parsed command: the C string `cmd->server`. -/
def serverToken (cmd : MapCommand) : List Char :=
  cstr cmd.buffer (cmd.server.getD 0)

/-! ### The token grammar `[*]name[$spawn][+next]` -/

/-- The optional leading star of a token. -/
def starPart (star : Bool) : List Char :=
  if star then ['*'] else []

/-- The optional `$spawn` part of a token. -/
def dollarPart : Option (List Char) → List Char
  | some sp => '$' :: sp
  | none => []

/-- The optional `+next` part of a token. -/
def plusPart : Option (List Char) → List Char
  | some nx => '+' :: nx
  | none => []

/-- The raw token `[*]name[$spawn][+next]` of the map command. -/
def mapToken (star : Bool) (name : List Char) (spawn next : Option (List Char)) : List Char :=
  starPart star ++ (name ++ (dollarPart spawn ++ plusPart next))

/-- The token after its optional leading star. -/
def tokenBody (token : List Char) : List Char :=
  if token.head? = some '*' then token.tail else token

/-- The `nextserver` value for a token: the `gamemap` command for the text after the
first `+`, the empty string when the token has no `+`. -/
def nextserverFor : Option (List Char) → List Char
  | some nx => va_gamemap nx
  | none => []

/-- The text after the primary token once its `+` has been overwritten. -/
def afterPlus (next : Option (List Char)) (pad : List Char) : List Char :=
  match next with
  | some nx => nx ++ NUL :: pad
  | none => pad

/-- The text after the server name once its `$` has been overwritten. -/
def afterDollar (spawn : Option (List Char)) (rest : List Char) : List Char :=
  match spawn with
  | some sp => sp ++ NUL :: rest
  | none => rest

/-- The buffer `[*]name NUL [spawn NUL] [next NUL] pad`, which is the buffer
`[*]name[$spawn][+next] NUL pad` with the first `+` and the first `$` overwritten. -/
def splitBuffer (star : Bool) (name : List Char) (spawn next : Option (List Char))
    (pad : List Char) : List Char :=
  starPart star ++ (name ++ NUL :: afterDollar spawn (afterPlus next pad))

/-- The calls that try to load a file or a map. -/
def Event.isLoad : Event → Bool
  | Event.FS_LoadFile _ => true
  | Event.CM_LoadMap _ => true
  | Event.SV_LoadFile _ => true
  | _ => false

/-- The reset of a session as the specification words it: a session below Connected is
untouched; any other session goes to Connected with frame sequence 1, no acknowledged
frame, cleared delta counters and a zeroed input snapshot, every other field kept. -/
def SV_ClientReset_reference (client : client_t) : client_t :=
  match client.connectionState with
  | ConnectionState.Disconnected => client
  | _ =>
    { connectionState := ConnectionState.Connected
      frameNumber := 1
      lastFrame := -1
      framesNoDelta := 0
      sendDelta := 0
      suppressCount := 0
      lastClientUserCommand := client.lastClientUserCommand.map (fun _ => 0)
      spawncount := client.spawncount
      edict := client.edict
      number := client.number }

/-! ## `override_entity_string` and `SV_SpawnServer` -/

/-- The write `sv.configstrings[slot] = text`. -/
def setConfigstring (cs : ConfigStrings → List Char) (slot : ConfigStrings)
    (text : List Char) : ConfigStrings → List Char :=
  fun k => if k = slot then text else cs k

/-- The function `override_entity_string` (init.cpp:70-108). -/
def override_entity_string (sys : Services) (w : World) (server : List Char) : World :=
  let path := w.cvars.map_override_path
  if path = [] then
    w
  else
    let len := Q_concat [path, server, ".ent".toList]
    if len ≥ sys.MAX_QPATH then
      w.emit (Event.Com_EPrintf "Couldn't load entity string".toList)
    else
      let buffer := Q_concat_text [path, server, ".ent".toList]
      let r := sys.SV_LoadFile buffer
      let w1 := w.emit (Event.SV_LoadFile buffer)
      match r.2 with
      | none =>
        if r.1 = sys.Q_ERR_NOENT then w1
        else w1.emit (Event.Com_EPrintf "Couldn't load entity string".toList)
      | some str =>
        if r.1 > sys.MAX_MAP_ENTSTRING then
          (w1.emit Event.SV_FreeFile).emit (Event.Com_EPrintf "Couldn't load entity string".toList)
        else
          let w2 := w1.emit (Event.Com_Printf ("Loaded entity string from ".toList ++ buffer))
          { w2 with sv := { w2.sv with entityString := some str } }

/-- The loop `for (i = 1; i < nummodels; i++) sprintf(configstrings[Models + 1 + i], "*%d", i)`
(init.cpp:187-189). -/
def setInlineModels (cs : ConfigStrings → List Char) (nummodels : Int) :
    ConfigStrings → List Char :=
  (List.range' 1 (nummodels.toNat - 1)).foldl
    (fun acc i => setConfigstring acc (ConfigStrings.Models (1 + i)) ('*' :: sprintf_d i)) cs

/-- The start of `SV_SpawnServer` (init.cpp:125-147): the loading plaque, the console
lines, the reset of every session, the first broadcast and the flush. -/
def SV_SpawnServer_announce (sys : Services) (w : World) (server : List Char) : World :=
  let w := w.emit Event.SCR_BeginLoadingPlaque
  let w := w.emit (Event.Com_Printf "------- Server Initialization -------".toList)
  let w := w.emit (Event.Com_Printf ("SpawnServer: ".toList ++ server))
  let w :=
    if w.cvars.dedicated ≠ 0 ∧ sys.SV_NoSaveGames w.cvars = false ∧ w.warning_printed = false then
      { (w.emit (Event.Com_Printf "WARNING: Dedicated coop servers save game state".toList))
        with warning_printed := true }
    else w
  let w := { w with clients := w.clients.map SV_ClientReset }
  let w := w.emit (Event.SV_BroadcastCommand ("changing map=".toList ++ server ++ [LF]))
  let w := w.emit Event.SV_SendClientMessages
  w.emit Event.SV_SendAsyncPackets

/-- The wipe of `SV_SpawnServer` (init.cpp:149-177): the old level is freed and zeroed,
the new spawn count is stored and copied to every session, the name slots are filled. -/
def SV_SpawnServer_wipe (sys : Services) (w : World) (cmd : MapCommand) (server : List Char)
    (r1 r2 ms : Nat) : World :=
  let w := w.emit Event.CM_FreeMap
  let w := w.emit Event.SV_FreeFile
  let w := { w with sv := server_t.zero }
  let w := w.emit Event.memset_sv
  let w := { w with sv := { w.sv with spawncount := (spawncountMix r1 r2 ms : Nat) } }
  let w := { w with clients := w.clients.map (fun (client : client_t) =>
              { client with spawncount := w.sv.spawncount }) }
  let w := { w with next_entity := 0 }
  let w := { w with sv := { w.sv with
              configstrings := setConfigstring w.sv.configstrings ConfigStrings.Name
                (Q_strlcpy server sys.MAX_QPATH) } }
  let w := { w with sv := { w.sv with name := Q_strlcpy server sys.SIZEOF_SV_NAME } }
  let w := { w with sv := { w.sv with
              mapcmd := Q_strlcpy (cstr cmd.buffer 0) sys.SIZEOF_SV_MAPCMD } }
  let w := { w with sv := { w.sv with
              configstrings := setConfigstring w.sv.configstrings ConfigStrings.AirAcceleration
                (if w.cvars.deathmatch ≠ 0 then sprintf_d w.cvars.sv_airaccelerate
                 else ['0']) } }
  w.emit Event.resolve_masters

/-- The branch on the asset kind of `SV_SpawnServer` (init.cpp:179-196): the world and
the entity string for the game module; `none` when a Game command has no loaded model
(`sv.cm.cache` is then a null pointer that the code dereferences). -/
def SV_SpawnServer_level (sys : Services) (w : World) (cmd : MapCommand)
    (server : List Char) : Option (World × List Char) :=
  if cmd.serverState = ServerState.Game then
    let w := override_entity_string sys w server
    let w := { w with sv := { w.sv with cm := cmd.cm } }
    match w.sv.cm.cache with
    | none => none
    | some cache =>
      let w := { w with sv := { w.sv with
                  configstrings := setConfigstring w.sv.configstrings ConfigStrings.MapCheckSum
                    (sprintf_d (toInt32 cache.checksum)) } }
      let model :=
        if Q_concat ["maps/".toList, server, ".bsp".toList] < sys.MAX_QPATH then
          Q_concat_text ["maps/".toList, server, ".bsp".toList]
        else sys.Q_concat_overflow sys.MAX_QPATH ["maps/".toList, server, ".bsp".toList]
      let w := { w with sv := { w.sv with
                  configstrings := setConfigstring w.sv.configstrings
                    (ConfigStrings.Models 1) model } }
      let w := { w with sv := { w.sv with
                  configstrings := setInlineModels w.sv.configstrings cache.nummodels } }
      some (w, match w.sv.entityString with
               | some str => str
               | none => cache.entityString)
  else
    let w := { w with sv := { w.sv with
                configstrings := setConfigstring w.sv.configstrings ConfigStrings.MapCheckSum
                  ['0'] } }
    some (w, [])

/-- The end of `SV_SpawnServer` (init.cpp:198-243): the entity spawn, the two settle
frames, the publication of the level and the second broadcast. -/
def SV_SpawnServer_publish (w : World) (cmd : MapCommand) (entityString : List Char) : World :=
  let w := w.emit Event.SV_ClearWorld
  let w := { w with sv := { w.sv with serverState := ServerState.Loading } }
  let w := w.emit (Event.SpawnEntities w.sv.name entityString
                    (cmd.spawnpoint.map (cstr cmd.buffer)))
  let w := w.emit Event.RunFrame
  let w := { w with sv := { w.sv with frameNumber := w.sv.frameNumber + 1 } }
  let w := w.emit Event.RunFrame
  let w := { w with sv := { w.sv with frameNumber := w.sv.frameNumber + 1 } }
  let w := { w with sv := { w.sv with
              configstrings := setConfigstring w.sv.configstrings ConfigStrings.MaxClients
                (sprintf_d w.cvars.maxclients) } }
  let w := w.emit Event.SV_CheckForSavegame
  let w := { w with sv := { w.sv with serverState := cmd.serverState } }
  let w := w.emit (Event.SV_InfoSet "mapName".toList)
  let w := w.emit (Event.SV_InfoSet "port".toList)
  let w := { w with cvars := { w.cvars with sv_running := w.sv.serverState } }
  let w := { w with cvars := { w.cvars with sv_paused := ['0'] } }
  let w := { w with cvars := { w.cvars with timedemo := ['0'] } }
  let w := w.emit Event.EXEC_TRIGGER
  let w := w.emit (Event.SV_BroadcastCommand ("reconnect".toList ++ [LF]))
  w.emit (Event.Com_Printf "-------------------------------------".toList)

/-- The function `SV_SpawnServer` (init.cpp:119-244), for the values `r1` and `r2` of the
two `rand()` calls and `ms` of `Sys_Milliseconds()`. The result is `none` when the code
dereferences a null pointer: `cmd->server` is null, or the command is a Game command
without a loaded collision model. Calls into the game module and the other collaborators
are recorded in the trace; what they do to their own state is outside the model. -/
def SV_SpawnServer (sys : Services) (w : World) (cmd : MapCommand) (r1 r2 ms : Nat) :
    Option World :=
  match cmd.server with
  | none => none
  | some p =>
    let server := cstr cmd.buffer p
    let w := SV_SpawnServer_announce sys w server
    let w := SV_SpawnServer_wipe sys w cmd server r1 r2 ms
    match SV_SpawnServer_level sys w cmd server with
    | none => none
    | some (w, entityString) => some (SV_SpawnServer_publish w cmd entityString)

/-- The calls `SV_SpawnServer` adds to the trace (none when it does not return). -/
def spawnEvents (sys : Services) (w : World) (cmd : MapCommand) (r1 r2 ms : Nat) :
    List Event :=
  match SV_SpawnServer sys w cmd r1 r2 ms with
  | some w1 => w1.trace.drop w.trace.length
  | none => []

/-- The calls that clients or the game module observe: the broadcasts, the outbound
flush, the wipe of the level record, the entity spawn and the settle frames. -/
def Event.isSync : Event → Bool
  | Event.SV_BroadcastCommand _ => true
  | Event.SV_SendClientMessages => true
  | Event.SV_SendAsyncPackets => true
  | Event.memset_sv => true
  | Event.SpawnEntities _ _ _ => true
  | Event.RunFrame => true
  | _ => false

/-- The broadcasts. -/
def Event.isBroadcast : Event → Bool
  | Event.SV_BroadcastCommand _ => true
  | _ => false

/-- The calls that reach the clients: the broadcasts and the outbound flush. -/
def Event.isNet : Event → Bool
  | Event.SV_BroadcastCommand _ => true
  | Event.SV_SendClientMessages => true
  | Event.SV_SendAsyncPackets => true
  | _ => false

/-- What the outside calls of `SV_SpawnServer` saw, in order (none when it does not
return). -/
def spawnLog (sys : Services) (w : World) (cmd : MapCommand) (r1 r2 ms : Nat) :
    List Observation :=
  match SV_SpawnServer sys w cmd r1 r2 ms with
  | some w1 => w1.log.drop w.log.length
  | none => []

/-- The calls of the game module's `SpawnEntities`. -/
def Event.isSpawnEntities : Event → Bool
  | Event.SpawnEntities _ _ _ => true
  | _ => false

/-- The calls of `SV_FreeFile`. -/
def Event.isFree : Event → Bool
  | Event.SV_FreeFile => true
  | _ => false

/-- The text of the first broadcast of `SV_SpawnServer`. -/
def changingMapText (server : List Char) : List Char :=
  "changing map=".toList ++ server ++ [LF]

/-- The text of the second broadcast of `SV_SpawnServer`. -/
def reconnectText : List Char :=
  "reconnect".toList ++ [LF]

/-! ## `SV_InitGame` -/

/-- The constants, build switches and collaborators of `SV_InitGame` that are declared
outside the sources: the value of the macro `COM_DEDICATED` at the call, the switches
`USE_CLIENT` and `USE_ZLIB`, whether `deflateInit2` returns `Z_OK`, the numeric constants,
the size of the user command record and what `Cvar_GetLatchedVars` does to the cvars. -/
structure InitServices where
  COM_DEDICATED : Bool
  USE_CLIENT : Bool
  USE_ZLIB : Bool
  deflateInit2_ok : Bool
  CLIENTNUM_RESERVED : Int
  UPDATE_BACKUP : Int
  MAX_PACKET_ENTITIES : Int
  HEARTBEAT_SECONDS : Int
  SIZEOF_USERCMD : Nat
  Cvar_GetLatchedVars : Cvars → Cvars

/-- The write `Cvar_Set("maxclients", ...)` or `Cvar_SetInteger(sv_maxclients, ...)`;
`sv_maxclients` is the cvar `maxclients`. -/
def setMaxclients (w : World) (value : Int) (text : List Char) : World :=
  ({ w with cvars := { w.cvars with maxclients := value } }).emit
    (Event.Cvar_Set "maxclients".toList text)

/-- The game-mode step of `SV_InitGame` (init.cpp:357-368): coop is cleared when coop and
deathmatch are both set, and a dedicated server without coop is forced to deathmatch. -/
def SV_InitGame_gameMode (sys : InitServices) (w : World) : World :=
  let w :=
    if w.cvars.coop ≠ 0 ∧ w.cvars.deathmatch ≠ 0 then
      let w := w.emit (Event.Com_Printf "Deathmatch and Coop both set, disabling Coop".toList)
      ({ w with cvars := { w.cvars with coop := 0 } }).emit (Event.Cvar_Set "coop".toList ['0'])
    else w
  if sys.COM_DEDICATED then
    if w.cvars.coop = 0 then
      ({ w with cvars := { w.cvars with deathmatch := 1 } }).emit
        (Event.Cvar_Set "deathmatch".toList ['1'])
    else w
  else w

/-- The capacity step of `SV_InitGame` (init.cpp:370-382). -/
def SV_InitGame_maxclients (sys : InitServices) (w : World) : World :=
  if w.cvars.deathmatch ≠ 0 then
    if w.cvars.maxclients ≤ 1 then
      setMaxclients w 8 ['8']
    else if w.cvars.maxclients > sys.CLIENTNUM_RESERVED then
      setMaxclients w sys.CLIENTNUM_RESERVED (sprintf_d sys.CLIENTNUM_RESERVED)
    else w
  else if w.cvars.coop ≠ 0 then
    if w.cvars.maxclients ≤ 1 ∨ w.cvars.maxclients > 4 then
      setMaxclients w 4 ['4']
    else w
  else
    setMaxclients w 1 ['1']

/-- The effect of `Cvar_ClampInteger(var, min, max)` on the value of the cvar. -/
def Cvar_ClampInteger (value min max : Int) : Int :=
  if value < min then min else if value > max then max else value

/-- One zeroed `client_t`, as `SV_Mallocz` returns it. -/
def client_t.zero (sizeofUsercmd : Nat) : client_t :=
  { connectionState := ConnectionState.Disconnected, frameNumber := 0, lastFrame := 0,
    framesNoDelta := 0, sendDelta := 0, suppressCount := 0,
    lastClientUserCommand := List.replicate sizeofUsercmd 0, spawncount := 0, edict := 0,
    number := 0 }

/-- The start of `SV_InitGame` (init.cpp:336-355): the teardown, the latched cvars. -/
def SV_InitGame_begin (sys : InitServices) (w : World) : World :=
  let w :=
    if w.initialized then
      w.emit Event.SV_Shutdown
    else
      let w := w.emit Event.CL_Disconnect
      let w := w.emit Event.SCR_BeginLoadingPlaque
      let w := w.emit Event.CM_FreeMap
      let w := w.emit Event.SV_FreeFile
      ({ w with sv := server_t.zero }).emit Event.memset_sv
  let w := ({ w with cvars := sys.Cvar_GetLatchedVars w.cvars }).emit Event.Cvar_GetLatchedVars
  if sys.USE_CLIENT then w else w.emit (Event.Cvar_Reset "sv_recycle".toList)

/-- The allocation step of `SV_InitGame` (init.cpp:384-395): networking, the zeroed client
pool, the size of the entity pool (its storage is not modelled) and the clamp of
`sv_reserved_slots`. -/
def SV_InitGame_pools (sys : InitServices) (w : World) : World :=
  let w := if w.cvars.maxclients > 1 then w.emit Event.NET_Config else w
  let w := { w with client_pool :=
              List.replicate w.cvars.maxclients.toNat (client_t.zero sys.SIZEOF_USERCMD) }
  let w := { w with num_entities :=
              w.cvars.maxclients * sys.UPDATE_BACKUP * sys.MAX_PACKET_ENTITIES }
  { w with cvars := { w.cvars with
      sv_reserved_slots :=
        Cvar_ClampInteger w.cvars.sv_reserved_slots 0 (w.cvars.maxclients - 1) } }

/-- The end of `SV_InitGame` (init.cpp:406-420): the game module is started, the first
heartbeat is scheduled, every pooled session gets its slot number and its edict. -/
def SV_InitGame_finish (sys : InitServices) (w : World) : World :=
  let w := w.emit Event.SV_InitGameProgs
  let w := { w with last_heartbeat := -(sys.HEARTBEAT_SECONDS - 5) * 1000 }
  let w := { w with client_pool := w.client_pool.mapIdx (fun i (client : client_t) =>
              { client with edict := i + 1, number := i }) }
  { w with initialized := true }

/-- The function `SV_InitGame` (init.cpp:330-421). The result is `none` when the zlib
context cannot be set up: `Com_Error(ERR_FATAL, ...)` does not return. -/
def SV_InitGame (sys : InitServices) (w : World) : Option World :=
  let w := SV_InitGame_begin sys w
  let w := SV_InitGame_gameMode sys w
  let w := SV_InitGame_maxclients sys w
  let w := SV_InitGame_pools sys w
  if sys.USE_ZLIB then
    let w := w.emit Event.deflateInit2
    if sys.deflateInit2_ok then some (SV_InitGame_finish sys w)
    else none
  else some (SV_InitGame_finish sys w)

/-! ## Sample collaborators, for concrete runs -/

/-- Modelled from the spec: `COM_CompareExtension` is defined outside the sources; it
returns 0 when the file extension of `name` is `ext`. -/
def COM_CompareExtension (name ext : List Char) : Int :=
  if ext.isSuffixOf name then 0 else 1

/-- A sample collision model: checksum 305419896, three submodels. -/
def sampleBsp : bsp_t :=
  { checksum := 305419896, nummodels := 3, entityString := "worldspawn".toList }

/-- Sample collaborators: a file system that holds `pics/logo.pcx` (100 bytes) and the map
`maps/q2dm1.bsp`, `maps/base1.bsp` and `maps/base2.bsp`, no override files, and the path
limit 64 of the engine. -/
def sampleServices : Services :=
  { MAX_QPATH := 64
    MAX_MAP_ENTSTRING := 262144
    Q_ERR_SUCCESS := 0
    Q_ERR_NAMETOOLONG := -36
    Q_ERR_NOENT := -2
    Q_ERR_FBIG := -27
    SIZEOF_SV_NAME := 64
    SIZEOF_SV_MAPCMD := 64
    COM_CompareExtension := COM_CompareExtension
    SV_NoSaveGames := fun _ => false
    Q_concat_overflow := fun size pieces => pieces.flatten.take (size - 1)
    FS_LoadFile := fun path => if path = "pics/logo.pcx".toList then 100 else -2
    CM_LoadMap := fun cm path =>
      if path = "maps/q2dm1.bsp".toList ∨ path = "maps/base1.bsp".toList
          ∨ path = "maps/base2.bsp".toList then
        (0, { cache := some sampleBsp })
      else (-2, cm)
    SV_LoadFile := fun _ => (-2, none) }

/-- Sample cvars of a listen server in single-player mode. -/
def sampleCvars : Cvars :=
  { nextserver := "gamemap old".toList, deathmatch := 0, coop := 0, maxclients := 1,
    sv_airaccelerate := 0, map_override_path := [], dedicated := 0,
    sv_running := ServerState.Dead,
    sv_paused := [], timedemo := [] }

/-- A sample world: a dead level, no sessions. -/
def sampleWorld : World :=
  { sv := server_t.zero, clients := [], next_entity := 0, warning_printed := false,
    cvars := sampleCvars, trace := [] }

/-- A sample session that is fully in the game. -/
def sampleActive : client_t :=
  { connectionState := ConnectionState.Spawned, frameNumber := 77, lastFrame := 76,
    framesNoDelta := 3, sendDelta := 1, suppressCount := 2,
    lastClientUserCommand := [7, 0, 9], spawncount := 5, edict := 1, number := 0 }

/-- A sample session that never completed the handshake. -/
def sampleStale : client_t :=
  { sampleActive with connectionState := ConnectionState.Disconnected, edict := 2, number := 1 }

/-- A sample world with a session in the game and one that never completed the handshake. -/
def sampleLevel : World :=
  { sampleWorld with clients := [sampleActive, sampleStale] }

/-- The command a caller hands to `SV_ParseMapCmd`: zeroed, then the token copied into
`buffer` with its terminator. -/
def MapCommand.ofToken (token : List Char) : MapCommand :=
  { buffer := token ++ [NUL], server := none, spawnpoint := none, endofunit := false,
    serverState := ServerState.Dead, cm := { cache := none } }

/-- Sample constants of a listen server: the engine's 255 reserved client numbers. -/
def sampleInit : InitServices :=
  { COM_DEDICATED := false, USE_CLIENT := true, USE_ZLIB := true, deflateInit2_ok := true,
    CLIENTNUM_RESERVED := 255, UPDATE_BACKUP := 16, MAX_PACKET_ENTITIES := 128,
    HEARTBEAT_SECONDS := 300, SIZEOF_USERCMD := 16, Cvar_GetLatchedVars := fun c => c }

/-- Sample constants of a dedicated server. -/
def sampleDedicated : InitServices :=
  { sampleInit with COM_DEDICATED := true, USE_CLIENT := false }

/-- A sample world with the given game-mode flags and requested capacity. -/
def sampleMode (coop deathmatch maxclients : Int) : World :=
  { sampleWorld with cvars :=
      { sampleCvars with coop := coop, deathmatch := deathmatch, maxclients := maxclients } }

/-- A sample world with three sessions in the game. -/
def sampleThree : World :=
  { sampleWorld with clients := [sampleActive, sampleActive, sampleActive] }

/-- Sample collaborators with an override file `ents/q2dm1.ent` whose reported size is
`len` and whose text is `custom`. -/
def sampleOverrideServices (len : Int) : Services :=
  { sampleServices with
    SV_LoadFile := fun path =>
      if path = "ents/q2dm1.ent".toList then (len, some "custom".toList) else (-2, none) }

/-- A sample world whose override path is `ents/`. -/
def sampleOverrideWorld : World :=
  { sampleLevel with cvars := { sampleCvars with map_override_path := "ents/".toList } }

/-- The command `SV_ParseMapCmd` leaves for the token `q2dm1`. -/
def sampleGameCmd : MapCommand :=
  (SV_ParseMapCmd sampleServices sampleLevel (MapCommand.ofToken "q2dm1".toList)).2.1

/-- A Game command whose collision model has the checksum 0. -/
def sampleZeroChecksumCmd : MapCommand :=
  { sampleGameCmd with cm := { cache := some { sampleBsp with checksum := 0 } } }

/-- A token of 60 characters, too long for `maps/<token>.bsp` to fit 64 bytes. -/
def sampleLongToken : List Char :=
  List.replicate 60 'a'

/-! ## C strings: lemmas -/

theorem cstr_append (l1 l2 : List Char) :
    cstr (l1 ++ l2) l1.length = l2.takeWhile (fun c => c != NUL) := by
  simp [cstr]

theorem takeWhile_terminated (a rest : List Char) (h : NUL ∉ a) :
    (a ++ NUL :: rest).takeWhile (fun c => c != NUL) = a := by
  rw [List.takeWhile_append_of_pos]
  · simp
  · intro c hc
    have : c ≠ NUL := fun e => h (e ▸ hc)
    simpa using this

theorem cstr_terminated (pre a rest : List Char) (h : NUL ∉ a) :
    cstr (pre ++ (a ++ NUL :: rest)) pre.length = a := by
  rw [cstr_append, takeWhile_terminated a rest h]

theorem takeWhile_upto (a rest : List Char) (c : Char) (hc : c ≠ NUL) (h : NUL ∉ a) :
    (a ++ c :: rest).takeWhile (fun c => c != NUL)
      = a ++ c :: rest.takeWhile (fun c => c != NUL) := by
  rw [List.takeWhile_append_of_pos]
  · simp [hc]
  · intro x hx
    have : x ≠ NUL := fun e => h (e ▸ hx)
    simpa using this

theorem strchr_found (pre a rest : List Char) (c : Char) (hc : c ≠ NUL) (h0 : NUL ∉ a)
    (h : c ∉ a) : strchr (pre ++ (a ++ c :: rest)) pre.length c = some (pre.length + a.length) := by
  unfold strchr
  rw [cstr_append, takeWhile_upto a rest c hc h0]
  rw [if_pos (by simp)]
  rw [List.indexOf_append_of_not_mem h, List.indexOf_cons_self]
  simp

theorem strchr_none (pre a rest : List Char) (c : Char) (h0 : NUL ∉ a) (h : c ∉ a) :
    strchr (pre ++ (a ++ NUL :: rest)) pre.length c = none := by
  unfold strchr
  rw [cstr_terminated pre a rest h0, if_neg h]

theorem poke_at (pre a rest : List Char) (c d : Char) :
    poke (pre ++ (a ++ c :: rest)) (pre.length + a.length) d = pre ++ (a ++ d :: rest) := by
  unfold poke
  rw [List.set_append_right _ _ (Nat.le_add_right _ _)]
  rw [Nat.add_sub_cancel_left, List.set_append_right _ _ (Nat.le_refl _)]
  simp


theorem next_spec (pre primary pad : List Char) (next : Option (List Char))
    (hplus : '+' ∉ primary) (hnul : NUL ∉ primary)
    (hnext : ∀ nx, next = some nx → NUL ∉ nx) :
    SV_ParseMapCmd_next (pre ++ (primary ++ (plusPart next ++ NUL :: pad))) pre.length
      = (pre ++ (primary ++ NUL :: afterPlus next pad), nextserverFor next) := by
  cases next with
  | none =>
    simp only [plusPart, nextserverFor, List.nil_append, afterPlus, SV_ParseMapCmd_next]
    rw [strchr_none pre primary pad '+' hnul hplus]
  | some nx =>
    have h0 : NUL ∉ nx := hnext nx rfl
    simp only [plusPart, nextserverFor, List.cons_append, afterPlus, SV_ParseMapCmd_next]
    rw [strchr_found pre primary (nx ++ NUL :: pad) '+' (by decide) hnul hplus]
    simp only []
    rw [poke_at]
    have : pre.length + primary.length + 1 = (pre ++ (primary ++ [NUL])).length := by
      simp [Nat.add_assoc]
    have e : pre ++ (primary ++ NUL :: (nx ++ NUL :: pad))
        = (pre ++ (primary ++ [NUL])) ++ (nx ++ NUL :: pad) := by simp
    rw [this]
    conv_lhs => rw [e]
    rw [cstr_terminated _ nx pad h0]
    simp

theorem spawnpoint_spec (pre name rest : List Char) (spawn : Option (List Char))
    (hpre : NUL ∉ pre) (hdollar : '$' ∉ name) (hnul : NUL ∉ name)
    (hspawn : ∀ sp, spawn = some sp → NUL ∉ sp) :
    (SV_ParseMapCmd_spawnpoint
        (pre ++ (name ++ (dollarPart spawn ++ NUL :: rest))) pre.length).1
      = pre ++ (name ++ NUL :: afterDollar spawn rest) ∧
    cstr (pre ++ (name ++ NUL :: afterDollar spawn rest))
      (SV_ParseMapCmd_spawnpoint
        (pre ++ (name ++ (dollarPart spawn ++ NUL :: rest))) pre.length).2
      = spawn.getD [] := by
  cases spawn with
  | none =>
    simp only [dollarPart, List.nil_append, afterDollar, SV_ParseMapCmd_spawnpoint]
    rw [strchr_none pre name rest '$' hnul hdollar]
    refine ⟨rfl, ?_⟩
    simp only [Option.getD_none, strlen, Nat.zero_add]
    have hpn : NUL ∉ pre ++ name := by simp [hpre, hnul]
    have e : pre ++ (name ++ NUL :: rest) = [] ++ ((pre ++ name) ++ NUL :: rest) := by simp
    have c0 : cstr (pre ++ (name ++ NUL :: rest)) 0 = pre ++ name := by
      rw [e]; exact cstr_terminated [] (pre ++ name) rest hpn
    rw [c0]
    have e2 : pre ++ (name ++ NUL :: rest) = (pre ++ name) ++ ([] ++ NUL :: rest) := by simp
    rw [e2]
    exact cstr_terminated (pre ++ name) [] rest (by simp)
  | some sp =>
    have h0 : NUL ∉ sp := hspawn sp rfl
    simp only [dollarPart, List.cons_append, afterDollar, SV_ParseMapCmd_spawnpoint]
    rw [strchr_found pre name (sp ++ NUL :: rest) '$' (by decide) hnul hdollar]
    simp only []
    rw [poke_at]
    refine ⟨rfl, ?_⟩
    have : pre.length + name.length + 1 = (pre ++ (name ++ [NUL])).length := by
      simp [Nat.add_assoc]
    have e : pre ++ (name ++ NUL :: (sp ++ NUL :: rest))
        = (pre ++ (name ++ [NUL])) ++ (sp ++ NUL :: rest) := by simp
    rw [this, e]
    rw [cstr_terminated _ sp rest h0]
    simp

theorem peek_token (star : Bool) (name : List Char) (spawn next : Option (List Char))
    (pad : List Char) (hstar : star = false → name.head? ≠ some '*') :
    (peek (mapToken star name spawn next ++ NUL :: pad) 0 == '*') = star := by
  cases star with
  | true => simp [mapToken, starPart, peek]
  | false =>
    have h := hstar rfl
    cases name with
    | cons c t =>
      have hc : c ≠ '*' := by simpa using h
      simp [mapToken, starPart, peek, hc]
    | nil =>
      cases spawn <;> cases next <;> (simp [mapToken, starPart, dollarPart, plusPart, peek]; try decide)

theorem starPart_length (star : Bool) :
    (if star = true then 1 else 0) = (starPart star).length := by
  cases star <;> rfl

theorem starPart_nul (star : Bool) : NUL ∉ starPart star := by
  cases star
  · simp [starPart]
  · simp only [starPart, if_true, List.mem_singleton]; decide

theorem primary_nul (name : List Char) (spawn : Option (List Char)) (hnul : NUL ∉ name)
    (hspawn : ∀ sp, spawn = some sp → NUL ∉ sp) : NUL ∉ name ++ dollarPart spawn := by
  cases spawn with
  | none => simpa [dollarPart] using hnul
  | some sp =>
    simp only [dollarPart, List.mem_append, List.mem_cons, not_or]
    exact ⟨hnul, by decide, hspawn sp rfl⟩

theorem primary_plus (name : List Char) (spawn : Option (List Char)) (hplus : '+' ∉ name)
    (hspawn : ∀ sp, spawn = some sp → '+' ∉ sp) : '+' ∉ name ++ dollarPart spawn := by
  cases spawn with
  | none => simpa [dollarPart] using hplus
  | some sp =>
    simp only [dollarPart, List.mem_append, List.mem_cons, not_or]
    exact ⟨hplus, by decide, hspawn sp rfl⟩

theorem split_unfold (w : World) (cmd : MapCommand) (star : Bool)
    (hpk : (peek cmd.buffer 0 == '*') = star) :
    SV_ParseMapCmd_split w cmd
      = ({ cmd with
            buffer := (SV_ParseMapCmd_spawnpoint
              (SV_ParseMapCmd_next cmd.buffer (starPart star).length).1 (starPart star).length).1
            server := some (starPart star).length
            spawnpoint := some (SV_ParseMapCmd_spawnpoint
              (SV_ParseMapCmd_next cmd.buffer (starPart star).length).1 (starPart star).length).2
            endofunit := if star then true else cmd.endofunit },
          ({ w with cvars := { w.cvars with
              nextserver := (SV_ParseMapCmd_next cmd.buffer (starPart star).length).2 } }).emit
            (Event.Cvar_Set "nextserver".toList
              (SV_ParseMapCmd_next cmd.buffer (starPart star).length).2)) := by
  simp only [SV_ParseMapCmd_split, hpk, starPart_length]

theorem split_spec (w : World) (cmd : MapCommand) (star : Bool) (name : List Char)
    (spawn next : Option (List Char)) (pad : List Char)
    (hbuf : cmd.buffer = mapToken star name spawn next ++ NUL :: pad)
    (hstar : star = false → name.head? ≠ some '*')
    (hplus : '+' ∉ name) (hdollar : '$' ∉ name) (hnul : NUL ∉ name)
    (hspawn : ∀ sp, spawn = some sp → '+' ∉ sp ∧ NUL ∉ sp)
    (hnext : ∀ nx, next = some nx → NUL ∉ nx) :
    (SV_ParseMapCmd_split w cmd).1.buffer = splitBuffer star name spawn next pad ∧
    (SV_ParseMapCmd_split w cmd).1.server = some (starPart star).length ∧
    cstr (splitBuffer star name spawn next pad) (starPart star).length = name ∧
    (∃ q, (SV_ParseMapCmd_split w cmd).1.spawnpoint = some q ∧
      cstr (splitBuffer star name spawn next pad) q = spawn.getD []) ∧
    (SV_ParseMapCmd_split w cmd).1.endofunit = (star || cmd.endofunit) ∧
    (SV_ParseMapCmd_split w cmd).2.cvars.nextserver = nextserverFor next ∧
    (SV_ParseMapCmd_split w cmd).2.trace
      = w.trace ++ [Event.Cvar_Set "nextserver".toList (nextserverFor next)] := by
  have hprim0 := primary_nul name spawn hnul (fun sp h => (hspawn sp h).2)
  have hprimp := primary_plus name spawn hplus (fun sp h => (hspawn sp h).1)
  have hb : cmd.buffer
      = starPart star ++ ((name ++ dollarPart spawn) ++ (plusPart next ++ NUL :: pad)) := by
    rw [hbuf]; simp [mapToken]
  have hpk := peek_token star name spawn next pad hstar
  rw [← hbuf] at hpk
  have hnx := next_spec (starPart star) _ pad next hprimp hprim0 hnext
  rw [← hb] at hnx
  have hb1 : starPart star ++ ((name ++ dollarPart spawn) ++ NUL :: afterPlus next pad)
      = starPart star ++ (name ++ (dollarPart spawn ++ NUL :: afterPlus next pad)) := by simp
  have hsp := spawnpoint_spec (starPart star) name (afterPlus next pad) spawn
      (starPart_nul star) hdollar hnul (fun sp h => (hspawn sp h).2)
  rw [← hb1] at hsp
  rw [split_unfold w cmd star hpk, hnx]
  refine ⟨hsp.1, rfl, ?_, ⟨_, rfl, hsp.2⟩, ?_, rfl, rfl⟩
  · exact cstr_terminated (starPart star) name _ hnul
  · cases star <;> rfl


theorem dropWhile_head (p : Char → Bool) (l : List Char) :
    l.dropWhile p = [] ∨ ∃ c r, l.dropWhile p = c :: r ∧ p c = false := by
  induction l with
  | nil => left; rfl
  | cons a t ih =>
    rw [List.dropWhile_cons]
    cases h : p a with
    | true => simpa using ih
    | false => right; exact ⟨a, t, by simp, h⟩

theorem takeWhile_all (p : Char → Bool) (l : List Char) : ∀ c ∈ l.takeWhile p, p c = true := by
  induction l with
  | nil => intro c hc; simp at hc
  | cons a t ih =>
    intro c hc
    rw [List.takeWhile_cons] at hc
    cases h : p a with
    | true =>
      rw [h] at hc
      simp only [if_true, List.mem_cons] at hc
      rcases hc with rfl | hc
      · exact h
      · exact ih c hc
    | false => rw [h] at hc; simp at hc

/-- Every NUL-free token body has the form `name[$spawn][+next]`. -/
theorem body_decompose (body : List Char) (hnul : NUL ∉ body) :
    ∃ (name : List Char) (spawn next : Option (List Char)),
      body = name ++ (dollarPart spawn ++ plusPart next) ∧
      '+' ∉ name ∧ '$' ∉ name ∧ NUL ∉ name ∧
      (∀ sp, spawn = some sp → '+' ∉ sp ∧ NUL ∉ sp) ∧
      (∀ nx, next = some nx → NUL ∉ nx) ∧
      name = body.takeWhile (fun c => c != '+' && c != '$') := by
  have hsplit := List.takeWhile_append_dropWhile (fun c => c != '+' && c != '$') body
  have hname := takeWhile_all (fun c => c != '+' && c != '$') body
  have hn1 : '+' ∉ body.takeWhile (fun c => c != '+' && c != '$') := fun h => by
    simpa using hname _ h
  have hn2 : '$' ∉ body.takeWhile (fun c => c != '+' && c != '$') := fun h => by
    simpa using hname _ h
  have hn3 : NUL ∉ body.takeWhile (fun c => c != '+' && c != '$') := fun h =>
    hnul (hsplit ▸ List.mem_append_left _ h)
  rcases dropWhile_head (fun c => c != '+' && c != '$') body with h | ⟨c, r, h, hc⟩
  · refine ⟨_, none, none, ?_, hn1, hn2, hn3, ?_, ?_, rfl⟩
    · rw [h, List.append_nil] at hsplit
      simpa [dollarPart, plusPart] using hsplit.symm
    · intro sp hsp; cases hsp
    · intro nx hnx; cases hnx
  · rw [h] at hsplit
    have hr : ∀ x ∈ r, x ∈ body := fun x hx =>
      hsplit ▸ List.mem_append_right _ (List.mem_cons_of_mem _ hx)
    have hc2 : c = '+' ∨ c = '$' := by
      simp only [Bool.and_eq_false_iff, bne_eq_false_iff_eq] at hc
      exact hc
    rcases hc2 with rfl | rfl
    · refine ⟨_, none, some r, ?_, hn1, hn2, hn3, ?_, ?_, rfl⟩
      · simpa [dollarPart, plusPart] using hsplit.symm
      · intro sp hsp; cases hsp
      · intro nx hnx
        cases hnx
        exact fun h0 => hnul (hr _ h0)
    · have hsplit2 := List.takeWhile_append_dropWhile (fun c => c != '+') r
      have hsp := takeWhile_all (fun c => c != '+') r
      have hs1 : '+' ∉ r.takeWhile (fun c => c != '+') := fun h => by
        simpa using hsp _ h
      have hs3 : NUL ∉ r.takeWhile (fun c => c != '+') := fun h =>
        hnul (hr _ (hsplit2 ▸ List.mem_append_left _ h))
      rcases dropWhile_head (fun c => c != '+') r with h2 | ⟨d, nx, h2, hd⟩
      · refine ⟨_, some (r.takeWhile (fun c => c != '+')), none, ?_, hn1, hn2, hn3, ?_, ?_, rfl⟩
        · rw [h2, List.append_nil] at hsplit2
          rw [hsplit2]
          simpa [dollarPart, plusPart] using hsplit.symm
        · intro sp hsp'
          cases hsp'
          exact ⟨hs1, hs3⟩
        · intro nx hnx; cases hnx
      · have hd2 : d = '+' := by simpa using hd
        subst hd2
        rw [h2] at hsplit2
        refine ⟨_, some (r.takeWhile (fun c => c != '+')), some nx, ?_, hn1, hn2, hn3, ?_, ?_, rfl⟩
        · simp only [dollarPart, plusPart, List.cons_append]
          rw [hsplit2]
          exact hsplit.symm
        · intro sp hsp'
          cases hsp'
          exact ⟨hs1, hs3⟩
        · intro nx' hnx
          cases hnx
          exact fun h0 => hnul (hr _ (hsplit2 ▸ List.mem_append_right _ (List.mem_cons_of_mem _ h0)))

theorem token_star_body (tok : List Char) :
    tok = starPart (decide (tok.head? = some '*')) ++ tokenBody tok := by
  cases tok with
  | nil => simp [starPart, tokenBody]
  | cons c t =>
    by_cases h : c = '*'
    · subst h; simp [starPart, tokenBody]
    · simp [starPart, tokenBody, h]

/-! ### The load step -/

theorem load_frame (sys : Services) (w : World) (cmd : MapCommand) (s : List Char) :
    (SV_ParseMapCmd_load sys w cmd s).cmd.buffer = cmd.buffer ∧
    (SV_ParseMapCmd_load sys w cmd s).cmd.server = cmd.server ∧
    (SV_ParseMapCmd_load sys w cmd s).cmd.spawnpoint = cmd.spawnpoint ∧
    (SV_ParseMapCmd_load sys w cmd s).cmd.endofunit = cmd.endofunit ∧
    (SV_ParseMapCmd_load sys w cmd s).world.cvars = w.cvars ∧
    (SV_ParseMapCmd_load sys w cmd s).world.sv = w.sv ∧
    (SV_ParseMapCmd_load sys w cmd s).world.clients = w.clients := by
  unfold SV_ParseMapCmd_load
  simp only []
  split_ifs <;> exact ⟨rfl, rfl, rfl, rfl, rfl, rfl, rfl⟩

theorem parse_cmd (sys : Services) (w : World) (cmd : MapCommand) :
    (SV_ParseMapCmd sys w cmd).2.1
      = (SV_ParseMapCmd_load sys (SV_ParseMapCmd_split w cmd).2 (SV_ParseMapCmd_split w cmd).1
          (cstr (SV_ParseMapCmd_split w cmd).1.buffer
            ((SV_ParseMapCmd_split w cmd).1.server.getD 0))).cmd := by
  unfold SV_ParseMapCmd
  simp only []
  split_ifs <;> rfl

theorem parse_frame (sys : Services) (w : World) (cmd : MapCommand) :
    (SV_ParseMapCmd sys w cmd).2.1.buffer = (SV_ParseMapCmd_split w cmd).1.buffer ∧
    (SV_ParseMapCmd sys w cmd).2.1.server = (SV_ParseMapCmd_split w cmd).1.server ∧
    (SV_ParseMapCmd sys w cmd).2.1.spawnpoint = (SV_ParseMapCmd_split w cmd).1.spawnpoint ∧
    (SV_ParseMapCmd sys w cmd).2.1.endofunit = (SV_ParseMapCmd_split w cmd).1.endofunit ∧
    (SV_ParseMapCmd sys w cmd).2.2.cvars = (SV_ParseMapCmd_split w cmd).2.cvars ∧
    (SV_ParseMapCmd sys w cmd).2.2.sv = w.sv ∧
    (SV_ParseMapCmd sys w cmd).2.2.clients = w.clients := by
  have h := load_frame sys (SV_ParseMapCmd_split w cmd).2 (SV_ParseMapCmd_split w cmd).1
    (cstr (SV_ParseMapCmd_split w cmd).1.buffer ((SV_ParseMapCmd_split w cmd).1.server.getD 0))
  rw [parse_cmd]
  refine ⟨h.1, h.2.1, h.2.2.1, h.2.2.2.1, ?_, ?_, ?_⟩
  · unfold SV_ParseMapCmd
    simp only []
    split_ifs
    · exact h.2.2.2.2.1
    · exact h.2.2.2.2.1
  · unfold SV_ParseMapCmd
    simp only []
    split_ifs
    · exact h.2.2.2.2.2.1
    · exact h.2.2.2.2.2.1
  · unfold SV_ParseMapCmd
    simp only []
    split_ifs
    · exact h.2.2.2.2.2.2
    · exact h.2.2.2.2.2.2

/-- C1. For every token `[*]name[$spawn][+next]` in the command buffer, where `name` and
`spawn` hold none of `+`, `$` and NUL, `name` does not begin with `*` and `next` is any
C string, `SV_ParseMapCmd` leaves `cmd->server` pointing at exactly `name` and
`cmd->spawnpoint` pointing at exactly `spawn`; without a `$spawn` part the spawn point is
a non-null pointer to the empty string, whatever `next` holds. -/
theorem SV_ParseMapCmd_server_spawnpoint (sys : Services) (w : World) (cmd : MapCommand)
    (star : Bool) (name : List Char) (spawn next : Option (List Char)) (pad : List Char)
    (hbuf : cmd.buffer = mapToken star name spawn next ++ NUL :: pad)
    (hname : '+' ∉ name ∧ '$' ∉ name ∧ NUL ∉ name)
    (hstar : name.head? ≠ some '*')
    (hspawn : ∀ sp, spawn = some sp → '+' ∉ sp ∧ '$' ∉ sp ∧ NUL ∉ sp)
    (hnext : ∀ nx, next = some nx → NUL ∉ nx) :
    ∃ p q, (SV_ParseMapCmd sys w cmd).2.1.server = some p ∧
      cstr (SV_ParseMapCmd sys w cmd).2.1.buffer p = name ∧
      (SV_ParseMapCmd sys w cmd).2.1.spawnpoint = some q ∧
      cstr (SV_ParseMapCmd sys w cmd).2.1.buffer q = spawn.getD [] := by
  obtain ⟨hb, hsv, hnm, ⟨q, hq, hqs⟩, -, -, -⟩ :=
    split_spec w cmd star name spawn next pad hbuf (fun _ => hstar) hname.1 hname.2.1
      hname.2.2 (fun sp h => ⟨(hspawn sp h).1, (hspawn sp h).2.2⟩) hnext
  obtain ⟨fb, fs, fq, -, -, -, -⟩ := parse_frame sys w cmd
  refine ⟨(starPart star).length, q, ?_, ?_, ?_, ?_⟩
  · rw [fs, hsv]
  · rw [fb, hb, hnm]
  · rw [fq, hq]
  · rw [fb, hb, hqs]

/-- The token `base1$start3` gives the server `base1` and the spawn point `start3`. -/
theorem SV_ParseMapCmd_server_spawnpoint_witness :
    ∃ p q,
      (SV_ParseMapCmd sampleServices sampleWorld
        (MapCommand.ofToken "base1$start3".toList)).2.1.server = some p ∧
      cstr (SV_ParseMapCmd sampleServices sampleWorld
        (MapCommand.ofToken "base1$start3".toList)).2.1.buffer p = "base1".toList ∧
      (SV_ParseMapCmd sampleServices sampleWorld
        (MapCommand.ofToken "base1$start3".toList)).2.1.spawnpoint = some q ∧
      cstr (SV_ParseMapCmd sampleServices sampleWorld
        (MapCommand.ofToken "base1$start3".toList)).2.1.buffer q = "start3".toList :=
  SV_ParseMapCmd_server_spawnpoint sampleServices sampleWorld
    (MapCommand.ofToken "base1$start3".toList) false "base1".toList (some "start3".toList)
    none [] (by decide) (by decide) (by decide)
    (by intro sp h; cases h; decide) (by intro nx h; cases h)

/-! ## `SV_ParseMapCmd` on arbitrary tokens -/

theorem general_buffer (tok pad : List Char) (hnul : NUL ∉ tok) :
    ∃ (name : List Char) (spawn next : Option (List Char)),
      tok ++ NUL :: pad
        = mapToken (decide (tok.head? = some '*')) name spawn next ++ NUL :: pad ∧
      '+' ∉ name ∧ '$' ∉ name ∧ NUL ∉ name ∧
      (∀ sp, spawn = some sp → '+' ∉ sp ∧ NUL ∉ sp) ∧
      (∀ nx, next = some nx → NUL ∉ nx) ∧
      name = (tokenBody tok).takeWhile (fun c => c != '+' && c != '$') ∧
      tokenBody tok = name ++ (dollarPart spawn ++ plusPart next) := by
  have hts := token_star_body tok
  have hbn : NUL ∉ tokenBody tok := fun h =>
    hnul (hts ▸ List.mem_append_right _ h)
  obtain ⟨name, spawn, next, hb, h1, h2, h3, h4, h5, h6⟩ := body_decompose (tokenBody tok) hbn
  refine ⟨name, spawn, next, ?_, h1, h2, h3, h4, h5, h6, hb⟩
  unfold mapToken
  rw [← hb, ← hts]

theorem first_split_unique (c : Char) (a a' r r' : List Char) (h : a ++ c :: r = a' ++ c :: r')
    (ha : c ∉ a) (ha' : c ∉ a') : a = a' ∧ r = r' := by
  induction a generalizing a' with
  | nil =>
    cases a' with
    | nil => simpa using h
    | cons x t =>
      simp only [List.nil_append, List.cons_append, List.cons.injEq] at h
      exact absurd (h.1 ▸ List.mem_cons_self _ _) ha'
  | cons x t ih =>
    cases a' with
    | nil =>
      simp only [List.nil_append, List.cons_append, List.cons.injEq] at h
      exact absurd (h.1 ▸ List.mem_cons_self _ _) ha
    | cons y u =>
      simp only [List.cons_append, List.cons.injEq] at h
      obtain ⟨hxy, ht⟩ := h
      have := ih u ht (fun m => ha (List.mem_cons_of_mem _ m))
        (fun m => ha' (List.mem_cons_of_mem _ m))
      exact ⟨by rw [hxy, this.1], this.2⟩

theorem general_split (w : World) (cmd : MapCommand) (tok pad : List Char) (hnul : NUL ∉ tok)
    (hbuf : cmd.buffer = tok ++ NUL :: pad) :
    ∃ (name : List Char) (spawn next : Option (List Char)),
      tokenBody tok = name ++ (dollarPart spawn ++ plusPart next) ∧
      '+' ∉ name ++ dollarPart spawn ∧
      name = (tokenBody tok).takeWhile (fun c => c != '+' && c != '$') ∧
      (SV_ParseMapCmd_split w cmd).1.buffer
        = splitBuffer (decide (tok.head? = some '*')) name spawn next pad ∧
      (SV_ParseMapCmd_split w cmd).1.server
        = some (starPart (decide (tok.head? = some '*'))).length ∧
      cstr (splitBuffer (decide (tok.head? = some '*')) name spawn next pad)
        (starPart (decide (tok.head? = some '*'))).length = name ∧
      (SV_ParseMapCmd_split w cmd).1.endofunit
        = (decide (tok.head? = some '*') || cmd.endofunit) ∧
      (SV_ParseMapCmd_split w cmd).2.cvars.nextserver = nextserverFor next := by
  obtain ⟨name, spawn, next, hb, h1, h2, h3, h4, h5, h6, hbody⟩ := general_buffer tok pad hnul
  have hstar : decide (tok.head? = some '*') = false → name.head? ≠ some '*' := by
    intro hd hn
    have hd' : tok.head? ≠ some '*' := by simpa using hd
    have hbt : tokenBody tok = tok := by simp [tokenBody, hd']
    rw [hbt] at hbody
    apply hd'
    rw [hbody]
    cases name with
    | nil => simp at hn
    | cons c t => simpa using hn
  obtain ⟨s1, s2, s3, -, s5, s6, -⟩ :=
    split_spec w cmd _ name spawn next pad (hbuf.trans hb) hstar h1 h2 h3 h4 h5
  exact ⟨name, spawn, next, hbody, primary_plus name spawn h1 (fun sp h => (h4 sp h).1), h6,
    s1, s2, s3, s5, s6⟩

/-- C2. For every raw token in the command buffer, `SV_ParseMapCmd` sets `nextserver`
from the first `+` after the optional leading `*`: when the token body is `a + rem` with no
`+` in `a`, the setting becomes the text `gamemap "rem"` (the word, a blank, and `rem`
between double quotes, character 34); when the body has no `+`, the setting becomes the
empty string. -/
theorem SV_ParseMapCmd_nextserver (sys : Services) (w : World) (cmd : MapCommand)
    (tok pad : List Char) (hnul : NUL ∉ tok) (hbuf : cmd.buffer = tok ++ NUL :: pad) :
    (∀ a rem, tokenBody tok = a ++ '+' :: rem → '+' ∉ a →
      (SV_ParseMapCmd sys w cmd).2.2.cvars.nextserver
        = "gamemap ".toList ++ Char.ofNat 34 :: (rem ++ [Char.ofNat 34])) ∧
    ('+' ∉ tokenBody tok → (SV_ParseMapCmd sys w cmd).2.2.cvars.nextserver = []) := by
  obtain ⟨name, spawn, next, hbody, hp, -, -, -, -, -, hns⟩ := general_split w cmd tok pad hnul hbuf
  obtain ⟨-, -, -, -, fc, -, -⟩ := parse_frame sys w cmd
  rw [fc, hns]
  constructor
  · intro a rem hsplit ha
    cases next with
    | none =>
      exfalso
      have hm : '+' ∈ tokenBody tok := by rw [hsplit]; simp
      rw [hbody] at hm
      simp only [plusPart, List.append_nil] at hm
      exact hp hm
    | some nx =>
      have e : (name ++ dollarPart spawn) ++ '+' :: nx = a ++ '+' :: rem := by
        rw [← hsplit, hbody]; simp [plusPart]
      have := first_split_unique '+' _ _ _ _ e hp ha
      rw [← this.2]
      show va_gamemap nx = "gamemap ".toList ++ Char.ofNat 34 :: (nx ++ [Char.ofNat 34])
      unfold va_gamemap DQUOTE
      simp
  · intro hno
    cases next with
    | none => rfl
    | some nx =>
      exfalso
      apply hno
      rw [hbody]
      simp [plusPart]

/-- The token `*base1+base2` queues the fifteen characters `gamemap "base2"` and yields
the server `base1`. -/
theorem SV_ParseMapCmd_nextserver_witness :
    (NUL ∉ "*base1+base2".toList ∧
      tokenBody "*base1+base2".toList = "base1".toList ++ '+' :: "base2".toList ∧
      '+' ∉ "base1".toList) ∧
    (SV_ParseMapCmd sampleServices sampleWorld
      (MapCommand.ofToken "*base1+base2".toList)).2.2.cvars.nextserver
      = "gamemap ".toList ++ Char.ofNat 34 :: ("base2".toList ++ [Char.ofNat 34]) ∧
    (SV_ParseMapCmd sampleServices sampleWorld
      (MapCommand.ofToken "*base1+base2".toList)).2.2.cvars.nextserver
      = ['g', 'a', 'm', 'e', 'm', 'a', 'p', ' ', Char.ofNat 34, 'b', 'a', 's', 'e', '2',
          Char.ofNat 34] ∧
    cstr (SV_ParseMapCmd sampleServices sampleWorld
      (MapCommand.ofToken "*base1+base2".toList)).2.1.buffer 1 = "base1".toList :=
  ⟨by decide,
   (SV_ParseMapCmd_nextserver sampleServices sampleWorld
      (MapCommand.ofToken "*base1+base2".toList) "*base1+base2".toList [] (by decide) rfl).1
      "base1".toList "base2".toList (by decide) (by decide),
   by decide,
   by decide⟩

/-- C3. For every raw token in the buffer of a command whose flag `endofunit` is clear on
entry (the command is zeroed before the token is copied in), after `SV_ParseMapCmd` the
flag is true when the token begins with `*` and false when it does not. Exactly one
leading `*` is stripped: `cmd->server` points just past it and names the text up to the
first `+` or `$`. -/
theorem SV_ParseMapCmd_endofunit (sys : Services) (w : World) (cmd : MapCommand)
    (tok pad : List Char) (hnul : NUL ∉ tok) (hbuf : cmd.buffer = tok ++ NUL :: pad)
    (hzero : cmd.endofunit = false) :
    (tok.head? = some '*' → (SV_ParseMapCmd sys w cmd).2.1.endofunit = true) ∧
    (tok.head? ≠ some '*' → (SV_ParseMapCmd sys w cmd).2.1.endofunit = false) ∧
    (SV_ParseMapCmd sys w cmd).2.1.server = some (if tok.head? = some '*' then 1 else 0) ∧
    cstr (SV_ParseMapCmd sys w cmd).2.1.buffer (if tok.head? = some '*' then 1 else 0)
      = (tokenBody tok).takeWhile (fun c => c != '+' && c != '$') := by
  obtain ⟨name, spawn, next, -, -, hname, hb, hs, hc, he, -⟩ := general_split w cmd tok pad hnul hbuf
  obtain ⟨fb, fs, -, fe, -, -, -⟩ := parse_frame sys w cmd
  rw [fb, fs, fe, hb, hs, he, ← hname, hzero]
  by_cases h : tok.head? = some '*'
  · have hd : decide (tok.head? = some '*') = true := by simpa using h
    rw [hd] at hc ⊢
    rw [if_pos h]
    exact ⟨fun _ => rfl, fun h' => absurd h h', rfl, hc⟩
  · have hd : decide (tok.head? = some '*') = false := by simpa using h
    rw [hd] at hc ⊢
    rw [if_neg h]
    exact ⟨fun h' => absurd h' h, fun _ => rfl, rfl, hc⟩

/-- On zeroed commands, `*base1+base2` gives `endofunit` true and the server `base1`,
`base1$start3` gives `endofunit` false, and `**base1` loses one `*` only. -/
theorem SV_ParseMapCmd_endofunit_witness :
    (NUL ∉ "*base1+base2".toList ∧ "*base1+base2".toList.head? = some '*' ∧
      (MapCommand.ofToken "*base1+base2".toList).endofunit = false) ∧
    (SV_ParseMapCmd sampleServices sampleWorld
      (MapCommand.ofToken "*base1+base2".toList)).2.1.endofunit = true ∧
    (NUL ∉ "base1$start3".toList ∧ "base1$start3".toList.head? ≠ some '*' ∧
      (MapCommand.ofToken "base1$start3".toList).endofunit = false) ∧
    (SV_ParseMapCmd sampleServices sampleWorld
      (MapCommand.ofToken "base1$start3".toList)).2.1.endofunit = false ∧
    cstr (SV_ParseMapCmd sampleServices sampleWorld
      (MapCommand.ofToken "*base1+base2".toList)).2.1.buffer 1 = "base1".toList ∧
    cstr (SV_ParseMapCmd sampleServices sampleWorld
      (MapCommand.ofToken "**base1".toList)).2.1.buffer 1 = "*base1".toList :=
  ⟨by decide,
   (SV_ParseMapCmd_endofunit sampleServices sampleWorld
      (MapCommand.ofToken "*base1+base2".toList) "*base1+base2".toList [] (by decide) rfl
      rfl).1 (by decide),
   by decide,
   (SV_ParseMapCmd_endofunit sampleServices sampleWorld
      (MapCommand.ofToken "base1$start3".toList) "base1$start3".toList [] (by decide) rfl
      rfl).2.1 (by decide),
   by decide,
   by decide⟩

/-! ### The load step and the result -/

theorem split_trace (w : World) (cmd : MapCommand) :
    (SV_ParseMapCmd_split w cmd).2.trace
      = w.trace ++ [Event.Cvar_Set "nextserver".toList
          (SV_ParseMapCmd_split w cmd).2.cvars.nextserver] := rfl

theorem split_cm (w : World) (cmd : MapCommand) :
    (SV_ParseMapCmd_split w cmd).1.cm = cmd.cm := rfl

theorem parse_serverToken (sys : Services) (w : World) (cmd : MapCommand) :
    serverToken (SV_ParseMapCmd sys w cmd).2.1 = serverToken (SV_ParseMapCmd_split w cmd).1 := by
  obtain ⟨fb, fs, -, -, -, -, -⟩ := parse_frame sys w cmd
  unfold serverToken
  rw [fb, fs]

theorem parse_unfold (sys : Services) (w : World) (cmd : MapCommand) :
    SV_ParseMapCmd sys w cmd
      = (if (SV_ParseMapCmd_load sys (SV_ParseMapCmd_split w cmd).2 (SV_ParseMapCmd_split w cmd).1
              (serverToken (SV_ParseMapCmd sys w cmd).2.1)).ret < 0 then
          (false,
           (SV_ParseMapCmd_load sys (SV_ParseMapCmd_split w cmd).2 (SV_ParseMapCmd_split w cmd).1
              (serverToken (SV_ParseMapCmd sys w cmd).2.1)).cmd,
           (SV_ParseMapCmd_load sys (SV_ParseMapCmd_split w cmd).2 (SV_ParseMapCmd_split w cmd).1
              (serverToken (SV_ParseMapCmd sys w cmd).2.1)).world.emit
             (Event.Com_Printf ("Couldn't load ".toList ++
               (SV_ParseMapCmd_load sys (SV_ParseMapCmd_split w cmd).2
                 (SV_ParseMapCmd_split w cmd).1
                 (serverToken (SV_ParseMapCmd sys w cmd).2.1)).expanded.getD [])))
        else
          (true,
           (SV_ParseMapCmd_load sys (SV_ParseMapCmd_split w cmd).2 (SV_ParseMapCmd_split w cmd).1
              (serverToken (SV_ParseMapCmd sys w cmd).2.1)).cmd,
           (SV_ParseMapCmd_load sys (SV_ParseMapCmd_split w cmd).2 (SV_ParseMapCmd_split w cmd).1
              (serverToken (SV_ParseMapCmd sys w cmd).2.1)).world)) := by
  rw [parse_serverToken]
  rfl

/-- The load step in one equation per branch. -/
theorem load_cases (sys : Services) (w : World) (cmd : MapCommand) (s : List Char) :
    (sys.COM_CompareExtension s ".pcx".toList = 0 →
      (SV_ParseMapCmd_load sys w cmd s).cmd.serverState = ServerState.Pic ∧
      (sys.MAX_QPATH ≤ ("pics/".toList ++ s).length →
        (SV_ParseMapCmd_load sys w cmd s).ret = sys.Q_ERR_NAMETOOLONG ∧
        (SV_ParseMapCmd_load sys w cmd s).world.trace = w.trace) ∧
      (("pics/".toList ++ s).length < sys.MAX_QPATH →
        (SV_ParseMapCmd_load sys w cmd s).ret = sys.FS_LoadFile ("pics/".toList ++ s) ∧
        (SV_ParseMapCmd_load sys w cmd s).world.trace
          = w.trace ++ [Event.FS_LoadFile ("pics/".toList ++ s)])) ∧
    (sys.COM_CompareExtension s ".pcx".toList ≠ 0 →
      sys.COM_CompareExtension s ".cin".toList = 0 →
      (SV_ParseMapCmd_load sys w cmd s).cmd.serverState = ServerState.Cinematic ∧
      (SV_ParseMapCmd_load sys w cmd s).ret = sys.Q_ERR_SUCCESS ∧
      (SV_ParseMapCmd_load sys w cmd s).world.trace = w.trace) ∧
    (sys.COM_CompareExtension s ".pcx".toList ≠ 0 →
      sys.COM_CompareExtension s ".cin".toList ≠ 0 →
      (SV_ParseMapCmd_load sys w cmd s).cmd.serverState = ServerState.Game ∧
      (sys.MAX_QPATH ≤ ("maps/".toList ++ s ++ ".bsp".toList).length →
        (SV_ParseMapCmd_load sys w cmd s).ret = sys.Q_ERR_NAMETOOLONG ∧
        (SV_ParseMapCmd_load sys w cmd s).world.trace = w.trace) ∧
      (("maps/".toList ++ s ++ ".bsp".toList).length < sys.MAX_QPATH →
        (SV_ParseMapCmd_load sys w cmd s).ret
          = (sys.CM_LoadMap cmd.cm ("maps/".toList ++ s ++ ".bsp".toList)).1 ∧
        (SV_ParseMapCmd_load sys w cmd s).world.trace
          = w.trace ++ [Event.CM_LoadMap ("maps/".toList ++ s ++ ".bsp".toList)])) := by
  have e1 : Q_concat ["pics/".toList, s] = ("pics/".toList ++ s).length := by
    simp only [Q_concat, List.map_cons, List.map_nil, List.sum_cons, List.sum_nil,
      List.length_append]
    omega
  have e2 : Q_concat ["maps/".toList, s, ".bsp".toList]
      = ("maps/".toList ++ s ++ ".bsp".toList).length := by
    simp only [Q_concat, List.map_cons, List.map_nil, List.sum_cons, List.sum_nil,
      List.length_append]
    omega
  have t1 : Q_concat_text ["pics/".toList, s] = "pics/".toList ++ s := by
    simp [Q_concat_text]
  have t2 : Q_concat_text ["maps/".toList, s, ".bsp".toList]
      = "maps/".toList ++ s ++ ".bsp".toList := by
    simp [Q_concat_text]
  refine ⟨fun hp => ?_, fun hp hc => ?_, fun hp hc => ?_⟩
  · unfold SV_ParseMapCmd_load
    simp only [if_pos hp, e1, t1]
    refine ⟨by split_ifs <;> rfl, fun hl => ?_, fun hl => ?_⟩
    · rw [if_pos hl]; exact ⟨rfl, rfl⟩
    · rw [if_neg (Nat.not_le.mpr hl)]; exact ⟨rfl, rfl⟩
  · unfold SV_ParseMapCmd_load
    rw [if_neg hp, if_pos hc]
    exact ⟨rfl, rfl, rfl⟩
  · unfold SV_ParseMapCmd_load
    simp only [if_neg hp, if_neg hc, e2, t2]
    refine ⟨by split_ifs <;> rfl, fun hl => ?_, fun hl => ?_⟩
    · rw [if_pos hl]; exact ⟨rfl, rfl⟩
    · rw [if_neg (Nat.not_le.mpr hl)]; exact ⟨rfl, rfl⟩


theorem parse_summary (sys : Services) (w : World) (cmd : MapCommand) :
    ∃ pr : List Event, pr.filter Event.isLoad = [] ∧
      (SV_ParseMapCmd sys w cmd).2.2.trace
        = (SV_ParseMapCmd_load sys (SV_ParseMapCmd_split w cmd).2 (SV_ParseMapCmd_split w cmd).1
            (serverToken (SV_ParseMapCmd sys w cmd).2.1)).world.trace ++ pr ∧
      ((SV_ParseMapCmd sys w cmd).1 = false ↔
        (SV_ParseMapCmd_load sys (SV_ParseMapCmd_split w cmd).2 (SV_ParseMapCmd_split w cmd).1
            (serverToken (SV_ParseMapCmd sys w cmd).2.1)).ret < 0) ∧
      (SV_ParseMapCmd sys w cmd).2.1.serverState
        = (SV_ParseMapCmd_load sys (SV_ParseMapCmd_split w cmd).2 (SV_ParseMapCmd_split w cmd).1
            (serverToken (SV_ParseMapCmd sys w cmd).2.1)).cmd.serverState := by
  by_cases h : (SV_ParseMapCmd_load sys (SV_ParseMapCmd_split w cmd).2
      (SV_ParseMapCmd_split w cmd).1 (serverToken (SV_ParseMapCmd sys w cmd).2.1)).ret < 0
  · have hu := parse_unfold sys w cmd
    rw [if_pos h] at hu
    refine ⟨[Event.Com_Printf ("Couldn't load ".toList ++
               (SV_ParseMapCmd_load sys (SV_ParseMapCmd_split w cmd).2
                 (SV_ParseMapCmd_split w cmd).1
                 (serverToken (SV_ParseMapCmd sys w cmd).2.1)).expanded.getD [])], rfl, ?_, ?_, ?_⟩
    · exact congrArg (fun r => r.2.2.trace) hu
    · have := congrArg (fun r => r.1) hu
      simp only [] at this
      simp [this, h]
    · exact congrArg (fun r => r.2.1.serverState) hu
  · have hu := parse_unfold sys w cmd
    rw [if_neg h] at hu
    refine ⟨[], rfl, ?_, ?_, ?_⟩
    · rw [List.append_nil]; exact congrArg (fun r => r.2.2.trace) hu
    · have := congrArg (fun r => r.1) hu
      simp only [] at this
      simp [this, h]
    · exact congrArg (fun r => r.2.1.serverState) hu

theorem parseEvents_eq (sys : Services) (w : World) (cmd : MapCommand) (evs : List Event)
    (h : (SV_ParseMapCmd sys w cmd).2.2.trace = w.trace ++ evs) :
    parseEvents sys w cmd = evs := by
  unfold parseEvents
  rw [h, List.drop_left]


/-- What `SV_ParseMapCmd` does in each of its three branches: the kind it stores, the
loads it attempts and the error code its result depends on. -/
theorem parse_branches (sys : Services) (w : World) (cmd : MapCommand) :
    (SV_ParseMapCmd sys w cmd).2.2.trace = w.trace ++ parseEvents sys w cmd ∧
    (sys.COM_CompareExtension (serverToken (SV_ParseMapCmd sys w cmd).2.1) ".pcx".toList = 0 →
      (SV_ParseMapCmd sys w cmd).2.1.serverState = ServerState.Pic ∧
      (("pics/".toList ++ serverToken (SV_ParseMapCmd sys w cmd).2.1).length < sys.MAX_QPATH →
        (parseEvents sys w cmd).filter Event.isLoad
          = [Event.FS_LoadFile ("pics/".toList ++ serverToken (SV_ParseMapCmd sys w cmd).2.1)] ∧
        ((SV_ParseMapCmd sys w cmd).1 = false ↔
          sys.FS_LoadFile ("pics/".toList ++ serverToken (SV_ParseMapCmd sys w cmd).2.1) < 0)) ∧
      (sys.MAX_QPATH ≤ ("pics/".toList ++ serverToken (SV_ParseMapCmd sys w cmd).2.1).length →
        (parseEvents sys w cmd).filter Event.isLoad = [] ∧
        ((SV_ParseMapCmd sys w cmd).1 = false ↔ sys.Q_ERR_NAMETOOLONG < 0))) ∧
    (sys.COM_CompareExtension (serverToken (SV_ParseMapCmd sys w cmd).2.1) ".pcx".toList ≠ 0 →
      sys.COM_CompareExtension (serverToken (SV_ParseMapCmd sys w cmd).2.1) ".cin".toList = 0 →
      (SV_ParseMapCmd sys w cmd).2.1.serverState = ServerState.Cinematic ∧
      (parseEvents sys w cmd).filter Event.isLoad = [] ∧
      ((SV_ParseMapCmd sys w cmd).1 = false ↔ sys.Q_ERR_SUCCESS < 0)) ∧
    (sys.COM_CompareExtension (serverToken (SV_ParseMapCmd sys w cmd).2.1) ".pcx".toList ≠ 0 →
      sys.COM_CompareExtension (serverToken (SV_ParseMapCmd sys w cmd).2.1) ".cin".toList ≠ 0 →
      (SV_ParseMapCmd sys w cmd).2.1.serverState = ServerState.Game ∧
      (("maps/".toList ++ serverToken (SV_ParseMapCmd sys w cmd).2.1
          ++ ".bsp".toList).length < sys.MAX_QPATH →
        (parseEvents sys w cmd).filter Event.isLoad
          = [Event.CM_LoadMap ("maps/".toList ++ serverToken (SV_ParseMapCmd sys w cmd).2.1
              ++ ".bsp".toList)] ∧
        ((SV_ParseMapCmd sys w cmd).1 = false ↔
          (sys.CM_LoadMap cmd.cm ("maps/".toList ++ serverToken (SV_ParseMapCmd sys w cmd).2.1
              ++ ".bsp".toList)).1 < 0)) ∧
      (sys.MAX_QPATH ≤ ("maps/".toList ++ serverToken (SV_ParseMapCmd sys w cmd).2.1
          ++ ".bsp".toList).length →
        (parseEvents sys w cmd).filter Event.isLoad = [] ∧
        ((SV_ParseMapCmd sys w cmd).1 = false ↔ sys.Q_ERR_NAMETOOLONG < 0))) := by
  obtain ⟨pr, hpr, htr, hret, hkind⟩ := parse_summary sys w cmd
  obtain ⟨hpic, hcin, hgame⟩ := load_cases sys (SV_ParseMapCmd_split w cmd).2
    (SV_ParseMapCmd_split w cmd).1 (serverToken (SV_ParseMapCmd sys w cmd).2.1)
  rw [split_trace] at hpic hcin hgame
  rw [split_cm] at hgame
  have hpre : ∃ evs, (SV_ParseMapCmd sys w cmd).2.2.trace = w.trace ++ evs := by
    by_cases hp : sys.COM_CompareExtension (serverToken (SV_ParseMapCmd sys w cmd).2.1)
        ".pcx".toList = 0
    · by_cases hl : ("pics/".toList ++ serverToken (SV_ParseMapCmd sys w cmd).2.1).length
          < sys.MAX_QPATH
      · exact ⟨_, by rw [htr, ((hpic hp).2.2 hl).2, List.append_assoc, List.append_assoc]⟩
      · exact ⟨_, by rw [htr, ((hpic hp).2.1 (Nat.not_lt.mp hl)).2, List.append_assoc]⟩
    · by_cases hc : sys.COM_CompareExtension (serverToken (SV_ParseMapCmd sys w cmd).2.1)
          ".cin".toList = 0
      · exact ⟨_, by rw [htr, (hcin hp hc).2.2, List.append_assoc]⟩
      · by_cases hl : ("maps/".toList ++ serverToken (SV_ParseMapCmd sys w cmd).2.1
            ++ ".bsp".toList).length < sys.MAX_QPATH
        · exact ⟨_, by rw [htr, ((hgame hp hc).2.2 hl).2, List.append_assoc,
            List.append_assoc]⟩
        · exact ⟨_, by rw [htr, ((hgame hp hc).2.1 (Nat.not_lt.mp hl)).2, List.append_assoc]⟩
  obtain ⟨evs, hevs⟩ := hpre
  have hpe := parseEvents_eq sys w cmd evs hevs
  refine ⟨by rw [hpe, hevs], fun hp => ?_, fun hp hc => ?_, fun hp hc => ?_⟩
  · obtain ⟨hk, hlong, hfit⟩ := hpic hp
    refine ⟨hkind.trans hk, fun hl => ⟨?_, ?_⟩, fun hl => ⟨?_, ?_⟩⟩
    · rw [(hfit hl).2] at htr
      have := parseEvents_eq sys w cmd _ (by rw [htr, List.append_assoc, List.append_assoc])
      rw [this]
      simp [List.filter_append, hpr, Event.isLoad, List.filter_cons]
    · rw [← (hfit hl).1]; exact hret
    · rw [(hlong hl).2] at htr
      have := parseEvents_eq sys w cmd _ (by rw [htr, List.append_assoc])
      rw [this]
      simp [List.filter_append, hpr, Event.isLoad, List.filter_cons]
    · rw [← (hlong hl).1]; exact hret
  · obtain ⟨hk, hr, ht⟩ := hcin hp hc
    refine ⟨hkind.trans hk, ?_, ?_⟩
    · rw [ht] at htr
      have := parseEvents_eq sys w cmd _ (by rw [htr, List.append_assoc])
      rw [this]
      simp [List.filter_append, hpr, Event.isLoad, List.filter_cons]
    · rw [← hr]; exact hret
  · obtain ⟨hk, hlong, hfit⟩ := hgame hp hc
    refine ⟨hkind.trans hk, fun hl => ⟨?_, ?_⟩, fun hl => ⟨?_, ?_⟩⟩
    · rw [(hfit hl).2] at htr
      have := parseEvents_eq sys w cmd _ (by rw [htr, List.append_assoc, List.append_assoc])
      rw [this]
      simp [List.filter_append, hpr, Event.isLoad, List.filter_cons]
    · rw [← (hfit hl).1]; exact hret
    · rw [(hlong hl).2] at htr
      have := parseEvents_eq sys w cmd _ (by rw [htr, List.append_assoc])
      rw [this]
      simp [List.filter_append, hpr, Event.isLoad, List.filter_cons]
    · rw [← (hlong hl).1]; exact hret

theorem bool_true_of_not_false {b : Bool} (h : ¬ b = false) : b = true := by
  cases b
  · exact absurd rfl h
  · rfl

/-- C4. `SV_ParseMapCmd` classifies by the extension of the server token: `.pcx` gives
kind Pic and the only load attempted is the VFS load of `pics/<server>`; `.cin` gives kind
Cinematic, no load at all and success; any other token gives kind Game and the only load
attempted is the collision-model load of `maps/<server>.bsp`. A path that does not fit
`MAX_QPATH` is not loaded. -/
theorem SV_ParseMapCmd_classifies (sys : Services) (w : World) (cmd : MapCommand)
    (hok : 0 ≤ sys.Q_ERR_SUCCESS) :
    (SV_ParseMapCmd sys w cmd).2.2.trace = w.trace ++ parseEvents sys w cmd ∧
    (sys.COM_CompareExtension (serverToken (SV_ParseMapCmd sys w cmd).2.1) ".pcx".toList = 0 →
      (SV_ParseMapCmd sys w cmd).2.1.serverState = ServerState.Pic ∧
      (parseEvents sys w cmd).filter Event.isLoad
        = if ("pics/".toList ++ serverToken (SV_ParseMapCmd sys w cmd).2.1).length
              < sys.MAX_QPATH then
            [Event.FS_LoadFile ("pics/".toList ++ serverToken (SV_ParseMapCmd sys w cmd).2.1)]
          else []) ∧
    (sys.COM_CompareExtension (serverToken (SV_ParseMapCmd sys w cmd).2.1) ".pcx".toList ≠ 0 →
      sys.COM_CompareExtension (serverToken (SV_ParseMapCmd sys w cmd).2.1) ".cin".toList = 0 →
      (SV_ParseMapCmd sys w cmd).2.1.serverState = ServerState.Cinematic ∧
      (parseEvents sys w cmd).filter Event.isLoad = [] ∧
      (SV_ParseMapCmd sys w cmd).1 = true) ∧
    (sys.COM_CompareExtension (serverToken (SV_ParseMapCmd sys w cmd).2.1) ".pcx".toList ≠ 0 →
      sys.COM_CompareExtension (serverToken (SV_ParseMapCmd sys w cmd).2.1) ".cin".toList ≠ 0 →
      (SV_ParseMapCmd sys w cmd).2.1.serverState = ServerState.Game ∧
      (parseEvents sys w cmd).filter Event.isLoad
        = if ("maps/".toList ++ serverToken (SV_ParseMapCmd sys w cmd).2.1
                ++ ".bsp".toList).length < sys.MAX_QPATH then
            [Event.CM_LoadMap ("maps/".toList ++ serverToken (SV_ParseMapCmd sys w cmd).2.1
                ++ ".bsp".toList)]
          else []) := by
  obtain ⟨htr, hpic, hcin, hgame⟩ := parse_branches sys w cmd
  refine ⟨htr, fun hp => ⟨(hpic hp).1, ?_⟩, fun hp hc => ⟨(hcin hp hc).1, (hcin hp hc).2.1, ?_⟩,
    fun hp hc => ⟨(hgame hp hc).1, ?_⟩⟩
  · by_cases hl : ("pics/".toList ++ serverToken (SV_ParseMapCmd sys w cmd).2.1).length
        < sys.MAX_QPATH
    · rw [if_pos hl]; exact ((hpic hp).2.1 hl).1
    · rw [if_neg hl]; exact ((hpic hp).2.2 (Nat.not_lt.mp hl)).1
  · exact bool_true_of_not_false (fun hf => absurd ((hcin hp hc).2.2.mp hf) (not_lt.mpr hok))
  · by_cases hl : ("maps/".toList ++ serverToken (SV_ParseMapCmd sys w cmd).2.1
        ++ ".bsp".toList).length < sys.MAX_QPATH
    · rw [if_pos hl]; exact ((hgame hp hc).2.1 hl).1
    · rw [if_neg hl]; exact ((hgame hp hc).2.2 (Nat.not_lt.mp hl)).1

/-- The token `intro.cin` is a Cinematic, loads nothing and succeeds. -/
theorem SV_ParseMapCmd_classifies_witness :
    0 ≤ sampleServices.Q_ERR_SUCCESS ∧
    (SV_ParseMapCmd sampleServices sampleWorld
      (MapCommand.ofToken "intro.cin".toList)).2.1.serverState = ServerState.Cinematic ∧
    (parseEvents sampleServices sampleWorld
      (MapCommand.ofToken "intro.cin".toList)).filter Event.isLoad = [] ∧
    (SV_ParseMapCmd sampleServices sampleWorld (MapCommand.ofToken "intro.cin".toList)).1 = true :=
  ⟨by decide,
   (SV_ParseMapCmd_classifies sampleServices sampleWorld (MapCommand.ofToken "intro.cin".toList)
      (by decide)).2.2.1 (by decide) (by decide)⟩

/-- C5. `SV_ParseMapCmd` returns failure exactly when the path it builds does not fit
`MAX_QPATH` or the loader it delegates to (VFS load for Pic, collision-model load for
Game) returns a negative code, and success in every other case; when the name is too long
no loader is invoked. -/
theorem SV_ParseMapCmd_fails_iff (sys : Services) (w : World) (cmd : MapCommand)
    (hlong : sys.Q_ERR_NAMETOOLONG < 0) (hok : 0 ≤ sys.Q_ERR_SUCCESS) :
    ((SV_ParseMapCmd sys w cmd).1 = false ↔
      ((SV_ParseMapCmd sys w cmd).2.1.serverState = ServerState.Pic ∧
        (sys.MAX_QPATH ≤ ("pics/".toList ++ serverToken (SV_ParseMapCmd sys w cmd).2.1).length ∨
          sys.FS_LoadFile ("pics/".toList ++ serverToken (SV_ParseMapCmd sys w cmd).2.1) < 0)) ∨
      ((SV_ParseMapCmd sys w cmd).2.1.serverState = ServerState.Game ∧
        (sys.MAX_QPATH ≤ ("maps/".toList ++ serverToken (SV_ParseMapCmd sys w cmd).2.1
            ++ ".bsp".toList).length ∨
          (sys.CM_LoadMap cmd.cm ("maps/".toList ++ serverToken (SV_ParseMapCmd sys w cmd).2.1
            ++ ".bsp".toList)).1 < 0))) ∧
    ((SV_ParseMapCmd sys w cmd).2.1.serverState = ServerState.Pic →
      sys.MAX_QPATH ≤ ("pics/".toList ++ serverToken (SV_ParseMapCmd sys w cmd).2.1).length →
      (parseEvents sys w cmd).filter Event.isLoad = []) ∧
    ((SV_ParseMapCmd sys w cmd).2.1.serverState = ServerState.Game →
      sys.MAX_QPATH ≤ ("maps/".toList ++ serverToken (SV_ParseMapCmd sys w cmd).2.1
        ++ ".bsp".toList).length →
      (parseEvents sys w cmd).filter Event.isLoad = []) := by
  obtain ⟨-, hpic, hcin, hgame⟩ := parse_branches sys w cmd
  by_cases hp : sys.COM_CompareExtension (serverToken (SV_ParseMapCmd sys w cmd).2.1)
      ".pcx".toList = 0
  · obtain ⟨hk, hfit, hover⟩ := hpic hp
    refine ⟨?_, fun _ hl => (hover hl).1, fun hg => ?_⟩
    · rw [hk]
      by_cases hl : ("pics/".toList ++ serverToken (SV_ParseMapCmd sys w cmd).2.1).length
          < sys.MAX_QPATH
      · rw [(hfit hl).2]
        constructor
        · exact fun h => Or.inl ⟨rfl, Or.inr h⟩
        · rintro (⟨-, h | h⟩ | ⟨h, -⟩)
          · exact absurd hl (Nat.not_lt.mpr h)
          · exact h
          · cases h
      · rw [(hover (Nat.not_lt.mp hl)).2]
        constructor
        · exact fun _ => Or.inl ⟨rfl, Or.inl (Nat.not_lt.mp hl)⟩
        · exact fun _ => hlong
    · rw [hk] at hg; cases hg
  · by_cases hc : sys.COM_CompareExtension (serverToken (SV_ParseMapCmd sys w cmd).2.1)
        ".cin".toList = 0
    · obtain ⟨hk, -, hr⟩ := hcin hp hc
      refine ⟨?_, fun hg => ?_, fun hg => ?_⟩
      · rw [hk, hr]
        constructor
        · exact fun h => absurd h (not_lt.mpr hok)
        · rintro (⟨h, -⟩ | ⟨h, -⟩) <;> cases h
      · rw [hk] at hg; cases hg
      · rw [hk] at hg; cases hg
    · obtain ⟨hk, hfit, hover⟩ := hgame hp hc
      refine ⟨?_, fun hg => ?_, fun _ hl => (hover hl).1⟩
      · rw [hk]
        by_cases hl : ("maps/".toList ++ serverToken (SV_ParseMapCmd sys w cmd).2.1
            ++ ".bsp".toList).length < sys.MAX_QPATH
        · rw [(hfit hl).2]
          constructor
          · exact fun h => Or.inr ⟨rfl, Or.inr h⟩
          · rintro (⟨h, -⟩ | ⟨-, h | h⟩)
            · cases h
            · exact absurd hl (Nat.not_lt.mpr h)
            · exact h
        · rw [(hover (Nat.not_lt.mp hl)).2]
          constructor
          · exact fun _ => Or.inr ⟨rfl, Or.inl (Nat.not_lt.mp hl)⟩
          · exact fun _ => hlong
      · rw [hk] at hg; cases hg

/-- The 60-character token fails as a Game command and no loader is invoked. -/
theorem SV_ParseMapCmd_fails_iff_witness :
    (sampleServices.Q_ERR_NAMETOOLONG < 0 ∧ 0 ≤ sampleServices.Q_ERR_SUCCESS) ∧
    (SV_ParseMapCmd sampleServices sampleWorld (MapCommand.ofToken sampleLongToken)).1 = false ∧
    (parseEvents sampleServices sampleWorld (MapCommand.ofToken sampleLongToken)).filter
      Event.isLoad = [] :=
  ⟨by decide,
   (SV_ParseMapCmd_fails_iff sampleServices sampleWorld (MapCommand.ofToken sampleLongToken)
      (by decide) (by decide)).1.mpr (Or.inr ⟨by decide, Or.inl (by decide)⟩),
   (SV_ParseMapCmd_fails_iff sampleServices sampleWorld (MapCommand.ofToken sampleLongToken)
      (by decide) (by decide)).2.2 (by decide) (by decide)⟩

/-- C6. `SV_ParseMapCmd`, whether it succeeds or fails, leaves the level record `sv`,
every client session and the entity counter exactly as they were. -/
theorem SV_ParseMapCmd_frame (sys : Services) (w : World) (cmd : MapCommand) :
    (SV_ParseMapCmd sys w cmd).2.2.sv = w.sv ∧
    (SV_ParseMapCmd sys w cmd).2.2.clients = w.clients ∧
    (SV_ParseMapCmd sys w cmd).2.2.next_entity = w.next_entity := by
  obtain ⟨-, -, -, -, -, hsv, hcl⟩ := parse_frame sys w cmd
  refine ⟨hsv, hcl, ?_⟩
  unfold SV_ParseMapCmd SV_ParseMapCmd_load
  simp only []
  split_ifs <;> rfl

/-! ## `SV_ClientReset` -/

/-- C7. `SV_ClientReset` equals the reference reset on every session: below Connected the
session is returned unchanged; otherwise the state becomes Connected, the frame number 1,
the last frame -1, the three delta counters 0, the last user command all zero bytes, and
every other field is kept. -/
theorem SV_ClientReset_eq_reference (client : client_t) :
    SV_ClientReset client = SV_ClientReset_reference client := by
  unfold SV_ClientReset SV_ClientReset_reference
  cases h : client.connectionState with
  | Disconnected => simp [ConnectionState.rank]
  | Connected => simp [ConnectionState.rank, List.map_const']
  | Spawned => simp [ConnectionState.rank, List.map_const']

/-- A session below Connected keeps its frame number 77, last frame 76 and counter 3
through two resets: frame number 1 and cleared counters are not reached for it. -/
theorem SV_ClientReset_idempotent_counterexample :
    SV_ClientReset (SV_ClientReset sampleStale) = SV_ClientReset sampleStale ∧
    (SV_ClientReset (SV_ClientReset sampleStale)).frameNumber = 77 ∧
    (SV_ClientReset (SV_ClientReset sampleStale)).lastFrame = 76 ∧
    (SV_ClientReset (SV_ClientReset sampleStale)).framesNoDelta = 3 := by
  decide

theorem SV_ClientReset_of_connected (client : client_t)
    (h : ConnectionState.Connected.rank ≤ client.connectionState.rank) :
    (SV_ClientReset client).connectionState = ConnectionState.Connected ∧
    (SV_ClientReset client).frameNumber = 1 ∧
    (SV_ClientReset client).lastFrame = -1 ∧
    (SV_ClientReset client).framesNoDelta = 0 ∧
    (SV_ClientReset client).sendDelta = 0 ∧
    (SV_ClientReset client).suppressCount = 0 := by
  unfold SV_ClientReset
  rw [if_neg (Nat.not_lt.mpr h)]
  exact ⟨rfl, rfl, rfl, rfl, rfl, rfl⟩

theorem SV_ClientReset_of_below (client : client_t)
    (h : client.connectionState.rank < ConnectionState.Connected.rank) :
    SV_ClientReset client = client := by
  unfold SV_ClientReset
  rw [if_pos h]

/-- C8, amended. `SV_ClientReset` is idempotent on every session; for a session at or
above Connected the state after two resets has frame number 1, last frame -1 and the delta
counters 0; a session below Connected is left as it was by both calls. -/
theorem SV_ClientReset_idempotent (client : client_t) :
    SV_ClientReset (SV_ClientReset client) = SV_ClientReset client ∧
    (ConnectionState.Connected.rank ≤ client.connectionState.rank →
      (SV_ClientReset (SV_ClientReset client)).frameNumber = 1 ∧
      (SV_ClientReset (SV_ClientReset client)).lastFrame = -1 ∧
      (SV_ClientReset (SV_ClientReset client)).framesNoDelta = 0 ∧
      (SV_ClientReset (SV_ClientReset client)).sendDelta = 0 ∧
      (SV_ClientReset (SV_ClientReset client)).suppressCount = 0) ∧
    (client.connectionState.rank < ConnectionState.Connected.rank →
      SV_ClientReset (SV_ClientReset client) = client) := by
  have hidem : SV_ClientReset (SV_ClientReset client) = SV_ClientReset client := by
    by_cases h : client.connectionState.rank < ConnectionState.Connected.rank
    · rw [SV_ClientReset_of_below client h, SV_ClientReset_of_below client h]
    · unfold SV_ClientReset
      rw [if_neg h]
      simp [ConnectionState.rank]
  refine ⟨hidem, fun h => ?_, fun h => ?_⟩
  · rw [hidem]
    exact (SV_ClientReset_of_connected client h).2
  · rw [hidem, SV_ClientReset_of_below client h]

/-- A session in the game has frame number 1, last frame -1 and cleared counters after
two resets. -/
theorem SV_ClientReset_idempotent_witness :
    ConnectionState.Connected.rank ≤ sampleActive.connectionState.rank ∧
    (SV_ClientReset (SV_ClientReset sampleActive)).frameNumber = 1 ∧
    (SV_ClientReset (SV_ClientReset sampleActive)).lastFrame = -1 ∧
    (SV_ClientReset (SV_ClientReset sampleActive)).framesNoDelta = 0 ∧
    (SV_ClientReset (SV_ClientReset sampleActive)).sendDelta = 0 ∧
    (SV_ClientReset (SV_ClientReset sampleActive)).suppressCount = 0 :=
  ⟨by decide, (SV_ClientReset_idempotent sampleActive).2.1 (by decide)⟩

/-! ## `SV_SpawnServer` -/

theorem sprintf_d_zero_iff (n : Int) : sprintf_d n = ['0'] ↔ n = 0 := by
  constructor
  · intro h
    match n, h with
    | Int.ofNat 0, _ => rfl
    | Int.ofNat (k + 1), h =>
      exfalso
      simp only [sprintf_d] at h
      have hd : Nat.digits 10 (k + 1) = ((k + 1) % 10) :: Nat.digits 10 ((k + 1) / 10) :=
        Nat.digits_def' (by decide) (Nat.succ_pos k)
      rw [hd, List.reverse_cons, List.map_append, List.map_singleton] at h
      have hlen := congrArg List.length h
      simp only [List.length_append, List.length_map, List.length_reverse, List.length_singleton,
        List.length_cons, List.length_nil] at hlen
      have hnil : Nat.digits 10 ((k + 1) / 10) = [] :=
        List.eq_nil_of_length_eq_zero (by omega)
      rw [hnil] at h
      have hq : (k + 1) / 10 = 0 := Nat.digits_eq_nil_iff_eq_zero.mp hnil
      have hk : k < 9 := by omega
      simp only [List.reverse_nil, List.map_nil, List.nil_append, List.cons.injEq,
        and_true] at h
      interval_cases k <;> revert h <;> decide
    | Int.negSucc k, h =>
      exfalso
      simp only [sprintf_d, List.cons.injEq] at h
      exact absurd h.1 (by decide)
  · rintro rfl
    rfl

theorem toInt32_zero_iff (x : Nat) : toInt32 x = 0 ↔ x % 2 ^ 32 = 0 := by
  unfold toInt32
  have hlt : x % 2 ^ 32 < 2 ^ 32 := Nat.mod_lt _ (by decide)
  split_ifs with h
  · exact Int.natCast_eq_zero
  · constructor
    · intro h0
      omega
    · intro h0
      rw [h0] at h
      exact absurd (by decide) h

theorem setInlineModels_other (cs : ConfigStrings → List Char) (n : Int) (slot : ConfigStrings)
    (h : ∀ k, slot ≠ ConfigStrings.Models k) : setInlineModels cs n slot = cs slot := by
  unfold setInlineModels
  generalize List.range' 1 (n.toNat - 1) = l
  induction l generalizing cs with
  | nil => rfl
  | cons i t ih =>
    rw [List.foldl_cons, ih]
    unfold setConfigstring
    rw [if_neg (h _)]

theorem override_frame (sys : Services) (w : World) (server : List Char) :
    (override_entity_string sys w server).clients = w.clients ∧
    (override_entity_string sys w server).sv.spawncount = w.sv.spawncount ∧
    (override_entity_string sys w server).sv.configstrings = w.sv.configstrings ∧
    (override_entity_string sys w server).cvars = w.cvars := by
  unfold override_entity_string
  simp only []
  repeat' split
  all_goals exact ⟨rfl, rfl, rfl, rfl⟩


theorem announce_clients (sys : Services) (w : World) (server : List Char) :
    (SV_SpawnServer_announce sys w server).clients = w.clients.map SV_ClientReset := by
  unfold SV_SpawnServer_announce
  simp only []
  split_ifs <;> rfl

theorem wipe_spawncount (sys : Services) (w : World) (cmd : MapCommand) (server : List Char)
    (r1 r2 ms : Nat) :
    (SV_SpawnServer_wipe sys w cmd server r1 r2 ms).sv.spawncount = (spawncountMix r1 r2 ms : Nat) ∧
    (SV_SpawnServer_wipe sys w cmd server r1 r2 ms).clients
      = w.clients.map (fun (client : client_t) =>
          { client with spawncount := (spawncountMix r1 r2 ms : Nat) }) :=
  ⟨rfl, rfl⟩

theorem level_spec (sys : Services) (w : World) (cmd : MapCommand) (server : List Char)
    (hcm : cmd.serverState = ServerState.Game → cmd.cm.cache ≠ none) :
    ∃ w' entityString, SV_SpawnServer_level sys w cmd server = some (w', entityString) ∧
      w'.clients = w.clients ∧ w'.sv.spawncount = w.sv.spawncount ∧
      (cmd.serverState ≠ ServerState.Game →
        w'.sv.configstrings ConfigStrings.MapCheckSum = ['0']) ∧
      (cmd.serverState = ServerState.Game → ∀ cache, cmd.cm.cache = some cache →
        w'.sv.configstrings ConfigStrings.MapCheckSum = sprintf_d (toInt32 cache.checksum)) := by
  by_cases hg : cmd.serverState = ServerState.Game
  · obtain ⟨cache, hcache⟩ := Option.ne_none_iff_exists'.mp (hcm hg)
    obtain ⟨oc, os, -, -⟩ := override_frame sys w server
    unfold SV_SpawnServer_level
    rw [if_pos hg]
    simp only [hcache]
    refine ⟨_, _, rfl, oc, os, fun h => absurd hg h, ?_⟩
    intro _ cache' hc'
    cases hc'
    show setInlineModels _ _ ConfigStrings.MapCheckSum = _
    rw [setInlineModels_other _ _ ConfigStrings.MapCheckSum (fun k h => by cases h)]
    simp [setConfigstring]
  · unfold SV_SpawnServer_level
    rw [if_neg hg]
    refine ⟨_, _, rfl, rfl, rfl, fun _ => ?_, fun h => absurd h hg⟩
    simp [setConfigstring]

theorem publish_frame (w : World) (cmd : MapCommand) (entityString : List Char) :
    (SV_SpawnServer_publish w cmd entityString).clients = w.clients ∧
    (SV_SpawnServer_publish w cmd entityString).sv.spawncount = w.sv.spawncount ∧
    (SV_SpawnServer_publish w cmd entityString).sv.configstrings ConfigStrings.MapCheckSum
      = w.sv.configstrings ConfigStrings.MapCheckSum ∧
    (SV_SpawnServer_publish w cmd entityString).sv.serverState = cmd.serverState ∧
    (SV_SpawnServer_publish w cmd entityString).sv.frameNumber = w.sv.frameNumber + 1 + 1 :=
  ⟨rfl, rfl, rfl, rfl, rfl⟩

/-- The run of `SV_SpawnServer` on a command it can dereference. -/
theorem spawn_spec (sys : Services) (w : World) (cmd : MapCommand) (r1 r2 ms : Nat) (p : Nat)
    (hserver : cmd.server = some p)
    (hcm : cmd.serverState = ServerState.Game → cmd.cm.cache ≠ none) :
    ∃ w', SV_SpawnServer sys w cmd r1 r2 ms = some w' ∧
      w'.sv.spawncount = (spawncountMix r1 r2 ms : Nat) ∧
      w'.clients = (w.clients.map SV_ClientReset).map (fun (client : client_t) =>
          { client with spawncount := (spawncountMix r1 r2 ms : Nat) }) ∧
      w'.sv.serverState = cmd.serverState ∧
      (cmd.serverState ≠ ServerState.Game →
        w'.sv.configstrings ConfigStrings.MapCheckSum = ['0']) ∧
      (cmd.serverState = ServerState.Game → ∀ cache, cmd.cm.cache = some cache →
        w'.sv.configstrings ConfigStrings.MapCheckSum = sprintf_d (toInt32 cache.checksum)) := by
  obtain ⟨w1, e, hl, hc, hs, hn, hg⟩ := level_spec sys
    (SV_SpawnServer_wipe sys (SV_SpawnServer_announce sys w (cstr cmd.buffer p)) cmd
      (cstr cmd.buffer p) r1 r2 ms) cmd (cstr cmd.buffer p) hcm
  obtain ⟨pc, ps, pk, pst, -⟩ := publish_frame w1 cmd e
  obtain ⟨ws, wc⟩ := wipe_spawncount sys (SV_SpawnServer_announce sys w (cstr cmd.buffer p)) cmd
    (cstr cmd.buffer p) r1 r2 ms
  refine ⟨SV_SpawnServer_publish w1 cmd e, ?_, ?_, ?_, pst, ?_, ?_⟩
  · unfold SV_SpawnServer
    simp only [hserver, hl]
  · rw [ps, hs, ws]
  · rw [pc, hc, wc, announce_clients]
  · intro h; rw [pk]; exact hn h
  · intro h cache hcache; rw [pk]; exact hg h cache hcache


/-- C9. `SV_SpawnServer` returns for every command it can dereference, of every kind and
for every list of sessions, and afterwards every session of the client list has its
`spawncount` equal to `sv.spawncount` of the new level; a session that was below Connected
is otherwise untouched and is in the list with the new spawn count. -/
theorem SV_SpawnServer_spawncount (sys : Services) (w : World) (cmd : MapCommand)
    (r1 r2 ms : Nat) (p : Nat) (hserver : cmd.server = some p)
    (hcm : cmd.serverState = ServerState.Game → cmd.cm.cache ≠ none) :
    ∃ w', SV_SpawnServer sys w cmd r1 r2 ms = some w' ∧
      w'.clients.length = w.clients.length ∧
      (∀ client ∈ w'.clients, client.spawncount = w'.sv.spawncount) ∧
      (∀ client ∈ w.clients,
        client.connectionState.rank < ConnectionState.Connected.rank →
        { client with spawncount := w'.sv.spawncount } ∈ w'.clients) := by
  obtain ⟨w', hrun, hsc, hcl, -, -, -⟩ := spawn_spec sys w cmd r1 r2 ms p hserver hcm
  refine ⟨w', hrun, ?_, ?_, ?_⟩
  · rw [hcl, List.length_map, List.length_map]
  · intro client hmem
    rw [hcl, List.mem_map] at hmem
    obtain ⟨c0, -, rfl⟩ := hmem
    rw [hsc]
  · intro client hmem hbelow
    rw [hcl, hsc, List.mem_map]
    refine ⟨client, ?_, rfl⟩
    rw [List.mem_map]
    exact ⟨client, hmem, SV_ClientReset_of_below client hbelow⟩

/-- The parsed `q2dm1` command on a world of two sessions: both end with the new spawn
count. -/
theorem SV_SpawnServer_spawncount_witness :
    (sampleGameCmd.server = some 0 ∧
      (sampleGameCmd.serverState = ServerState.Game → sampleGameCmd.cm.cache ≠ none)) ∧
    ∃ w', SV_SpawnServer sampleServices sampleLevel sampleGameCmd 12345 678 99999 = some w' ∧
      w'.clients.length = sampleLevel.clients.length ∧
      (∀ client ∈ w'.clients, client.spawncount = w'.sv.spawncount) ∧
      (∀ client ∈ sampleLevel.clients,
        client.connectionState.rank < ConnectionState.Connected.rank →
        { client with spawncount := w'.sv.spawncount } ∈ w'.clients) :=
  ⟨by decide,
   SV_SpawnServer_spawncount sampleServices sampleLevel sampleGameCmd 12345 678 99999 0
     (by decide) (by decide)⟩

/-- A Game command whose collision model has checksum 0 ends with the MapCheckSum
configstring `"0"`. -/
theorem SV_SpawnServer_checksum_counterexample :
    sampleZeroChecksumCmd.serverState = ServerState.Game ∧
    (SV_SpawnServer sampleServices sampleLevel sampleZeroChecksumCmd 12345 678 99999).map
      (fun w => w.sv.configstrings ConfigStrings.MapCheckSum) = some ['0'] := by
  decide

/-- C10, amended. After `SV_SpawnServer` the MapCheckSum configstring is `"0"` for a Pic
or Cinematic command and the decimal text of the collision model's checksum for a Game
command; so it is the literal `"0"` exactly when the kind is not Game or the checksum of
the Game's collision model is 0. -/
theorem SV_SpawnServer_checksum (sys : Services) (w : World) (cmd : MapCommand)
    (r1 r2 ms : Nat) (p : Nat) (hserver : cmd.server = some p)
    (hcm : cmd.serverState = ServerState.Game → cmd.cm.cache ≠ none) :
    ∃ w', SV_SpawnServer sys w cmd r1 r2 ms = some w' ∧
      (cmd.serverState ≠ ServerState.Game →
        w'.sv.configstrings ConfigStrings.MapCheckSum = ['0']) ∧
      (∀ cache, cmd.serverState = ServerState.Game → cmd.cm.cache = some cache →
        w'.sv.configstrings ConfigStrings.MapCheckSum = sprintf_d (toInt32 cache.checksum)) ∧
      (w'.sv.configstrings ConfigStrings.MapCheckSum = ['0'] ↔
        (cmd.serverState ≠ ServerState.Game ∨
          ∃ cache, cmd.cm.cache = some cache ∧ cache.checksum % 2 ^ 32 = 0)) := by
  obtain ⟨w', hrun, -, -, -, hn, hg⟩ := spawn_spec sys w cmd r1 r2 ms p hserver hcm
  refine ⟨w', hrun, hn, fun cache h hc => hg h cache hc, ?_⟩
  by_cases hk : cmd.serverState = ServerState.Game
  · obtain ⟨cache, hcache⟩ := Option.ne_none_iff_exists'.mp (hcm hk)
    rw [hg hk cache hcache, sprintf_d_zero_iff, toInt32_zero_iff]
    constructor
    · exact fun h => Or.inr ⟨cache, hcache, h⟩
    · rintro (h | ⟨cache', hc', h⟩)
      · exact absurd hk h
      · rw [hcache] at hc'
        cases hc'
        exact h
  · rw [hn hk]
    exact ⟨fun _ => Or.inl hk, fun _ => rfl⟩

/-- The parsed `q2dm1` command ends with the decimal checksum of its collision model. -/
theorem SV_SpawnServer_checksum_witness :
    (sampleGameCmd.server = some 0 ∧
      (sampleGameCmd.serverState = ServerState.Game → sampleGameCmd.cm.cache ≠ none)) ∧
    ∃ w', SV_SpawnServer sampleServices sampleLevel sampleGameCmd 12345 678 99999 = some w' ∧
      w'.sv.configstrings ConfigStrings.MapCheckSum
        = sprintf_d (toInt32 sampleBsp.checksum) :=
  ⟨by decide,
   (SV_SpawnServer_checksum sampleServices sampleLevel sampleGameCmd 12345 678 99999 0
     (by decide) (by decide)).imp
     (fun _ h => ⟨h.1, h.2.2.1 sampleBsp (by decide) (by decide)⟩)⟩

/-! ## `SV_SpawnServer`: the observable trace -/

/-- The start of `SV_SpawnServer` in one equation: the sessions are reset in a world that
has emitted no broadcast yet, then the broadcast and the flush follow. -/
theorem announce_unfold (sys : Services) (w : World) (server : List Char) :
    ∃ (w1 : World) (pre : List Event),
      w1.clients = w.clients.map SV_ClientReset ∧
      w1.sv = w.sv ∧ w1.cvars = w.cvars ∧
      w1.trace = w.trace ++ pre ∧ pre.filter Event.isSync = [] ∧
      pre.filter Event.isFree = [] ∧
      SV_SpawnServer_announce sys w server
        = ((w1.emit (Event.SV_BroadcastCommand (changingMapText server))).emit
            Event.SV_SendClientMessages).emit Event.SV_SendAsyncPackets := by
  unfold SV_SpawnServer_announce
  simp only []
  split_ifs
  · exact ⟨{ ({ ((((w.emit Event.SCR_BeginLoadingPlaque).emit
        (Event.Com_Printf "------- Server Initialization -------".toList)).emit
        (Event.Com_Printf ("SpawnServer: ".toList ++ server))).emit
        (Event.Com_Printf "WARNING: Dedicated coop servers save game state".toList))
        with warning_printed := true } : World)
        with clients := w.clients.map SV_ClientReset },
      [Event.SCR_BeginLoadingPlaque,
      Event.Com_Printf "------- Server Initialization -------".toList,
      Event.Com_Printf ("SpawnServer: ".toList ++ server),
      Event.Com_Printf "WARNING: Dedicated coop servers save game state".toList],
      rfl, rfl, rfl, by simp [World.emit], rfl, rfl, rfl⟩
  · exact ⟨{ (((w.emit Event.SCR_BeginLoadingPlaque).emit
        (Event.Com_Printf "------- Server Initialization -------".toList)).emit
        (Event.Com_Printf ("SpawnServer: ".toList ++ server)))
        with clients := w.clients.map SV_ClientReset },
      [Event.SCR_BeginLoadingPlaque,
      Event.Com_Printf "------- Server Initialization -------".toList,
      Event.Com_Printf ("SpawnServer: ".toList ++ server)],
      rfl, rfl, rfl, by simp [World.emit], rfl, rfl, rfl⟩

theorem announce_trace (sys : Services) (w : World) (server : List Char) :
    ∃ pre : List Event, pre.filter Event.isSync = [] ∧ pre.filter Event.isFree = [] ∧
      (SV_SpawnServer_announce sys w server).trace
        = w.trace ++ (pre ++ [Event.SV_BroadcastCommand (changingMapText server),
            Event.SV_SendClientMessages, Event.SV_SendAsyncPackets]) ∧
      (SV_SpawnServer_announce sys w server).sv = w.sv ∧
      (SV_SpawnServer_announce sys w server).cvars = w.cvars := by
  obtain ⟨w1, pre, -, hsv, hcv, htr, hpre, hfree, heq⟩ := announce_unfold sys w server
  refine ⟨pre, hpre, hfree, ?_, ?_, ?_⟩
  · rw [heq]; simp [World.emit, htr]
  · rw [heq]; exact hsv
  · rw [heq]; exact hcv

theorem wipe_trace (sys : Services) (w : World) (cmd : MapCommand) (server : List Char)
    (r1 r2 ms : Nat) :
    (SV_SpawnServer_wipe sys w cmd server r1 r2 ms).trace
      = w.trace ++ [Event.CM_FreeMap, Event.SV_FreeFile, Event.memset_sv,
          Event.resolve_masters] ∧
    (SV_SpawnServer_wipe sys w cmd server r1 r2 ms).sv.entityString = none ∧
    (SV_SpawnServer_wipe sys w cmd server r1 r2 ms).sv.frameNumber = 0 ∧
    (SV_SpawnServer_wipe sys w cmd server r1 r2 ms).sv.name = Q_strlcpy server sys.SIZEOF_SV_NAME ∧
    (SV_SpawnServer_wipe sys w cmd server r1 r2 ms).cvars = w.cvars := by
  refine ⟨?_, rfl, rfl, rfl, rfl⟩
  simp [SV_SpawnServer_wipe, World.emit]

/-- What `override_entity_string` does, case by case. -/
theorem override_cases (sys : Services) (w : World) (server : List Char) :
    ∃ ov : List Event, ov.filter Event.isSync = [] ∧
      (override_entity_string sys w server).trace = w.trace ++ ov ∧
      (override_entity_string sys w server).sv.frameNumber = w.sv.frameNumber ∧
      (override_entity_string sys w server).sv.name = w.sv.name ∧
      (w.cvars.map_override_path = [] →
        (override_entity_string sys w server).sv.entityString = w.sv.entityString) ∧
      (w.cvars.map_override_path ≠ [] →
        sys.MAX_QPATH ≤ (w.cvars.map_override_path ++ server ++ ".ent".toList).length →
        (override_entity_string sys w server).sv.entityString = w.sv.entityString ∧
        ov.filter Event.isLoad = []) ∧
      (w.cvars.map_override_path ≠ [] →
        (w.cvars.map_override_path ++ server ++ ".ent".toList).length < sys.MAX_QPATH →
        (∀ str, (sys.SV_LoadFile (w.cvars.map_override_path ++ server ++ ".ent".toList)).2
            = some str →
          (sys.SV_LoadFile (w.cvars.map_override_path ++ server ++ ".ent".toList)).1
            ≤ sys.MAX_MAP_ENTSTRING →
          (override_entity_string sys w server).sv.entityString = some str ∧
          ov.filter Event.isFree = []) ∧
        (∀ str, (sys.SV_LoadFile (w.cvars.map_override_path ++ server ++ ".ent".toList)).2
            = some str →
          (sys.MAX_MAP_ENTSTRING : Int)
            < (sys.SV_LoadFile (w.cvars.map_override_path ++ server ++ ".ent".toList)).1 →
          (override_entity_string sys w server).sv.entityString = w.sv.entityString ∧
          ov.filter Event.isFree = [Event.SV_FreeFile]) ∧
        ((sys.SV_LoadFile (w.cvars.map_override_path ++ server ++ ".ent".toList)).2 = none →
          (override_entity_string sys w server).sv.entityString = w.sv.entityString)) := by
  have e1 : Q_concat [w.cvars.map_override_path, server, ".ent".toList]
      = (w.cvars.map_override_path ++ server ++ ".ent".toList).length := by
    simp only [Q_concat, List.map_cons, List.map_nil, List.sum_cons, List.sum_nil,
      List.length_append]
    omega
  have t1 : Q_concat_text [w.cvars.map_override_path, server, ".ent".toList]
      = w.cvars.map_override_path ++ server ++ ".ent".toList := by
    simp [Q_concat_text]
  unfold override_entity_string
  simp only [e1, t1]
  by_cases hp : w.cvars.map_override_path = []
  · rw [if_pos hp]
    exact ⟨[], rfl, by simp, rfl, rfl, fun _ => rfl, fun h => absurd hp h, fun h => absurd hp h⟩
  · rw [if_neg hp]
    by_cases hl : (w.cvars.map_override_path ++ server ++ ".ent".toList).length ≥ sys.MAX_QPATH
    · rw [if_pos hl]
      exact ⟨[Event.Com_EPrintf "Couldn't load entity string".toList], rfl, rfl, rfl, rfl,
        fun h => absurd h hp, fun _ _ => ⟨rfl, rfl⟩,
        fun _ h => absurd hl (Nat.not_le.mpr h)⟩
    · rw [if_neg hl]
      cases hstr : (sys.SV_LoadFile (w.cvars.map_override_path ++ server ++ ".ent".toList)).2 with
      | none =>
        dsimp only
        by_cases hno : (sys.SV_LoadFile
            (w.cvars.map_override_path ++ server ++ ".ent".toList)).1 = sys.Q_ERR_NOENT
        · rw [if_pos hno]
          exact ⟨[Event.SV_LoadFile (w.cvars.map_override_path ++ server ++ ".ent".toList)],
            rfl, rfl, rfl, rfl, fun h => absurd h hp, fun _ h => absurd h hl,
            fun _ _ => ⟨fun str h => (by cases h), fun str h => (by cases h), fun _ => rfl⟩⟩
        · rw [if_neg hno]
          exact ⟨[Event.SV_LoadFile (w.cvars.map_override_path ++ server ++ ".ent".toList),
            Event.Com_EPrintf "Couldn't load entity string".toList],
            rfl, by simp [World.emit], rfl, rfl, fun h => absurd h hp, fun _ h => absurd h hl,
            fun _ _ => ⟨fun str h => (by cases h), fun str h => (by cases h), fun _ => rfl⟩⟩
      | some str =>
        dsimp only
        by_cases hbig : (sys.SV_LoadFile
            (w.cvars.map_override_path ++ server ++ ".ent".toList)).1 > sys.MAX_MAP_ENTSTRING
        · rw [if_pos hbig]
          refine ⟨[Event.SV_LoadFile (w.cvars.map_override_path ++ server ++ ".ent".toList),
            Event.SV_FreeFile, Event.Com_EPrintf "Couldn't load entity string".toList],
            rfl, by simp [World.emit], rfl, rfl, fun h => absurd h hp, fun _ h => absurd h hl,
            fun _ _ => ⟨fun s' _ hle => absurd hbig (not_lt.mpr hle),
              fun s' _ _ => ⟨rfl, rfl⟩, fun h => (by cases h)⟩⟩
        · rw [if_neg hbig]
          refine ⟨[Event.SV_LoadFile (w.cvars.map_override_path ++ server ++ ".ent".toList),
            Event.Com_Printf ("Loaded entity string from ".toList ++
              (w.cvars.map_override_path ++ server ++ ".ent".toList))],
            rfl, by simp [World.emit], rfl, rfl, fun h => absurd h hp, fun _ h => absurd h hl,
            fun _ _ => ⟨fun s' hs' _ => ⟨by cases hs'; rfl, rfl⟩,
              fun s' _ hgt => absurd hgt hbig, fun h => (by cases h)⟩⟩


theorem level_full (sys : Services) (w : World) (cmd : MapCommand) (server : List Char)
    (hcm : cmd.serverState = ServerState.Game → cmd.cm.cache ≠ none) :
    ∃ (w1 : World) (ent : List Char) (ov : List Event),
      SV_SpawnServer_level sys w cmd server = some (w1, ent) ∧
      w1.trace = w.trace ++ ov ∧ ov.filter Event.isSync = [] ∧
      w1.sv.frameNumber = w.sv.frameNumber ∧ w1.sv.name = w.sv.name ∧
      (cmd.serverState ≠ ServerState.Game → ent = [] ∧ ov = []) ∧
      (cmd.serverState = ServerState.Game → ∀ cache, cmd.cm.cache = some cache →
        ent = ((override_entity_string sys w server).sv.entityString).getD cache.entityString ∧
        (override_entity_string sys w server).trace = w.trace ++ ov) := by
  by_cases hg : cmd.serverState = ServerState.Game
  · obtain ⟨cache, hcache⟩ := Option.ne_none_iff_exists'.mp (hcm hg)
    obtain ⟨ov, hov, htr, hfr, hnm, -, -, -⟩ := override_cases sys w server
    unfold SV_SpawnServer_level
    rw [if_pos hg]
    simp only [hcache]
    refine ⟨_, _, ov, rfl, htr, hov, hfr, hnm, fun h => absurd hg h, ?_⟩
    intro _ cache' hc'
    cases hc'
    refine ⟨?_, htr⟩
    cases (override_entity_string sys w server).sv.entityString <;> rfl
  · unfold SV_SpawnServer_level
    rw [if_neg hg]
    exact ⟨_, _, [], rfl, by simp, rfl, rfl, rfl, fun _ => ⟨rfl, rfl⟩, fun h => absurd h hg⟩

theorem publish_trace (w : World) (cmd : MapCommand) (ent : List Char) :
    (SV_SpawnServer_publish w cmd ent).trace
      = w.trace ++ [Event.SV_ClearWorld,
          Event.SpawnEntities w.sv.name ent (cmd.spawnpoint.map (cstr cmd.buffer)),
          Event.RunFrame, Event.RunFrame, Event.SV_CheckForSavegame,
          Event.SV_InfoSet "mapName".toList, Event.SV_InfoSet "port".toList,
          Event.EXEC_TRIGGER, Event.SV_BroadcastCommand reconnectText,
          Event.Com_Printf "-------------------------------------".toList] := by
  simp [SV_SpawnServer_publish, World.emit, reconnectText]

theorem spawnEvents_eq (sys : Services) (w w1 : World) (cmd : MapCommand) (r1 r2 ms : Nat)
    (evs : List Event) (hrun : SV_SpawnServer sys w cmd r1 r2 ms = some w1)
    (htr : w1.trace = w.trace ++ evs) : spawnEvents sys w cmd r1 r2 ms = evs := by
  unfold spawnEvents
  rw [hrun]
  simp only [htr, List.drop_left]

/-- The run of `SV_SpawnServer` as its clients and the game module observe it. -/
theorem spawn_sync (sys : Services) (w : World) (cmd : MapCommand) (r1 r2 ms : Nat) (p : Nat)
    (hserver : cmd.server = some p)
    (hcm : cmd.serverState = ServerState.Game → cmd.cm.cache ≠ none) :
    ∃ (w1 : World) (ent : List Char) (ov : List Event),
      SV_SpawnServer sys w cmd r1 r2 ms = some w1 ∧
      w1.trace = w.trace ++ spawnEvents sys w cmd r1 r2 ms ∧
      (spawnEvents sys w cmd r1 r2 ms).filter Event.isSync
        = [Event.SV_BroadcastCommand (changingMapText (cstr cmd.buffer p)),
           Event.SV_SendClientMessages, Event.SV_SendAsyncPackets, Event.memset_sv,
           Event.SpawnEntities (Q_strlcpy (cstr cmd.buffer p) sys.SIZEOF_SV_NAME) ent
             (cmd.spawnpoint.map (cstr cmd.buffer)),
           Event.RunFrame, Event.RunFrame, Event.SV_BroadcastCommand reconnectText] ∧
      (spawnEvents sys w cmd r1 r2 ms).filter Event.isFree
        = Event.SV_FreeFile :: ov.filter Event.isFree ∧
      w1.sv.frameNumber = 2 ∧
      w1.sv.serverState = cmd.serverState ∧
      (cmd.serverState ≠ ServerState.Game → ent = [] ∧ ov = []) ∧
      (cmd.serverState = ServerState.Game → ∀ cache, cmd.cm.cache = some cache →
        ent = ((override_entity_string sys
                (SV_SpawnServer_wipe sys (SV_SpawnServer_announce sys w (cstr cmd.buffer p)) cmd
                  (cstr cmd.buffer p) r1 r2 ms) (cstr cmd.buffer p)).sv.entityString).getD
              cache.entityString ∧
        (override_entity_string sys
            (SV_SpawnServer_wipe sys (SV_SpawnServer_announce sys w (cstr cmd.buffer p)) cmd
              (cstr cmd.buffer p) r1 r2 ms) (cstr cmd.buffer p)).trace
          = (SV_SpawnServer_wipe sys (SV_SpawnServer_announce sys w (cstr cmd.buffer p)) cmd
              (cstr cmd.buffer p) r1 r2 ms).trace ++ ov) := by
  obtain ⟨pre, hpre, hprefree, hatr, -, -⟩ := announce_trace sys w (cstr cmd.buffer p)
  obtain ⟨hwtr, -, hwfr, hwnm, -⟩ := wipe_trace sys
    (SV_SpawnServer_announce sys w (cstr cmd.buffer p)) cmd (cstr cmd.buffer p) r1 r2 ms
  obtain ⟨w2, ent, ov, hl, hltr, hov, hlfr, hlnm, hng, hg⟩ := level_full sys
    (SV_SpawnServer_wipe sys (SV_SpawnServer_announce sys w (cstr cmd.buffer p)) cmd
      (cstr cmd.buffer p) r1 r2 ms) cmd (cstr cmd.buffer p) hcm
  have hptr := publish_trace w2 cmd ent
  obtain ⟨-, -, -, pst, pfr⟩ := publish_frame w2 cmd ent
  have hrun : SV_SpawnServer sys w cmd r1 r2 ms = some (SV_SpawnServer_publish w2 cmd ent) := by
    unfold SV_SpawnServer
    simp only [hserver, hl]
  have htrace : (SV_SpawnServer_publish w2 cmd ent).trace = w.trace ++
      (pre ++ [Event.SV_BroadcastCommand (changingMapText (cstr cmd.buffer p)),
            Event.SV_SendClientMessages, Event.SV_SendAsyncPackets] ++
        [Event.CM_FreeMap, Event.SV_FreeFile, Event.memset_sv, Event.resolve_masters] ++ ov ++
        [Event.SV_ClearWorld,
          Event.SpawnEntities w2.sv.name ent (cmd.spawnpoint.map (cstr cmd.buffer)),
          Event.RunFrame, Event.RunFrame, Event.SV_CheckForSavegame,
          Event.SV_InfoSet "mapName".toList, Event.SV_InfoSet "port".toList,
          Event.EXEC_TRIGGER, Event.SV_BroadcastCommand reconnectText,
          Event.Com_Printf "-------------------------------------".toList]) := by
    rw [hptr, hltr, hwtr, hatr]
    simp only [List.append_assoc]
  have hev := spawnEvents_eq sys w _ cmd r1 r2 ms _ hrun htrace
  refine ⟨_, ent, ov, hrun, by rw [hev, htrace], ?_, ?_, ?_, pst, hng,
    fun h cache hc => hg h cache hc⟩
  · rw [hev, hlnm, hwnm]
    simp [List.filter_append, hpre, hov, Event.isSync, List.filter_cons]
  · rw [hev]
    simp [List.filter_append, hprefree, Event.isFree, List.filter_cons]
  · rw [pfr, hlfr, hwfr]; rfl


theorem filter_through_sync (q : Event → Bool)
    (hq : ∀ e, q e = true → Event.isSync e = true) (l : List Event) :
    l.filter q = (l.filter Event.isSync).filter q := by
  induction l with
  | nil => rfl
  | cons e t ih =>
    by_cases hs : Event.isSync e = true
    · rw [List.filter_cons (p := Event.isSync), if_pos hs]
      by_cases he : q e = true
      · rw [List.filter_cons, if_pos he, List.filter_cons, if_pos he, ih]
      · rw [List.filter_cons, if_neg he, List.filter_cons, if_neg he, ih]
    · have he : ¬ q e = true := fun h => hs (hq e h)
      rw [List.filter_cons (p := Event.isSync), if_neg hs, List.filter_cons, if_neg he, ih]

theorem isBroadcast_sync (e : Event) (h : Event.isBroadcast e = true) :
    Event.isSync e = true := by
  cases e <;> first | rfl | cases h

theorem isSpawnEntities_sync (e : Event) (h : Event.isSpawnEntities e = true) :
    Event.isSync e = true := by
  cases e <;> first | rfl | cases h

theorem announce_log (sys : Services) (w : World) (server : List Char) :
    ∃ obs : List Observation,
      (SV_SpawnServer_announce sys w server).log = w.log ++ obs ∧
      obs.filter (fun o => o.call.isNet)
        = [{ call := Event.SV_BroadcastCommand (changingMapText server),
             clients := w.clients.map SV_ClientReset, sv := w.sv },
           { call := Event.SV_SendClientMessages,
             clients := w.clients.map SV_ClientReset, sv := w.sv },
           { call := Event.SV_SendAsyncPackets,
             clients := w.clients.map SV_ClientReset, sv := w.sv }] := by
  unfold SV_SpawnServer_announce
  simp only []
  split_ifs
  · simp only [World.emit, List.append_assoc]
    exact ⟨_, rfl, rfl⟩
  · simp only [World.emit, List.append_assoc]
    exact ⟨_, rfl, rfl⟩

theorem wipe_log (sys : Services) (w : World) (cmd : MapCommand) (server : List Char)
    (r1 r2 ms : Nat) :
    ∃ obs : List Observation,
      (SV_SpawnServer_wipe sys w cmd server r1 r2 ms).log = w.log ++ obs ∧
      obs.filter (fun o => o.call.isNet) = [] := by
  unfold SV_SpawnServer_wipe
  simp only [World.emit, List.append_assoc]
  exact ⟨_, rfl, rfl⟩

theorem override_log (sys : Services) (w : World) (server : List Char) :
    ∃ obs : List Observation,
      (override_entity_string sys w server).log = w.log ++ obs ∧
      obs.filter (fun o => o.call.isNet) = [] := by
  unfold override_entity_string
  simp only []
  repeat' split
  all_goals try simp only [World.emit, List.append_assoc]
  all_goals first
    | exact ⟨_, rfl, rfl⟩
    | exact ⟨[], (List.append_nil _).symm, rfl⟩

theorem level_log (sys : Services) (w : World) (cmd : MapCommand) (server : List Char)
    (w1 : World) (ent : List Char)
    (h : SV_SpawnServer_level sys w cmd server = some (w1, ent)) :
    ∃ obs : List Observation,
      w1.log = w.log ++ obs ∧ obs.filter (fun o => o.call.isNet) = [] := by
  unfold SV_SpawnServer_level at h
  by_cases hg : cmd.serverState = ServerState.Game
  · rw [if_pos hg] at h
    simp only [] at h
    cases hc : cmd.cm.cache with
    | none => rw [hc] at h; simp at h
    | some cache =>
      rw [hc] at h
      simp only [Option.some.injEq, Prod.mk.injEq] at h
      rw [← h.1]
      exact override_log sys w server
  · rw [if_neg hg] at h
    simp only [Option.some.injEq, Prod.mk.injEq] at h
    rw [← h.1]
    exact ⟨[], (List.append_nil _).symm, rfl⟩

theorem publish_log (w : World) (cmd : MapCommand) (ent : List Char) :
    ∃ obs : List Observation,
      (SV_SpawnServer_publish w cmd ent).log = w.log ++ obs ∧
      obs.filter (fun o => o.call.isNet)
        = [{ call := Event.SV_BroadcastCommand reconnectText,
             clients := (SV_SpawnServer_publish w cmd ent).clients,
             sv := (SV_SpawnServer_publish w cmd ent).sv }] := by
  unfold SV_SpawnServer_publish
  simp only [World.emit, List.append_assoc]
  exact ⟨_, rfl, rfl⟩

/-- What the calls to the clients see during `SV_SpawnServer`: the first broadcast and the
flush see the reset sessions and the old level record, the last broadcast the final
sessions and the new level record. -/
theorem spawn_log (sys : Services) (w : World) (cmd : MapCommand) (r1 r2 ms : Nat) (p : Nat)
    (hserver : cmd.server = some p)
    (hcm : cmd.serverState = ServerState.Game → cmd.cm.cache ≠ none) :
    ∃ w1 : World, SV_SpawnServer sys w cmd r1 r2 ms = some w1 ∧
      (spawnLog sys w cmd r1 r2 ms).filter (fun o => o.call.isNet)
        = [{ call := Event.SV_BroadcastCommand (changingMapText (cstr cmd.buffer p)),
             clients := w.clients.map SV_ClientReset, sv := w.sv },
           { call := Event.SV_SendClientMessages,
             clients := w.clients.map SV_ClientReset, sv := w.sv },
           { call := Event.SV_SendAsyncPackets,
             clients := w.clients.map SV_ClientReset, sv := w.sv },
           { call := Event.SV_BroadcastCommand reconnectText,
             clients := w1.clients, sv := w1.sv }] := by
  obtain ⟨w2, e, hl, -⟩ := level_spec sys
    (SV_SpawnServer_wipe sys (SV_SpawnServer_announce sys w (cstr cmd.buffer p)) cmd
      (cstr cmd.buffer p) r1 r2 ms) cmd (cstr cmd.buffer p) hcm
  have hrun : SV_SpawnServer sys w cmd r1 r2 ms = some (SV_SpawnServer_publish w2 cmd e) := by
    unfold SV_SpawnServer
    simp only [hserver, hl]
  obtain ⟨oa, ha, hfa⟩ := announce_log sys w (cstr cmd.buffer p)
  obtain ⟨ow, hw, hfw⟩ := wipe_log sys (SV_SpawnServer_announce sys w (cstr cmd.buffer p)) cmd
    (cstr cmd.buffer p) r1 r2 ms
  obtain ⟨ol, hlog, hfl⟩ := level_log sys _ cmd (cstr cmd.buffer p) w2 e hl
  obtain ⟨op, hp, hfp⟩ := publish_log w2 cmd e
  refine ⟨SV_SpawnServer_publish w2 cmd e, hrun, ?_⟩
  unfold spawnLog
  rw [hrun]
  simp only []
  rw [hp, hlog, hw, ha, List.append_assoc, List.append_assoc, List.append_assoc,
    List.drop_left, List.filter_append, List.filter_append, List.filter_append,
    hfa, hfw, hfl, hfp]
  rfl

/-- C12. `SV_SpawnServer` returns for every command it can dereference and every list of
sessions, and itself sends exactly two broadcasts: first `changing map=<server>`, last
`reconnect`. The calls that reach the clients are, in order, the first broadcast, the two
calls of the flush and the last broadcast; the first broadcast and the flush are made
when the session list is already the reset one (every session at or above Connected: state
Connected, frame number 1) and the level record is still the old one; the flush precedes
the wipe of the level record; on return the level's state is the command's kind. -/
theorem SV_SpawnServer_broadcasts (sys : Services) (w : World) (cmd : MapCommand)
    (r1 r2 ms : Nat) (p : Nat) (hserver : cmd.server = some p)
    (hcm : cmd.serverState = ServerState.Game → cmd.cm.cache ≠ none) :
    ∃ (w1 : World) (ent : List Char),
      SV_SpawnServer sys w cmd r1 r2 ms = some w1 ∧
      (spawnEvents sys w cmd r1 r2 ms).filter Event.isBroadcast
        = [Event.SV_BroadcastCommand (changingMapText (cstr cmd.buffer p)),
           Event.SV_BroadcastCommand reconnectText] ∧
      (spawnEvents sys w cmd r1 r2 ms).filter Event.isSync
        = [Event.SV_BroadcastCommand (changingMapText (cstr cmd.buffer p)),
           Event.SV_SendClientMessages, Event.SV_SendAsyncPackets, Event.memset_sv,
           Event.SpawnEntities (Q_strlcpy (cstr cmd.buffer p) sys.SIZEOF_SV_NAME) ent
             (cmd.spawnpoint.map (cstr cmd.buffer)),
           Event.RunFrame, Event.RunFrame, Event.SV_BroadcastCommand reconnectText] ∧
      (spawnLog sys w cmd r1 r2 ms).filter (fun o => o.call.isNet)
        = [{ call := Event.SV_BroadcastCommand (changingMapText (cstr cmd.buffer p)),
             clients := w.clients.map SV_ClientReset, sv := w.sv },
           { call := Event.SV_SendClientMessages,
             clients := w.clients.map SV_ClientReset, sv := w.sv },
           { call := Event.SV_SendAsyncPackets,
             clients := w.clients.map SV_ClientReset, sv := w.sv },
           { call := Event.SV_BroadcastCommand reconnectText,
             clients := w1.clients, sv := w1.sv }] ∧
      (w.clients.map SV_ClientReset).length = w.clients.length ∧
      (∀ i (hi : i < w.clients.length) (hr : i < (w.clients.map SV_ClientReset).length),
        ConnectionState.Connected.rank ≤ (w.clients.get ⟨i, hi⟩).connectionState.rank →
        ((w.clients.map SV_ClientReset).get ⟨i, hr⟩).connectionState
          = ConnectionState.Connected ∧
        ((w.clients.map SV_ClientReset).get ⟨i, hr⟩).frameNumber = 1) ∧
      (∀ client ∈ w.clients,
        ConnectionState.Connected.rank ≤ client.connectionState.rank →
        (SV_ClientReset client).connectionState = ConnectionState.Connected ∧
        (SV_ClientReset client).frameNumber = 1) ∧
      w1.sv.serverState = cmd.serverState := by
  obtain ⟨w1, ent, _, hrun, -, hsync, -, -, hst, -, -⟩ :=
    spawn_sync sys w cmd r1 r2 ms p hserver hcm
  obtain ⟨w1', hrun', hlog⟩ := spawn_log sys w cmd r1 r2 ms p hserver hcm
  have hw : w1' = w1 := Option.some.inj (hrun'.symm.trans hrun)
  subst hw
  refine ⟨w1', ent, hrun, ?_, hsync, hlog, List.length_map _ _, ?_, ?_, hst⟩
  · rw [filter_through_sync Event.isBroadcast isBroadcast_sync, hsync]
    rfl
  · intro i hi hr hconn
    have hget : (w.clients.map SV_ClientReset).get ⟨i, hr⟩
        = SV_ClientReset (w.clients.get ⟨i, hi⟩) := by
      simp
    rw [hget]
    exact ⟨(SV_ClientReset_of_connected _ hconn).1,
      (SV_ClientReset_of_connected _ hconn).2.1⟩
  · intro client _ hconn
    exact ⟨(SV_ClientReset_of_connected client hconn).1,
      (SV_ClientReset_of_connected client hconn).2.1⟩

/-- C11. For a Game command with an override path configured: when the override path
fits `MAX_QPATH` and the file loads, a file whose size is at most `MAX_MAP_ENTSTRING` (so
also one of exactly that size) becomes the entity string handed to `SpawnEntities` and is
not freed; a file larger than that (so also one byte larger) is freed and the collision
model's embedded string is handed over; a file that does not load, or an override path
that does not fit `MAX_QPATH`, falls back to the embedded string as well. -/
theorem SV_SpawnServer_entity_override (sys : Services) (w : World) (cmd : MapCommand)
    (r1 r2 ms : Nat) (p : Nat) (cache : bsp_t) (hserver : cmd.server = some p)
    (hgame : cmd.serverState = ServerState.Game) (hcache : cmd.cm.cache = some cache)
    (hpath : w.cvars.map_override_path ≠ []) :
    ∃ (w1 : World) (ent : List Char),
      SV_SpawnServer sys w cmd r1 r2 ms = some w1 ∧
      (spawnEvents sys w cmd r1 r2 ms).filter Event.isSpawnEntities
        = [Event.SpawnEntities (Q_strlcpy (cstr cmd.buffer p) sys.SIZEOF_SV_NAME) ent
             (cmd.spawnpoint.map (cstr cmd.buffer))] ∧
      ((w.cvars.map_override_path ++ cstr cmd.buffer p ++ ".ent".toList).length
          < sys.MAX_QPATH →
        (∀ str,
          (sys.SV_LoadFile (w.cvars.map_override_path ++ cstr cmd.buffer p
            ++ ".ent".toList)).2 = some str →
          ((sys.SV_LoadFile (w.cvars.map_override_path ++ cstr cmd.buffer p
              ++ ".ent".toList)).1 ≤ sys.MAX_MAP_ENTSTRING →
            ent = str ∧
            (spawnEvents sys w cmd r1 r2 ms).filter Event.isFree = [Event.SV_FreeFile]) ∧
          ((sys.MAX_MAP_ENTSTRING : Int) < (sys.SV_LoadFile (w.cvars.map_override_path
              ++ cstr cmd.buffer p ++ ".ent".toList)).1 →
            ent = cache.entityString ∧
            (spawnEvents sys w cmd r1 r2 ms).filter Event.isFree
              = [Event.SV_FreeFile, Event.SV_FreeFile])) ∧
        ((sys.SV_LoadFile (w.cvars.map_override_path ++ cstr cmd.buffer p
            ++ ".ent".toList)).2 = none →
          ent = cache.entityString)) ∧
      (sys.MAX_QPATH ≤ (w.cvars.map_override_path ++ cstr cmd.buffer p
          ++ ".ent".toList).length →
        ent = cache.entityString) := by
  have hcm : cmd.serverState = ServerState.Game → cmd.cm.cache ≠ none := by
    intro _; rw [hcache]; exact Option.some_ne_none cache
  obtain ⟨w1, ent, ov, hrun, -, hsync, hfree, -, -, -, hg⟩ :=
    spawn_sync sys w cmd r1 r2 ms p hserver hcm
  obtain ⟨hent, hovtr⟩ := hg hgame cache hcache
  obtain ⟨_, -, -, -, -, hacv⟩ := announce_trace sys w (cstr cmd.buffer p)
  obtain ⟨-, hwent, -, -, hwcv⟩ := wipe_trace sys
    (SV_SpawnServer_announce sys w (cstr cmd.buffer p)) cmd (cstr cmd.buffer p) r1 r2 ms
  obtain ⟨ov', -, hovtr', -, -, -, hlong, hfit⟩ := override_cases sys
    (SV_SpawnServer_wipe sys (SV_SpawnServer_announce sys w (cstr cmd.buffer p)) cmd
      (cstr cmd.buffer p) r1 r2 ms) (cstr cmd.buffer p)
  have hov : ov' = ov := List.append_cancel_left (hovtr'.symm.trans hovtr)
  subst hov
  rw [hwcv, hacv] at hlong hfit
  rw [hwent] at hlong hfit
  refine ⟨w1, ent, hrun, ?_, fun hl => ⟨fun str hstr => ⟨fun hle => ?_, fun hgt => ?_⟩,
    fun hnone => ?_⟩, fun hl => ?_⟩
  · rw [filter_through_sync Event.isSpawnEntities isSpawnEntities_sync, hsync]
    rfl
  · obtain ⟨he, hf⟩ := (hfit hpath hl).1 str hstr hle
    refine ⟨?_, ?_⟩
    · rw [hent, he]; rfl
    · rw [hfree, hf]
  · obtain ⟨he, hf⟩ := (hfit hpath hl).2.1 str hstr hgt
    refine ⟨?_, ?_⟩
    · rw [hent, he]; rfl
    · rw [hfree, hf]
  · rw [hent, (hfit hpath hl).2.2 hnone]; rfl
  · rw [hent, (hlong hpath hl).1]; rfl



/-- An override file of exactly 262144 bytes is handed to `SpawnEntities`; one of 262145
bytes is not, and the embedded string is handed over. -/
theorem SV_SpawnServer_entity_override_witness :
    (sampleGameCmd.server = some 0 ∧ sampleGameCmd.serverState = ServerState.Game ∧
      sampleGameCmd.cm.cache = some sampleBsp ∧
      sampleOverrideWorld.cvars.map_override_path ≠ []) ∧
    (∃ (w1 : World) (ent : List Char),
      SV_SpawnServer (sampleOverrideServices 262144) sampleOverrideWorld sampleGameCmd
        12345 678 99999 = some w1 ∧
      (spawnEvents (sampleOverrideServices 262144) sampleOverrideWorld sampleGameCmd
        12345 678 99999).filter Event.isSpawnEntities
        = [Event.SpawnEntities "q2dm1".toList ent (some [])] ∧
      ent = "custom".toList) ∧
    (∃ (w1 : World) (ent : List Char),
      SV_SpawnServer (sampleOverrideServices 262145) sampleOverrideWorld sampleGameCmd
        12345 678 99999 = some w1 ∧
      (spawnEvents (sampleOverrideServices 262145) sampleOverrideWorld sampleGameCmd
        12345 678 99999).filter Event.isSpawnEntities
        = [Event.SpawnEntities "q2dm1".toList ent (some [])] ∧
      ent = "worldspawn".toList) := by
  refine ⟨by decide, ?_, ?_⟩
  · obtain ⟨w1, ent, hrun, hev, hfit, -⟩ :=
      SV_SpawnServer_entity_override (sampleOverrideServices 262144) sampleOverrideWorld
        sampleGameCmd 12345 678 99999 0 sampleBsp (by decide) (by decide) (by decide)
        (by decide)
    exact ⟨w1, ent, hrun, hev,
      (((hfit (by decide)).1 "custom".toList (by decide)).1 (by decide)).1⟩
  · obtain ⟨w1, ent, hrun, hev, hfit, -⟩ :=
      SV_SpawnServer_entity_override (sampleOverrideServices 262145) sampleOverrideWorld
        sampleGameCmd 12345 678 99999 0 sampleBsp (by decide) (by decide) (by decide)
        (by decide)
    exact ⟨w1, ent, hrun, hev,
      (((hfit (by decide)).1 "custom".toList (by decide)).2 (by decide)).1⟩

/-- Three sessions in the game and the token `q2dm1`: two broadcasts, the first broadcast
and the flush see all three sessions Connected at frame 1 and the old level record, all
three sessions are Connected at frame 1 on return, and the level is a Game. -/
theorem SV_SpawnServer_broadcasts_witness :
    (sampleGameCmd.server = some 0 ∧
      (sampleGameCmd.serverState = ServerState.Game → sampleGameCmd.cm.cache ≠ none)) ∧
    (∃ w1 : World,
      SV_SpawnServer sampleServices sampleThree sampleGameCmd 12345 678 99999 = some w1 ∧
      (spawnEvents sampleServices sampleThree sampleGameCmd 12345 678 99999).filter
        Event.isBroadcast
        = [Event.SV_BroadcastCommand (changingMapText "q2dm1".toList),
           Event.SV_BroadcastCommand reconnectText] ∧
      (spawnLog sampleServices sampleThree sampleGameCmd 12345 678 99999).filter
          (fun o => o.call.isNet)
        = [{ call := Event.SV_BroadcastCommand (changingMapText "q2dm1".toList),
             clients := sampleThree.clients.map SV_ClientReset, sv := sampleThree.sv },
           { call := Event.SV_SendClientMessages,
             clients := sampleThree.clients.map SV_ClientReset, sv := sampleThree.sv },
           { call := Event.SV_SendAsyncPackets,
             clients := sampleThree.clients.map SV_ClientReset, sv := sampleThree.sv },
           { call := Event.SV_BroadcastCommand reconnectText,
             clients := w1.clients, sv := w1.sv }] ∧
      w1.sv.serverState = ServerState.Game) ∧
    (sampleThree.clients.map (fun client => (client.connectionState, client.frameNumber))
      = [(ConnectionState.Spawned, 77), (ConnectionState.Spawned, 77),
          (ConnectionState.Spawned, 77)]) ∧
    (((spawnLog sampleServices sampleThree sampleGameCmd 12345 678 99999).filter
        (fun o => o.call.isNet)).map
        (fun o => o.clients.map (fun client => (client.connectionState, client.frameNumber)))
      = List.replicate 4 [(ConnectionState.Connected, 1), (ConnectionState.Connected, 1),
          (ConnectionState.Connected, 1)]) ∧
    ((sampleThree.clients.map SV_ClientReset).map
        (fun client => (client.connectionState, client.frameNumber))
      = [(ConnectionState.Connected, 1), (ConnectionState.Connected, 1),
          (ConnectionState.Connected, 1)]) ∧
    (SV_SpawnServer sampleServices sampleThree sampleGameCmd 12345 678 99999).map
      (fun w => w.clients.map (fun client => (client.connectionState, client.frameNumber)))
      = some [(ConnectionState.Connected, 1), (ConnectionState.Connected, 1),
          (ConnectionState.Connected, 1)] := by
  refine ⟨by decide, ?_, by decide, by decide, by decide, by decide⟩
  obtain ⟨w1, ent, hrun, hb, -, hlog, -, -, -, hst⟩ :=
    SV_SpawnServer_broadcasts sampleServices sampleThree sampleGameCmd 12345 678 99999 0
      (by decide) (by decide)
  exact ⟨w1, hrun, hb, hlog, hst⟩

theorem begin_cvars (sys : InitServices) (w : World) :
    (SV_InitGame_begin sys w).cvars = sys.Cvar_GetLatchedVars w.cvars := by
  unfold SV_InitGame_begin
  simp only []
  split_ifs <;> rfl

/-- The game-mode step on the flags, case by case. -/
theorem gameMode_cvars (sys : InitServices) (w : World) :
    (SV_InitGame_gameMode sys w).cvars.maxclients = w.cvars.maxclients ∧
    (w.cvars.coop ≠ 0 → w.cvars.deathmatch ≠ 0 →
      (SV_InitGame_gameMode sys w).cvars.coop = 0 ∧
      (sys.COM_DEDICATED = true → (SV_InitGame_gameMode sys w).cvars.deathmatch = 1) ∧
      (sys.COM_DEDICATED = false →
        (SV_InitGame_gameMode sys w).cvars.deathmatch = w.cvars.deathmatch)) ∧
    (w.cvars.coop = 0 →
      (SV_InitGame_gameMode sys w).cvars.coop = 0 ∧
      (sys.COM_DEDICATED = true → (SV_InitGame_gameMode sys w).cvars.deathmatch = 1) ∧
      (sys.COM_DEDICATED = false →
        (SV_InitGame_gameMode sys w).cvars.deathmatch = w.cvars.deathmatch)) ∧
    (w.cvars.coop ≠ 0 → w.cvars.deathmatch = 0 →
      (SV_InitGame_gameMode sys w).cvars.coop = w.cvars.coop ∧
      (SV_InitGame_gameMode sys w).cvars.deathmatch = 0) := by
  unfold SV_InitGame_gameMode
  cases hd : sys.COM_DEDICATED <;> by_cases hc : w.cvars.coop = 0 <;>
    by_cases hm : w.cvars.deathmatch = 0 <;>
    simp [hc, hm, World.emit]

theorem maxclients_flags (sys : InitServices) (w : World) :
    (SV_InitGame_maxclients sys w).cvars.coop = w.cvars.coop ∧
    (SV_InitGame_maxclients sys w).cvars.deathmatch = w.cvars.deathmatch := by
  unfold SV_InitGame_maxclients setMaxclients
  split_ifs <;> exact ⟨rfl, rfl⟩

/-- The capacity step, case by case. -/
theorem maxclients_cases (sys : InitServices) (w : World) :
    (w.cvars.deathmatch ≠ 0 →
      (w.cvars.maxclients ≤ 1 → (SV_InitGame_maxclients sys w).cvars.maxclients = 8) ∧
      (1 < w.cvars.maxclients → sys.CLIENTNUM_RESERVED < w.cvars.maxclients →
        (SV_InitGame_maxclients sys w).cvars.maxclients = sys.CLIENTNUM_RESERVED) ∧
      (1 < w.cvars.maxclients → w.cvars.maxclients ≤ sys.CLIENTNUM_RESERVED →
        (SV_InitGame_maxclients sys w).cvars.maxclients = w.cvars.maxclients)) ∧
    (w.cvars.deathmatch = 0 → w.cvars.coop ≠ 0 →
      (w.cvars.maxclients ≤ 1 → (SV_InitGame_maxclients sys w).cvars.maxclients = 4) ∧
      (4 < w.cvars.maxclients → (SV_InitGame_maxclients sys w).cvars.maxclients = 4) ∧
      (1 < w.cvars.maxclients → w.cvars.maxclients ≤ 4 →
        (SV_InitGame_maxclients sys w).cvars.maxclients = w.cvars.maxclients)) ∧
    (w.cvars.deathmatch = 0 → w.cvars.coop = 0 →
      (SV_InitGame_maxclients sys w).cvars.maxclients = 1) := by
  unfold SV_InitGame_maxclients setMaxclients
  refine ⟨fun hd => ⟨fun h => ?_, fun h1 h2 => ?_, fun h1 h2 => ?_⟩,
    fun hd hc => ⟨fun h => ?_, fun h => ?_, fun h1 h2 => ?_⟩, fun hd hc => ?_⟩
  · rw [if_pos hd, if_pos h]; rfl
  · rw [if_pos hd, if_neg (not_le.mpr h1), if_pos h2]; rfl
  · rw [if_pos hd, if_neg (not_le.mpr h1), if_neg (not_lt.mpr h2)]
  · rw [if_neg (not_not.mpr hd), if_pos hc, if_pos (Or.inl h)]; rfl
  · rw [if_neg (not_not.mpr hd), if_pos hc, if_pos (Or.inr h)]; rfl
  · rw [if_neg (not_not.mpr hd), if_pos hc,
      if_neg (fun h => h.elim (fun h => absurd h1 (not_lt.mpr h)) (fun h => absurd h2 (not_le.mpr h)))]
  · rw [if_neg (not_not.mpr hd), if_neg (not_not.mpr hc)]; rfl

/-- `SV_InitGame` returns when the zlib context can be set up, and the game-mode flags and
the capacity it leaves are the ones of its game-mode and capacity steps. -/
theorem initGame_spec (sys : InitServices) (w : World)
    (hz : sys.USE_ZLIB = true → sys.deflateInit2_ok = true) :
    ∃ w1, SV_InitGame sys w = some w1 ∧
      w1.cvars.coop = (SV_InitGame_gameMode sys (SV_InitGame_begin sys w)).cvars.coop ∧
      w1.cvars.deathmatch
        = (SV_InitGame_gameMode sys (SV_InitGame_begin sys w)).cvars.deathmatch ∧
      w1.cvars.maxclients
        = (SV_InitGame_maxclients sys
            (SV_InitGame_gameMode sys (SV_InitGame_begin sys w))).cvars.maxclients ∧
      w1.initialized = true := by
  obtain ⟨hc, hd⟩ := maxclients_flags sys (SV_InitGame_gameMode sys (SV_InitGame_begin sys w))
  unfold SV_InitGame
  simp only []
  cases hu : sys.USE_ZLIB with
  | false =>
    simp only [Bool.false_eq_true, if_false]
    refine ⟨_, rfl, ?_, ?_, ?_, rfl⟩
    · rw [← hc]
      unfold SV_InitGame_finish SV_InitGame_pools
      simp only []
      split_ifs <;> rfl
    · rw [← hd]
      unfold SV_InitGame_finish SV_InitGame_pools
      simp only []
      split_ifs <;> rfl
    · unfold SV_InitGame_finish SV_InitGame_pools
      simp only []
      split_ifs <;> rfl
  | true =>
    rw [hz hu]
    simp only [if_true]
    refine ⟨_, rfl, ?_, ?_, ?_, rfl⟩
    · rw [← hc]
      unfold SV_InitGame_finish SV_InitGame_pools
      simp only []
      split_ifs <;> rfl
    · rw [← hd]
      unfold SV_InitGame_finish SV_InitGame_pools
      simp only []
      split_ifs <;> rfl
    · unfold SV_InitGame_finish SV_InitGame_pools
      simp only []
      split_ifs <;> rfl


/-- In cooperative mode a requested capacity of 1 is not kept and a requested capacity
of 0 does not become 1: both end as 4. -/
theorem SV_InitGame_coop_capacity_counterexample :
    (SV_InitGame sampleInit (sampleMode 1 0 1)).map (fun w => w.cvars.maxclients) = some 4 ∧
    (SV_InitGame sampleInit (sampleMode 1 0 0)).map (fun w => w.cvars.maxclients) = some 4 := by
  decide

/-- C14, amended. In cooperative mode (coop set, deathmatch not set) `SV_InitGame` keeps a
requested capacity in the range 2 to 4 and replaces every other value (1 or below, or
above 4) by 4; the capacity after it lies in the range 2 to 4. -/
theorem SV_InitGame_coop_capacity (sys : InitServices) (w : World)
    (hz : sys.USE_ZLIB = true → sys.deflateInit2_ok = true)
    (hcoop : (sys.Cvar_GetLatchedVars w.cvars).coop ≠ 0)
    (hdm : (sys.Cvar_GetLatchedVars w.cvars).deathmatch = 0) :
    ∃ w1, SV_InitGame sys w = some w1 ∧
      (2 ≤ (sys.Cvar_GetLatchedVars w.cvars).maxclients →
        (sys.Cvar_GetLatchedVars w.cvars).maxclients ≤ 4 →
        w1.cvars.maxclients = (sys.Cvar_GetLatchedVars w.cvars).maxclients) ∧
      ((sys.Cvar_GetLatchedVars w.cvars).maxclients ≤ 1 → w1.cvars.maxclients = 4) ∧
      (4 < (sys.Cvar_GetLatchedVars w.cvars).maxclients → w1.cvars.maxclients = 4) ∧
      2 ≤ w1.cvars.maxclients ∧ w1.cvars.maxclients ≤ 4 := by
  obtain ⟨w1, hrun, -, -, hmax, -⟩ := initGame_spec sys w hz
  obtain ⟨gmax, -, -, gcoop⟩ := gameMode_cvars sys (SV_InitGame_begin sys w)
  rw [begin_cvars] at gmax gcoop
  obtain ⟨gc, gd⟩ := gcoop hcoop hdm
  obtain ⟨-, hcases, -⟩ := maxclients_cases sys (SV_InitGame_gameMode sys (SV_InitGame_begin sys w))
  obtain ⟨hlow, hhigh, hkeep⟩ := hcases gd (by rw [gc]; exact hcoop)
  rw [gmax] at hlow hhigh hkeep
  rw [← hmax] at hlow hhigh hkeep
  refine ⟨w1, hrun, fun h1 h2 => hkeep (by omega) h2, hlow, hhigh, ?_, ?_⟩
  · by_cases h1 : (sys.Cvar_GetLatchedVars w.cvars).maxclients ≤ 1
    · rw [hlow h1]; decide
    · by_cases h4 : 4 < (sys.Cvar_GetLatchedVars w.cvars).maxclients
      · rw [hhigh h4]; decide
      · rw [hkeep (by omega) (by omega)]; omega
  · by_cases h1 : (sys.Cvar_GetLatchedVars w.cvars).maxclients ≤ 1
    · rw [hlow h1]
    · by_cases h4 : 4 < (sys.Cvar_GetLatchedVars w.cvars).maxclients
      · rw [hhigh h4]
      · rw [hkeep (by omega) (by omega)]; omega

/-- In cooperative mode a requested capacity of 3 is kept. -/
theorem SV_InitGame_coop_capacity_witness :
    ((sampleInit.USE_ZLIB = true → sampleInit.deflateInit2_ok = true) ∧
      (sampleInit.Cvar_GetLatchedVars (sampleMode 1 0 3).cvars).coop ≠ 0 ∧
      (sampleInit.Cvar_GetLatchedVars (sampleMode 1 0 3).cvars).deathmatch = 0) ∧
    ∃ w1, SV_InitGame sampleInit (sampleMode 1 0 3) = some w1 ∧ w1.cvars.maxclients = 3 := by
  refine ⟨by decide, ?_⟩
  obtain ⟨w1, hrun, hkeep, -⟩ :=
    SV_InitGame_coop_capacity sampleInit (sampleMode 1 0 3) (by decide) (by decide) (by decide)
  exact ⟨w1, hrun, hkeep (by decide) (by decide)⟩

/-- C15. When deathmatch is set at the time the capacity is decided, the capacity after
`SV_InitGame` lies between 2 and `CLIENTNUM_RESERVED` for every requested value, and a
requested value inside that range is unchanged; when neither deathmatch nor coop is set at
that time the capacity is exactly 1. Assumes that `CLIENTNUM_RESERVED` is at least 8. -/
theorem SV_InitGame_deathmatch_capacity (sys : InitServices) (w : World)
    (hz : sys.USE_ZLIB = true → sys.deflateInit2_ok = true)
    (hres : 8 ≤ sys.CLIENTNUM_RESERVED) :
    ∃ w1, SV_InitGame sys w = some w1 ∧
      ((SV_InitGame_gameMode sys (SV_InitGame_begin sys w)).cvars.deathmatch ≠ 0 →
        2 ≤ w1.cvars.maxclients ∧ w1.cvars.maxclients ≤ sys.CLIENTNUM_RESERVED ∧
        (2 ≤ (sys.Cvar_GetLatchedVars w.cvars).maxclients →
          (sys.Cvar_GetLatchedVars w.cvars).maxclients ≤ sys.CLIENTNUM_RESERVED →
          w1.cvars.maxclients = (sys.Cvar_GetLatchedVars w.cvars).maxclients)) ∧
      ((SV_InitGame_gameMode sys (SV_InitGame_begin sys w)).cvars.deathmatch = 0 →
        (SV_InitGame_gameMode sys (SV_InitGame_begin sys w)).cvars.coop = 0 →
        w1.cvars.maxclients = 1) := by
  obtain ⟨w1, hrun, -, -, hmax, -⟩ := initGame_spec sys w hz
  obtain ⟨gmax, -, -, -⟩ := gameMode_cvars sys (SV_InitGame_begin sys w)
  rw [begin_cvars] at gmax
  obtain ⟨hdmc, -, hsingle⟩ :=
    maxclients_cases sys (SV_InitGame_gameMode sys (SV_InitGame_begin sys w))
  rw [← hmax] at hdmc hsingle
  refine ⟨w1, hrun, fun hd => ?_, hsingle⟩
  obtain ⟨hlow, hhigh, hkeep⟩ := hdmc hd
  rw [gmax] at hlow hhigh hkeep
  refine ⟨?_, ?_, fun h1 h2 => hkeep (by omega) h2⟩
  · by_cases h1 : (sys.Cvar_GetLatchedVars w.cvars).maxclients ≤ 1
    · rw [hlow h1]; decide
    · by_cases h4 : sys.CLIENTNUM_RESERVED < (sys.Cvar_GetLatchedVars w.cvars).maxclients
      · rw [hhigh (by omega) h4]; omega
      · rw [hkeep (by omega) (by omega)]; omega
  · by_cases h1 : (sys.Cvar_GetLatchedVars w.cvars).maxclients ≤ 1
    · rw [hlow h1]; exact hres
    · by_cases h4 : sys.CLIENTNUM_RESERVED < (sys.Cvar_GetLatchedVars w.cvars).maxclients
      · rw [hhigh (by omega) h4]
      · rw [hkeep (by omega) (by omega)]; omega

/-- In deathmatch a requested capacity of 1000 ends between 2 and 255. -/
theorem SV_InitGame_deathmatch_capacity_witness :
    ((sampleInit.USE_ZLIB = true → sampleInit.deflateInit2_ok = true) ∧
      8 ≤ sampleInit.CLIENTNUM_RESERVED ∧
      (SV_InitGame_gameMode sampleInit
        (SV_InitGame_begin sampleInit (sampleMode 0 1 1000))).cvars.deathmatch ≠ 0) ∧
    ∃ w1, SV_InitGame sampleInit (sampleMode 0 1 1000) = some w1 ∧
      2 ≤ w1.cvars.maxclients ∧ w1.cvars.maxclients ≤ sampleInit.CLIENTNUM_RESERVED := by
  refine ⟨by decide, ?_⟩
  obtain ⟨w1, hrun, hdm, -⟩ :=
    SV_InitGame_deathmatch_capacity sampleInit (sampleMode 0 1 1000) (by decide) (by decide)
  exact ⟨w1, hrun, (hdm (by decide)).1, (hdm (by decide)).2.1⟩

/-- On a dedicated server with coop 1 and deathmatch 2, deathmatch does not keep its
value: it is 1 when the capacity is decided and on return. -/
theorem SV_InitGame_mode_exclusion_counterexample :
    (sampleDedicated.Cvar_GetLatchedVars (sampleMode 1 2 3).cvars).coop ≠ 0 ∧
    (sampleDedicated.Cvar_GetLatchedVars (sampleMode 1 2 3).cvars).deathmatch = 2 ∧
    (SV_InitGame_gameMode sampleDedicated
      (SV_InitGame_begin sampleDedicated (sampleMode 1 2 3))).cvars.deathmatch = 1 ∧
    (SV_InitGame sampleDedicated (sampleMode 1 2 3)).map (fun w => w.cvars.deathmatch)
      = some 1 := by
  decide

/-- C16, amended. When `SV_InitGame` decides the capacity, coop and deathmatch are never
both non-zero. If both were set, coop is cleared and deathmatch stays non-zero: it keeps
its value on a server that is not dedicated and is forced to 1 on a dedicated one. A
dedicated server with coop not set has deathmatch forced to 1; a dedicated server with
coop set and deathmatch not set stays cooperative. -/
theorem SV_InitGame_mode_exclusion (sys : InitServices) (w : World) :
    ¬ ((SV_InitGame_gameMode sys (SV_InitGame_begin sys w)).cvars.coop ≠ 0 ∧
        (SV_InitGame_gameMode sys (SV_InitGame_begin sys w)).cvars.deathmatch ≠ 0) ∧
    ((sys.Cvar_GetLatchedVars w.cvars).coop ≠ 0 →
      (sys.Cvar_GetLatchedVars w.cvars).deathmatch ≠ 0 →
      (SV_InitGame_gameMode sys (SV_InitGame_begin sys w)).cvars.coop = 0 ∧
      (SV_InitGame_gameMode sys (SV_InitGame_begin sys w)).cvars.deathmatch ≠ 0 ∧
      (sys.COM_DEDICATED = false →
        (SV_InitGame_gameMode sys (SV_InitGame_begin sys w)).cvars.deathmatch
          = (sys.Cvar_GetLatchedVars w.cvars).deathmatch) ∧
      (sys.COM_DEDICATED = true →
        (SV_InitGame_gameMode sys (SV_InitGame_begin sys w)).cvars.deathmatch = 1)) ∧
    (sys.COM_DEDICATED = true → (sys.Cvar_GetLatchedVars w.cvars).coop = 0 →
      (SV_InitGame_gameMode sys (SV_InitGame_begin sys w)).cvars.deathmatch = 1) ∧
    (sys.COM_DEDICATED = true → (sys.Cvar_GetLatchedVars w.cvars).coop ≠ 0 →
      (sys.Cvar_GetLatchedVars w.cvars).deathmatch = 0 →
      (SV_InitGame_gameMode sys (SV_InitGame_begin sys w)).cvars.coop
        = (sys.Cvar_GetLatchedVars w.cvars).coop ∧
      (SV_InitGame_gameMode sys (SV_InitGame_begin sys w)).cvars.deathmatch = 0) := by
  obtain ⟨-, hboth, hnocoop, hcooponly⟩ := gameMode_cvars sys (SV_InitGame_begin sys w)
  rw [begin_cvars] at hboth hnocoop hcooponly
  refine ⟨?_, fun hc hd => ?_, fun hded hc => (hnocoop hc).2.1 hded,
    fun _ hc hd => hcooponly hc hd⟩
  · rintro ⟨h1, h2⟩
    by_cases hc : (sys.Cvar_GetLatchedVars w.cvars).coop = 0
    · exact h1 (hnocoop hc).1
    · by_cases hd : (sys.Cvar_GetLatchedVars w.cvars).deathmatch = 0
      · exact h2 (hcooponly hc hd).2
      · exact h1 (hboth hc hd).1
  · obtain ⟨h0, hded, hlisten⟩ := hboth hc hd
    refine ⟨h0, ?_, hlisten, hded⟩
    cases hrole : sys.COM_DEDICATED with
    | false => rw [hlisten hrole]; exact hd
    | true => rw [hded hrole]; decide

/-- On a listen server with coop 1 and deathmatch 2, coop is cleared and deathmatch
stays 2. -/
theorem SV_InitGame_mode_exclusion_witness :
    ((sampleInit.Cvar_GetLatchedVars (sampleMode 1 2 3).cvars).coop ≠ 0 ∧
      (sampleInit.Cvar_GetLatchedVars (sampleMode 1 2 3).cvars).deathmatch ≠ 0 ∧
      sampleInit.COM_DEDICATED = false) ∧
    (SV_InitGame_gameMode sampleInit
      (SV_InitGame_begin sampleInit (sampleMode 1 2 3))).cvars.coop = 0 ∧
    (SV_InitGame_gameMode sampleInit
      (SV_InitGame_begin sampleInit (sampleMode 1 2 3))).cvars.deathmatch = 2 :=
  ⟨by decide,
   ((SV_InitGame_mode_exclusion sampleInit (sampleMode 1 2 3)).2.1 (by decide) (by decide)).1,
   ((SV_InitGame_mode_exclusion sampleInit (sampleMode 1 2 3)).2.1 (by decide)
      (by decide)).2.2.1 (by decide)⟩

/-! ## Spawn count and configstring slots -/

theorem spawncountMix_operands (r1 r2 ms : Nat) :
    spawncountMix r1 r2 ms
      = (((r1 % 2 ^ 32) ||| ((r2 <<< 16) % 2 ^ 32)) ^^^ (ms % 2 ^ 32)) &&& 0x7FFFFFFF := by
  unfold spawncountMix
  apply Nat.eq_of_testBit_eq
  intro i
  simp only [Nat.testBit_and, Nat.testBit_xor, Nat.testBit_or, Nat.testBit_mod_two_pow]
  by_cases h : i < 32 <;> simp [h]

theorem spawncountMix_lt (r1 r2 ms : Nat) : spawncountMix r1 r2 ms < 2 ^ 31 := by
  unfold spawncountMix
  exact Nat.and_lt_two_pow _ (by decide)

/-- C17. For every pair of `rand()` values and every `Sys_Milliseconds()` value, with the
shift and the xor taken modulo 2^32 (on the result or on each operand alike), the spawn
count `SV_SpawnServer` stores is `((r1 | (r2 << 16)) ^ ms) & 0x7FFFFFFF` and lies between 0
and 2^31 - 1. -/
theorem SV_SpawnServer_spawncount_range (sys : Services) (w : World) (cmd : MapCommand)
    (r1 r2 ms : Nat) (p : Nat) (hserver : cmd.server = some p)
    (hcm : cmd.serverState = ServerState.Game → cmd.cm.cache ≠ none) :
    ∃ w1, SV_SpawnServer sys w cmd r1 r2 ms = some w1 ∧
      w1.sv.spawncount
        = (((((r1 ||| (r2 <<< 16)) ^^^ ms) % 2 ^ 32) &&& 0x7FFFFFFF : Nat) : Int) ∧
      w1.sv.spawncount
        = ((((r1 % 2 ^ 32) ||| ((r2 <<< 16) % 2 ^ 32)) ^^^ (ms % 2 ^ 32)) &&& 0x7FFFFFFF : Nat) ∧
      0 ≤ w1.sv.spawncount ∧ w1.sv.spawncount ≤ 2 ^ 31 - 1 := by
  obtain ⟨w1, hrun, hsc, -⟩ := spawn_spec sys w cmd r1 r2 ms p hserver hcm
  have hlt := spawncountMix_lt r1 r2 ms
  refine ⟨w1, hrun, hsc, ?_, ?_, ?_⟩
  · rw [hsc, spawncountMix_operands]
  · rw [hsc]; exact Int.natCast_nonneg _
  · rw [hsc]
    have : ((spawncountMix r1 r2 ms : Nat) : Int) < 2 ^ 31 := by exact_mod_cast hlt
    omega


/-- The spawn count of a sample run is in range. -/
theorem SV_SpawnServer_spawncount_range_witness :
    (sampleGameCmd.server = some 0 ∧
      (sampleGameCmd.serverState = ServerState.Game → sampleGameCmd.cm.cache ≠ none)) ∧
    ∃ w1, SV_SpawnServer sampleServices sampleLevel sampleGameCmd 12345 678 99999 = some w1 ∧
      0 ≤ w1.sv.spawncount ∧ w1.sv.spawncount ≤ 2 ^ 31 - 1 := by
  refine ⟨by decide, ?_⟩
  obtain ⟨w1, hrun, -, -, h0, h1⟩ :=
    SV_SpawnServer_spawncount_range sampleServices sampleLevel sampleGameCmd 12345 678 99999 0
      (by decide) (by decide)
  exact ⟨w1, hrun, h0, h1⟩

theorem digits_length_le_ten (m : Nat) (h : m ≤ 2 ^ 31) : (Nat.digits 10 m).length ≤ 10 := by
  by_cases h0 : m = 0
  · subst h0; simp
  · have hle := Nat.base_pow_length_digits_le 10 m (by decide) h0
    by_contra hc
    have h11 : 11 ≤ (Nat.digits 10 m).length := by omega
    have hp : 10 ^ 11 ≤ 10 ^ (Nat.digits 10 m).length := Nat.pow_le_pow_right (by decide) h11
    have hm : 10 * m ≤ 10 * 2 ^ 31 := Nat.mul_le_mul_left 10 h
    have : (10 : Nat) ^ 11 ≤ 10 * 2 ^ 31 := le_trans hp (le_trans hle hm)
    exact absurd this (by norm_num)

theorem sprintf_d_length (n : Int) (h1 : -2 ^ 31 ≤ n) (h2 : n < 2 ^ 31) :
    (sprintf_d n).length ≤ 11 := by
  match n, h1, h2 with
  | Int.ofNat 0, _, _ => simp [sprintf_d]
  | Int.ofNat (k + 1), _, h2 =>
    have hk : k + 1 ≤ 2 ^ 31 := by
      have : ((k + 1 : Nat) : Int) < 2 ^ 31 := h2
      omega
    have := digits_length_le_ten (k + 1) hk
    simp only [sprintf_d, List.length_map, List.length_reverse]
    omega
  | Int.negSucc k, h1, _ =>
    have hk : k + 1 ≤ 2 ^ 31 := by
      have : -2 ^ 31 ≤ Int.negSucc k := h1
      rw [Int.negSucc_eq] at this
      omega
    have := digits_length_le_ten (k + 1) hk
    simp only [sprintf_d, List.length_cons, List.length_map, List.length_reverse]
    omega

theorem sprintf_d_length_nat (i : Nat) (h : (i : Int) < 2 ^ 31) :
    (sprintf_d (i : Int)).length ≤ 10 := by
  cases i with
  | zero => simp [sprintf_d]
  | succ k =>
    have hk : k + 1 ≤ 2 ^ 31 := by omega
    have := digits_length_le_ten (k + 1) hk
    show (sprintf_d (Int.ofNat (k + 1))).length ≤ 10
    simp only [sprintf_d, List.length_map, List.length_reverse]
    omega

theorem toInt32_range (x : Nat) : -2 ^ 31 ≤ toInt32 x ∧ toInt32 x < 2 ^ 31 := by
  unfold toInt32
  have hlt : x % 2 ^ 32 < 2 ^ 32 := Nat.mod_lt _ (by decide)
  split_ifs with h <;> constructor <;> omega

theorem setInlineModels_fold (l : List Nat) (cs : ConfigStrings → List Char) (k : Nat) :
    (l.foldl (fun acc i => setConfigstring acc (ConfigStrings.Models (1 + i))
        ('*' :: sprintf_d i)) cs) (ConfigStrings.Models (1 + k))
      = if k ∈ l then '*' :: sprintf_d k else cs (ConfigStrings.Models (1 + k)) := by
  induction l generalizing cs with
  | nil => simp
  | cons j t ih =>
    rw [List.foldl_cons, ih]
    by_cases hkt : k ∈ t
    · simp [hkt]
    · by_cases hkj : k = j
      · subst hkj
        simp [hkt, setConfigstring]
      · have hne : ConfigStrings.Models (1 + k) ≠ ConfigStrings.Models (1 + j) := by
          intro h
          injection h with h
          omega
        simp [hkt, hkj, setConfigstring, hne]

theorem setInlineModels_at (cs : ConfigStrings → List Char) (n : Int) (i : Nat) (h1 : 1 ≤ i)
    (h2 : (i : Int) < n) :
    setInlineModels cs n (ConfigStrings.Models (1 + i)) = '*' :: sprintf_d i := by
  unfold setInlineModels
  rw [setInlineModels_fold, if_pos]
  rw [List.mem_range']
  refine ⟨i - 1, ?_, ?_⟩
  · omega
  · omega

theorem setInlineModels_first (cs : ConfigStrings → List Char) (n : Int) :
    setInlineModels cs n (ConfigStrings.Models 1) = cs (ConfigStrings.Models 1) := by
  unfold setInlineModels
  have := setInlineModels_fold (List.range' 1 (n.toNat - 1)) cs 0
  rw [Nat.add_zero] at this
  rw [this, if_neg]
  rw [List.mem_range']
  rintro ⟨j, -, hj⟩
  omega


theorem level_models (sys : Services) (w : World) (cmd : MapCommand) (server : List Char)
    (cache : bsp_t) (hg : cmd.serverState = ServerState.Game)
    (hcache : cmd.cm.cache = some cache) :
    ∃ (w1 : World) (ent : List Char),
      SV_SpawnServer_level sys w cmd server = some (w1, ent) ∧
      w1.sv.configstrings
        = setInlineModels
            (setConfigstring
              (setConfigstring (override_entity_string sys w server).sv.configstrings
                ConfigStrings.MapCheckSum (sprintf_d (toInt32 cache.checksum)))
              (ConfigStrings.Models 1)
              (if Q_concat ["maps/".toList, server, ".bsp".toList] < sys.MAX_QPATH then
                Q_concat_text ["maps/".toList, server, ".bsp".toList]
               else sys.Q_concat_overflow sys.MAX_QPATH ["maps/".toList, server, ".bsp".toList]))
            cache.nummodels := by
  unfold SV_SpawnServer_level
  rw [if_pos hg]
  simp only [hcache]
  exact ⟨_, _, rfl, rfl⟩

/-- The model slots `SV_SpawnServer` leaves for a Game command. -/
theorem spawn_models (sys : Services) (w : World) (cmd : MapCommand) (r1 r2 ms : Nat)
    (p : Nat) (cache : bsp_t) (hserver : cmd.server = some p)
    (hg : cmd.serverState = ServerState.Game) (hcache : cmd.cm.cache = some cache)
    (hfit : ("maps/".toList ++ cstr cmd.buffer p ++ ".bsp".toList).length < sys.MAX_QPATH) :
    ∃ w1, SV_SpawnServer sys w cmd r1 r2 ms = some w1 ∧
      w1.sv.configstrings ConfigStrings.MapCheckSum = sprintf_d (toInt32 cache.checksum) ∧
      w1.sv.configstrings (ConfigStrings.Models 1)
        = "maps/".toList ++ cstr cmd.buffer p ++ ".bsp".toList ∧
      (∀ i : Nat, 1 ≤ i → (i : Int) < cache.nummodels →
        w1.sv.configstrings (ConfigStrings.Models (1 + i)) = '*' :: sprintf_d i) := by
  obtain ⟨w2, ent, hl, hcs⟩ := level_models sys
    (SV_SpawnServer_wipe sys (SV_SpawnServer_announce sys w (cstr cmd.buffer p)) cmd
      (cstr cmd.buffer p) r1 r2 ms) cmd (cstr cmd.buffer p) cache hg hcache
  have e2 : Q_concat ["maps/".toList, cstr cmd.buffer p, ".bsp".toList]
      = ("maps/".toList ++ cstr cmd.buffer p ++ ".bsp".toList).length := by
    simp only [Q_concat, List.map_cons, List.map_nil, List.sum_cons, List.sum_nil,
      List.length_append]
    omega
  have t2 : Q_concat_text ["maps/".toList, cstr cmd.buffer p, ".bsp".toList]
      = "maps/".toList ++ cstr cmd.buffer p ++ ".bsp".toList := by
    simp [Q_concat_text]
  rw [e2, if_pos hfit, t2] at hcs
  have hrun : SV_SpawnServer sys w cmd r1 r2 ms = some (SV_SpawnServer_publish w2 cmd ent) := by
    unfold SV_SpawnServer
    simp only [hserver, hl]
  have hpub : ∀ k, (SV_SpawnServer_publish w2 cmd ent).sv.configstrings (ConfigStrings.Models k)
      = w2.sv.configstrings (ConfigStrings.Models k) := by
    intro k
    simp [SV_SpawnServer_publish, World.emit, setConfigstring]
  refine ⟨_, hrun, ?_, ?_, ?_⟩
  · rw [(publish_frame w2 cmd ent).2.2.1, hcs,
      setInlineModels_other _ _ ConfigStrings.MapCheckSum (fun k h => by cases h)]
    simp [setConfigstring]
  · rw [hpub, hcs, setInlineModels_first]
    simp [setConfigstring]
  · intro i h1 h2
    rw [hpub, hcs, setInlineModels_at _ _ i h1 h2]

/-- An accepted Game command has a path that fits. -/
theorem accepted_game_fits (sys : Services) (w : World) (cmd : MapCommand)
    (hlong : sys.Q_ERR_NAMETOOLONG < 0)
    (hok : (SV_ParseMapCmd sys w cmd).1 = true)
    (hg : (SV_ParseMapCmd sys w cmd).2.1.serverState = ServerState.Game) :
    ("maps/".toList ++ serverToken (SV_ParseMapCmd sys w cmd).2.1 ++ ".bsp".toList).length
      < sys.MAX_QPATH := by
  obtain ⟨-, hpic, hcin, hgame⟩ := parse_branches sys w cmd
  by_cases hp : sys.COM_CompareExtension (serverToken (SV_ParseMapCmd sys w cmd).2.1)
      ".pcx".toList = 0
  · rw [(hpic hp).1] at hg; cases hg
  · by_cases hc : sys.COM_CompareExtension (serverToken (SV_ParseMapCmd sys w cmd).2.1)
        ".cin".toList = 0
    · rw [(hcin hp hc).1] at hg; cases hg
    · by_contra hl
      have := ((hgame hp hc).2.2 (Nat.not_lt.mp hl)).2.mpr hlong
      rw [hok] at this
      cases this

theorem parse_server_some (sys : Services) (w : World) (cmd : MapCommand) :
    ∃ p, (SV_ParseMapCmd sys w cmd).2.1.server = some p ∧
      serverToken (SV_ParseMapCmd sys w cmd).2.1
        = cstr (SV_ParseMapCmd sys w cmd).2.1.buffer p := by
  obtain ⟨-, fs, -, -, -, -, -⟩ := parse_frame sys w cmd
  have hs : ∃ p, (SV_ParseMapCmd_split w cmd).1.server = some p := ⟨_, rfl⟩
  obtain ⟨p, hp⟩ := hs
  refine ⟨p, fs.trans hp, ?_⟩
  unfold serverToken
  rw [fs.trans hp]
  rfl

/-- C18. For every Game command that `SV_ParseMapCmd` accepted, the strings that
`SV_SpawnServer` leaves in the MapCheckSum slot (the decimal checksum), in the first model
slot (`maps/<server>.bsp`) and in every sub-model slot (`*i` for `1 <= i < nummodels`) are
shorter than `MAX_QPATH`. Assumes that `MAX_QPATH` is at least 12 and that `nummodels`
is within `int`. -/
theorem SV_SpawnServer_slots_fit (sys : Services) (w0 w : World) (cmd0 : MapCommand)
    (r1 r2 ms : Nat) (cache : bsp_t)
    (hq : 12 ≤ sys.MAX_QPATH) (hlong : sys.Q_ERR_NAMETOOLONG < 0)
    (hok : (SV_ParseMapCmd sys w0 cmd0).1 = true)
    (hg : (SV_ParseMapCmd sys w0 cmd0).2.1.serverState = ServerState.Game)
    (hcache : (SV_ParseMapCmd sys w0 cmd0).2.1.cm.cache = some cache)
    (hnum : cache.nummodels < 2 ^ 31) :
    ∃ w1, SV_SpawnServer sys w (SV_ParseMapCmd sys w0 cmd0).2.1 r1 r2 ms = some w1 ∧
      (w1.sv.configstrings ConfigStrings.MapCheckSum = sprintf_d (toInt32 cache.checksum) ∧
        (w1.sv.configstrings ConfigStrings.MapCheckSum).length < sys.MAX_QPATH) ∧
      (w1.sv.configstrings (ConfigStrings.Models 1)
          = "maps/".toList ++ serverToken (SV_ParseMapCmd sys w0 cmd0).2.1 ++ ".bsp".toList ∧
        (w1.sv.configstrings (ConfigStrings.Models 1)).length < sys.MAX_QPATH) ∧
      (∀ i : Nat, 1 ≤ i → (i : Int) < cache.nummodels →
        w1.sv.configstrings (ConfigStrings.Models (1 + i)) = '*' :: sprintf_d i ∧
        (w1.sv.configstrings (ConfigStrings.Models (1 + i))).length < sys.MAX_QPATH) := by
  obtain ⟨p, hserver, htok⟩ := parse_server_some sys w0 cmd0
  have hfit := accepted_game_fits sys w0 cmd0 hlong hok hg
  rw [htok] at hfit
  obtain ⟨w1, hrun, hsum, hfirst, hsub⟩ :=
    spawn_models sys w _ r1 r2 ms p cache hserver hg hcache hfit
  refine ⟨w1, hrun, ⟨hsum, ?_⟩, ⟨by rw [hfirst, htok], by rw [hfirst]; exact hfit⟩, ?_⟩
  · rw [hsum]
    have := sprintf_d_length _ (toInt32_range cache.checksum).1 (toInt32_range cache.checksum).2
    omega
  · intro i h1 h2
    refine ⟨hsub i h1 h2, ?_⟩
    rw [hsub i h1 h2]
    have := sprintf_d_length_nat i (by omega)
    simp only [List.length_cons]
    omega


/-- The slots of the accepted `q2dm1` command are shorter than 64. -/
theorem SV_SpawnServer_slots_fit_witness :
    (12 ≤ sampleServices.MAX_QPATH ∧ sampleServices.Q_ERR_NAMETOOLONG < 0 ∧
      (SV_ParseMapCmd sampleServices sampleLevel (MapCommand.ofToken "q2dm1".toList)).1 = true ∧
      (SV_ParseMapCmd sampleServices sampleLevel
        (MapCommand.ofToken "q2dm1".toList)).2.1.serverState = ServerState.Game ∧
      (SV_ParseMapCmd sampleServices sampleLevel
        (MapCommand.ofToken "q2dm1".toList)).2.1.cm.cache = some sampleBsp ∧
      sampleBsp.nummodels < 2 ^ 31) ∧
    ∃ w1, SV_SpawnServer sampleServices sampleLevel
        (SV_ParseMapCmd sampleServices sampleLevel (MapCommand.ofToken "q2dm1".toList)).2.1
        12345 678 99999 = some w1 ∧
      (w1.sv.configstrings ConfigStrings.MapCheckSum).length < sampleServices.MAX_QPATH ∧
      (w1.sv.configstrings (ConfigStrings.Models 1)).length < sampleServices.MAX_QPATH ∧
      (w1.sv.configstrings (ConfigStrings.Models (1 + 1))).length
        < sampleServices.MAX_QPATH := by
  refine ⟨by decide, ?_⟩
  obtain ⟨w1, hrun, hsum, hfirst, hsub⟩ :=
    SV_SpawnServer_slots_fit sampleServices sampleLevel sampleLevel
      (MapCommand.ofToken "q2dm1".toList) 12345 678 99999 sampleBsp
      (by decide) (by decide) (by decide) (by decide) (by decide) (by decide)
  exact ⟨w1, hrun, hsum.2, hfirst.2, (hsub 1 (by decide) (by decide)).2⟩

/-- C19. `SV_ParseMapCmd` is not atomic: for every raw token, whatever the parse returns,
`nextserver` has been overwritten (with the text `gamemap "next"`, `next` between double
quotes, character 34, for the text after the first `+`; with the empty string when there
is no `+`), the `Cvar_Set` call with that value is in the trace, and in the buffer the
first `+` and the first `$` of the primary token are string terminators. -/
theorem SV_ParseMapCmd_not_atomic (sys : Services) (w : World) (cmd : MapCommand)
    (tok pad : List Char) (hnul : NUL ∉ tok) (hbuf : cmd.buffer = tok ++ NUL :: pad) :
    ∃ (name : List Char) (spawn next : Option (List Char)),
      tok = mapToken (decide (tok.head? = some '*')) name spawn next ∧
      '+' ∉ name ++ dollarPart spawn ∧ '$' ∉ name ∧
      (SV_ParseMapCmd sys w cmd).2.1.buffer
        = splitBuffer (decide (tok.head? = some '*')) name spawn next pad ∧
      (next = none →
        (SV_ParseMapCmd sys w cmd).2.2.cvars.nextserver = [] ∧
        Event.Cvar_Set "nextserver".toList [] ∈ (SV_ParseMapCmd sys w cmd).2.2.trace) ∧
      (∀ nx, next = some nx →
        (SV_ParseMapCmd sys w cmd).2.2.cvars.nextserver
          = "gamemap ".toList ++ Char.ofNat 34 :: (nx ++ [Char.ofNat 34]) ∧
        Event.Cvar_Set "nextserver".toList
            ("gamemap ".toList ++ Char.ofNat 34 :: (nx ++ [Char.ofNat 34]))
          ∈ (SV_ParseMapCmd sys w cmd).2.2.trace) := by
  obtain ⟨name, spawn, next, hbody, hplus, hname, hb, -, -, -, hns⟩ :=
    general_split w cmd tok pad hnul hbuf
  obtain ⟨fb, -, -, -, fc, -, -⟩ := parse_frame sys w cmd
  obtain ⟨htr, -, -, -⟩ := parse_branches sys w cmd
  have hev : Event.Cvar_Set "nextserver".toList (nextserverFor next)
      ∈ (SV_ParseMapCmd sys w cmd).2.2.trace := by
    obtain ⟨pr, -, hptr, -, -⟩ := parse_summary sys w cmd
    rw [hptr]
    apply List.mem_append_left
    have hload : ∀ (w' : World) (c : MapCommand) (s : List Char) (e : Event),
        e ∈ w'.trace → e ∈ (SV_ParseMapCmd_load sys w' c s).world.trace := by
      intro w' c s e he
      unfold SV_ParseMapCmd_load World.emit
      simp only []
      split_ifs <;> simp [he]
    apply hload
    rw [split_trace, hns]
    simp
  have hval : (SV_ParseMapCmd sys w cmd).2.2.cvars.nextserver = nextserverFor next := by
    rw [fc, hns]
  refine ⟨name, spawn, next, ?_, hplus, ?_, by rw [fb, hb], ?_, ?_⟩
  · unfold mapToken
    rw [← hbody]
    exact token_star_body tok
  · intro hmem
    rw [hname] at hmem
    have := takeWhile_all _ _ _ hmem
    simp at this
  · intro hnone
    subst hnone
    exact ⟨hval, hev⟩
  · intro nx hsome
    subst hsome
    have ht : nextserverFor (some nx)
        = "gamemap ".toList ++ Char.ofNat 34 :: (nx ++ [Char.ofNat 34]) := by
      show va_gamemap nx = "gamemap ".toList ++ Char.ofNat 34 :: (nx ++ [Char.ofNat 34])
      unfold va_gamemap DQUOTE
      simp
    rw [ht] at hval hev
    exact ⟨hval, hev⟩

/-- The token `nomap+base2` fails to load, yet `nextserver` no longer holds the queued
`gamemap old` but the fifteen characters `gamemap "base2"`, and the `+` in the buffer is a
terminator. -/
theorem SV_ParseMapCmd_not_atomic_witness :
    (NUL ∉ "nomap+base2".toList ∧
      sampleWorld.cvars.nextserver = "gamemap old".toList) ∧
    (SV_ParseMapCmd sampleServices sampleWorld
      (MapCommand.ofToken "nomap+base2".toList)).1 = false ∧
    (SV_ParseMapCmd sampleServices sampleWorld
      (MapCommand.ofToken "nomap+base2".toList)).2.2.cvars.nextserver
      = ['g', 'a', 'm', 'e', 'm', 'a', 'p', ' ', Char.ofNat 34, 'b', 'a', 's', 'e', '2',
          Char.ofNat 34] ∧
    (SV_ParseMapCmd sampleServices sampleWorld
      (MapCommand.ofToken "nomap+base2".toList)).2.1.buffer
      = "nomap".toList ++ NUL :: "base2".toList ++ [NUL] ∧
    ∃ (name : List Char) (spawn next : Option (List Char)),
      "nomap+base2".toList = mapToken false name spawn next ∧
      (SV_ParseMapCmd sampleServices sampleWorld
        (MapCommand.ofToken "nomap+base2".toList)).2.1.buffer
        = splitBuffer false name spawn next [] ∧
      (∀ nx, next = some nx →
        (SV_ParseMapCmd sampleServices sampleWorld
          (MapCommand.ofToken "nomap+base2".toList)).2.2.cvars.nextserver
          = "gamemap ".toList ++ Char.ofNat 34 :: (nx ++ [Char.ofNat 34])) := by
  refine ⟨by decide, by decide, by decide, by decide, ?_⟩
  obtain ⟨name, spawn, next, htok, -, -, hb, -, hsome⟩ :=
    SV_ParseMapCmd_not_atomic sampleServices sampleWorld
      (MapCommand.ofToken "nomap+base2".toList) "nomap+base2".toList [] (by decide) rfl
  exact ⟨name, spawn, next, htok, hb, fun nx h => (hsome nx h).1⟩

end Polyhedron
